import Mathlib

/-!
# User management service: repository, HTTP service, client and in-memory client

A shallow embedding of `internal/store`, `internal/api`, `pkg/client` and
`pkg/client/fake`, followed by theorems about them.

Conventions of the embedding.

* Go `string` is `String`, a text: a Go string holding bytes that are not valid
  UTF-8 is not a value of the embedding (`json.Marshal` writes U+FFFD for such
  bytes). Go `int`/`int64` are `Int` (the range of `int64` is checked where a
  decoder checks it); Go `error` is its message, `Option String` for a
  possibly-nil error.
* `time.Time` is an instant together with a zone offset. How a timestamp is
  rendered in JSON and read back belongs to the `time` package; service and
  client take it as the parameter `TimeCodec`, and `goCodec` is the codec of the
  `time` package itself.
* A body on the wire is represented by the JSON document it spells (`Body.json`),
  or is empty, or is some other byte string (`Body.invalid`).
* The repository is an interface; handlers are written against an arbitrary
  implementation with an arbitrary state, passed explicitly.  `recording` wraps an
  implementation so that every call is logged.
* `uuid.NewString()` and `time.Now()` are inputs of the operations that call them.
-/

namespace UserManage

/-! ## Basic values -/

/-- Value of type `time.Time`: an instant (nanoseconds since the Unix epoch) and the
offset of its location in seconds east of UTC. -/
structure Time where
  unixNano : Int
  zoneOffset : Int
deriving DecidableEq, Repr

/-- The zero value `time.Time{}`: January 1, year 1, 00:00:00 UTC. -/
def Time.zero : Time := ⟨-62135596800000000000, 0⟩

/-- Rendering performed by `Time.MarshalJSON` (which may refuse a timestamp) and
reading performed by `Time.UnmarshalJSON`, both on the content of the JSON string. -/
structure TimeCodec where
  format : Time → Option String
  parse : String → Option Time

/-- The sixteen bytes of a `uuid.UUID` value. -/
abbrev UUID := Fin 16 → Fin 256

/-- Lower-case hexadecimal digit of a value below sixteen. -/
def hexDigit (n : Nat) : Char :=
  match n with
  | 0 => '0' | 1 => '1' | 2 => '2' | 3 => '3' | 4 => '4' | 5 => '5' | 6 => '6' | 7 => '7'
  | 8 => '8' | 9 => '9' | 10 => 'a' | 11 => 'b' | 12 => 'c' | 13 => 'd' | 14 => 'e'
  | _ => 'f'

/-- Two hexadecimal digits of a byte. -/
def hexByte (b : Fin 256) : List Char := [hexDigit (b.val / 16), hexDigit (b.val % 16)]

/-- Text form `xxxxxxxx-xxxx-xxxx-xxxx-xxxxxxxxxxxx` of a UUID, as returned by
`uuid.NewString()`. -/
def UUID.String (u : UUID) : String :=
  String.mk (hexByte (u 0) ++ hexByte (u 1) ++ hexByte (u 2) ++ hexByte (u 3) ++ ['-']
    ++ hexByte (u 4) ++ hexByte (u 5) ++ ['-']
    ++ hexByte (u 6) ++ hexByte (u 7) ++ ['-']
    ++ hexByte (u 8) ++ hexByte (u 9) ++ ['-']
    ++ hexByte (u 10) ++ hexByte (u 11) ++ hexByte (u 12) ++ hexByte (u 13)
    ++ hexByte (u 14) ++ hexByte (u 15))

/-! ## time: the JSON form of a timestamp

`Time.MarshalJSON` writes a timestamp in the layout of RFC 3339 with nanoseconds and
refuses the timestamps that layout cannot hold; `Time.UnmarshalJSON` reads such a text.
Both work on local date and clock, computed here from the instant and the zone offset. -/

/-- Function `isLeap`. -/
def isLeap (year : Int) : Bool := decide (year % 4 = 0 ∧ (year % 100 ≠ 0 ∨ year % 400 = 0))

/-- Function `daysIn`: the number of days of a month of a year. -/
def daysIn (month year : Int) : Int :=
  if month = 2 then (if isLeap year then 29 else 28)
  else if month = 4 ∨ month = 6 ∨ month = 9 ∨ month = 11 then 30
  else 31

/-- Year, month and day of the day number `days` (days since January 1, 1970) in the
proleptic Gregorian calendar, as `Time.Date` reports them. Days are counted from March 1
of year 0; cycles of 400 years, then of 100 years, of 4 years and single years are cut off,
the last of each being one day longer or shorter; a year runs from March to February. -/
def civilFromDays (days : Int) : Int × Int × Int :=
  let z := days + 719468
  let era := z / 146097
  let doe := z % 146097
  let c := doe / 36524 - doe / 146096
  let d1 := doe - 36524 * c
  let q := d1 / 1461
  let d2 := d1 % 1461
  let n := d2 / 365 - d2 / 1460
  let doy := d2 - 365 * n
  let mp := (5 * doy + 2) / 153
  let day := doy - (153 * mp + 2) / 5 + 1
  let month := if mp < 10 then mp + 3 else mp - 9
  let year := 100 * c + 4 * q + n + era * 400 + (if month ≤ 2 then 1 else 0)
  (year, month, day)

/-- Day number (days since January 1, 1970) of a date of the proleptic Gregorian calendar,
as `Date` computes it for a month and a day within range. -/
def daysFromCivil (year month day : Int) : Int :=
  let y := if month ≤ 2 then year - 1 else year
  let era := y / 400
  let yoe := y % 400
  let mp := if month ≤ 2 then month + 9 else month - 3
  let doy := (153 * mp + 2) / 5 + day - 1
  era * 146097 + yoe * 365 + yoe / 4 - yoe / 100 + doy - 719468

/-- Seconds since the Unix epoch of the local clock reading of a timestamp. -/
def Time.localSec (t : Time) : Int := (t.unixNano + t.zoneOffset * 1000000000) / 1000000000

/-- Method `Time.Nanosecond`. -/
def Time.Nanosecond (t : Time) : Int := t.unixNano % 1000000000

/-- Method `Time.Year`, in the zone of the timestamp. -/
def Time.Year (t : Time) : Int := (civilFromDays (t.localSec / 86400)).1

/-- The character of a decimal digit. -/
def digit (n : Int) : Char := Char.ofNat (48 + n.toNat)

/-- The value of a decimal digit character. -/
def digitValue (c : Char) : Option Int :=
  if 48 ≤ c.toNat ∧ c.toNat ≤ 57 then some ((c.toNat : Int) - 48) else none

/-- Function `appendInt(b, x, 2)` for `0 ≤ x < 100`. -/
def appendInt2 (x : Int) : List Char := [digit (x / 10), digit (x % 10)]

/-- Function `appendInt(b, x, 4)` for `0 ≤ x < 10000`. -/
def appendInt4 (x : Int) : List Char :=
  [digit (x / 1000), digit (x / 100 % 10), digit (x / 10 % 10), digit (x % 10)]

/-- The first `width` decimal digits of `x` written with `width` digits, up to the last one
that is not zero. -/
def fractionDigits : Nat → Int → List Char
  | 0, _ => []
  | width + 1, x =>
    if x = 0 then [] else digit (x / 10 ^ width) :: fractionDigits width (x % 10 ^ width)

/-- Function `appendNano` for the layout `.999999999`: nothing for zero nanoseconds,
otherwise a period and the nine digits without their trailing zeros. -/
def appendNano (nanosec : Int) : List Char :=
  if nanosec = 0 then [] else '.' :: fractionDigits 9 nanosec

/-- The zone offset in minutes as `appendFormatRFC3339` takes it: the Go quotient
`offset / 60`, which truncates toward zero. -/
def zoneMinutes (offset : Int) : Int :=
  if offset < 0 then -((-offset) / 60) else offset / 60

/-- Zone part written by `appendFormatRFC3339`: `Z` for offset zero, otherwise sign, hours
and minutes of the offset; its seconds are not written. -/
def appendZone (offset : Int) : List Char :=
  if offset = 0 then ['Z']
  else
    let zone := zoneMinutes offset
    if zone < 0 then '-' :: (appendInt2 (-zone / 60) ++ ':' :: appendInt2 (-zone % 60))
    else '+' :: (appendInt2 (zone / 60) ++ ':' :: appendInt2 (zone % 60))

/-- Function `appendStrictRFC3339`: the text `2006-01-02T15:04:05.999999999Z07:00` of a
timestamp; refused when the year is outside 0..9999 or the zone offset reaches 24 hours. -/
def appendStrictRFC3339 (t : Time) : Option (List Char) :=
  let date := civilFromDays (t.localSec / 86400)
  let clock := t.localSec % 86400
  let zone := zoneMinutes t.zoneOffset
  if date.1 < 0 ∨ 9999 < date.1 then none
  else if zone / 60 ≥ 24 ∨ -zone / 60 ≥ 24 then none
  else
    some (appendInt4 date.1 ++ '-' :: (appendInt2 date.2.1 ++ '-' :: (appendInt2 date.2.2
      ++ 'T' :: (appendInt2 (clock / 3600) ++ ':' :: (appendInt2 (clock % 3600 / 60)
      ++ ':' :: (appendInt2 (clock % 60) ++ (appendNano t.Nanosecond
      ++ appendZone t.zoneOffset)))))))

/-- Method `Time.MarshalJSON`: the content of the JSON string written for a timestamp, or
`none` when it is refused. -/
def Time.MarshalJSON (t : Time) : Option String := (appendStrictRFC3339 t).map String.mk

/-- Function `parseUint` inside `parseRFC3339`: the digits read as a decimal number, when
all are digits and the number lies between `lo` and `hi`. -/
def parseUint (s : List Char) (lo hi : Int) : Option Int :=
  match s.foldl (fun acc c => acc.bind fun x => (digitValue c).map fun d => x * 10 + d)
      (some 0) with
  | some x => if x < lo ∨ hi < x then none else some x
  | none => none

/-- Digits of a fractional second: the value in nanoseconds of the leading digits, of which
at most `width` count, and the text after them. -/
def readFraction : List Char → Nat → Int × List Char
  | [], _ => (0, [])
  | c :: rest, width =>
    match digitValue c with
    | none => (0, c :: rest)
    | some d =>
      match width with
      | 0 => readFraction rest 0
      | w + 1 => (d * 10 ^ w + (readFraction rest w).1, (readFraction rest w).2)

/-- The fractional second at the head of a text, as `parseRFC3339` reads it: present when
the text starts with a period and a digit; nanoseconds and the text after it. -/
def parseFraction (s : List Char) : Int × List Char :=
  match s with
  | dot :: c :: rest =>
    if dot = '.' ∧ (digitValue c).isSome then readFraction (c :: rest) 9 else (0, s)
  | _ => (0, s)

/-- The zone at the end of a text, as `parseRFC3339` reads it: `Z`, or sign, two digits of
hours up to 23, a colon and two digits of minutes up to 59; the offset in seconds. -/
def parseZone (s : List Char) : Option Int :=
  if s = ['Z'] then some 0
  else
    match s with
    | [sign, h1, h2, colon, m1, m2] =>
      (parseUint [h1, h2] 0 23).bind fun hr =>
      (parseUint [m1, m2] 0 59).bind fun mm =>
      if (sign = '-' ∨ sign = '+') ∧ colon = ':' then
        some (if sign = '-' then -((hr * 60 + mm) * 60) else (hr * 60 + mm) * 60)
      else none
    | _ => none

/-- Function `parseRFC3339`: the strict reading of a text in the layout
`2006-01-02T15:04:05[.fraction](Z|±07:00)`. -/
def parseRFC3339 (s : List Char) : Option Time :=
  match s with
  | y1 :: y2 :: y3 :: y4 :: c4 :: m1 :: m2 :: c7 :: d1 :: d2 :: c10 :: h1 :: h2 :: c13 ::
      n1 :: n2 :: c16 :: s1 :: s2 :: rest =>
    (parseUint [y1, y2, y3, y4] 0 9999).bind fun year =>
    (parseUint [m1, m2] 1 12).bind fun month =>
    (parseUint [d1, d2] 1 (daysIn month year)).bind fun day =>
    (parseUint [h1, h2] 0 23).bind fun hour =>
    (parseUint [n1, n2] 0 59).bind fun minute =>
    (parseUint [s1, s2] 0 59).bind fun sec =>
    if c4 = '-' ∧ c7 = '-' ∧ c10 = 'T' ∧ c13 = ':' ∧ c16 = ':' then
      (parseZone (parseFraction rest).2).map fun zoneOffset =>
        ⟨(daysFromCivil year month day * 86400 + hour * 3600 + minute * 60 + sec
            - zoneOffset) * 1000000000 + (parseFraction rest).1, zoneOffset⟩
    else none
  | _ => none

/-- Method `Time.UnmarshalJSON` on the content of a JSON string (`parseStrictRFC3339`):
the strict reading, and for a text it refuses whatever the general `time.Parse` with the
layout RFC 3339 makes of it; that function is the parameter `Parse`. -/
def Time.UnmarshalJSON (Parse : String → Option Time) (s : String) : Option Time :=
  match parseRFC3339 s.data with
  | some t => some t
  | none => Parse s

/-- The JSON codec of `time.Time`. -/
def goCodec (Parse : String → Option Time) : TimeCodec :=
  { format := Time.MarshalJSON, parse := Time.UnmarshalJSON Parse }

/-! ## JSON documents and bodies -/

/-- A JSON document. `num` is a number written as an integer literal, `real` any other
number literal (with a fraction or an exponent), kept as text. -/
inductive JValue where
  | null
  | bool (b : Bool)
  | num (n : Int)
  | real (lit : String)
  | str (s : String)
  | arr (items : List JValue)
  | obj (members : List (String × JValue))

/-- The bytes of an HTTP body: none, the text of a JSON document, or bytes that are not
a well-formed JSON text. -/
inductive Body where
  | empty
  | json (doc : JValue)
  | invalid

/-- Concatenation of written bytes. Two non-empty pieces never spell one document. -/
def Body.append : Body → Body → Body
  | Body.empty, b => b
  | a, Body.empty => a
  | _, _ => Body.invalid

/-- Whether an integer fits Go `int64` (and `int` on 64-bit platforms). -/
def inInt64 (n : Int) : Prop := -9223372036854775808 ≤ n ∧ n ≤ 9223372036854775807

instance (n : Int) : Decidable (inInt64 n) := by unfold inInt64; infer_instance

/-- Type `url.Values`, as the list of its (key, first value) pairs. -/
abbrev Values := List (String × String)

/-- Method `Values.Get`: the first value of the key, or the empty string. -/
def Values.Get : Values → String → String
  | [], _ => ""
  | (k, v) :: rest, key => if k = key then v else Values.Get rest key

/-- Method `Values.Set`: the key now has exactly the given value. -/
def Values.Set (vs : Values) (key value : String) : Values :=
  vs.filter (fun p => p.1 ≠ key) ++ [(key, value)]

def StatusOK : Nat := 200
def StatusBadRequest : Nat := 400
def StatusInternalServerError : Nat := 500

/-! ## internal/store -/

namespace Store

/-- Struct `store.User`. `DeletedAt` is the soft-delete mark (`gorm.DeletedAt`). -/
structure User where
  ID : String
  Name : String
  Email : String
  Password : String
  Age : Int
  CreatedAt : Time
  UpdatedAt : Time
  DeletedAt : Option Time
deriving DecidableEq, Repr

/-- Interface `store.UserRepository` over an implementation state `σ`. A lookup that
returns a nil error returns a record. `Create` and `Update` receive a pointer and may
write to the record; `Update` hands the record back because `updateUser` reads it after
the call, `Create` does not because `createUser` never reads its argument again. -/
structure UserRepository (σ : Type) where
  Create : User → σ → Option String × σ
  GetByID : String → σ → Except String User × σ
  GetByEmail : String → σ → Except String User × σ
  Update : User → σ → Option String × User × σ
  DeleteByID : String → σ → Option String × σ
  List : Int → Int → σ → Except String (List User × Int) × σ

/-- One invocation of a repository method, with its arguments. -/
inductive Call where
  | create (user : User)
  | getByID (id : String)
  | getByEmail (email : String)
  | update (user : User)
  | deleteByID (id : String)
  | list (page pageSize : Int)
deriving DecidableEq, Repr

/-- The same repository, logging every invocation in order. -/
def recording {σ : Type} (repo : UserRepository σ) : UserRepository (σ × List Call) where
  Create := fun u s => ((repo.Create u s.1).1, (repo.Create u s.1).2, s.2 ++ [Call.create u])
  GetByID := fun id s =>
    ((repo.GetByID id s.1).1, (repo.GetByID id s.1).2, s.2 ++ [Call.getByID id])
  GetByEmail := fun e s =>
    ((repo.GetByEmail e s.1).1, (repo.GetByEmail e s.1).2, s.2 ++ [Call.getByEmail e])
  Update := fun u s =>
    ((repo.Update u s.1).1, (repo.Update u s.1).2.1, (repo.Update u s.1).2.2,
      s.2 ++ [Call.update u])
  DeleteByID := fun id s =>
    ((repo.DeleteByID id s.1).1, (repo.DeleteByID id s.1).2, s.2 ++ [Call.deleteByID id])
  List := fun p n s => ((repo.List p n s.1).1, (repo.List p n s.1).2, s.2 ++ [Call.list p n])

end Store

/-! ## internal/api -/

namespace Api

/-- Struct `api.User`, the record as it is put on the wire. -/
structure User where
  ID : String
  Name : String
  Email : String
  Age : Int
  CreatedAt : Time
  UpdatedAt : Time
deriving DecidableEq, Repr

def convertModelUser (modelUser : Store.User) : User :=
  { ID := modelUser.ID
    Name := modelUser.Name
    Email := modelUser.Email
    Age := modelUser.Age
    CreatedAt := modelUser.CreatedAt
    UpdatedAt := modelUser.UpdatedAt }

/-- What a handler passes to `Service.data`: a `*User`, or the map with keys `total` and
`users` built by `listUser`. -/
inductive Payload where
  | user (u : User)
  | list (total : Int) (users : List User)

/-- Result of `json.Marshal` on a `User`: the fields in declaration order under their
`json` tags; `none` when a timestamp is refused. Strings are written as they are, which is
what `json.Marshal` does with valid UTF-8 (it replaces every other byte by U+FFFD; such
strings are not values of the embedding). -/
def marshalUser (tc : TimeCodec) (u : User) : Option JValue :=
  match tc.format u.CreatedAt, tc.format u.UpdatedAt with
  | some c, some m =>
    some (JValue.obj [("id", JValue.str u.ID), ("name", JValue.str u.Name),
      ("email", JValue.str u.Email), ("age", JValue.num u.Age),
      ("createdAt", JValue.str c), ("updatedAt", JValue.str m)])
  | _, _ => none

/-- Result of `json.Marshal` on a `[]User`. -/
def marshalUsers (tc : TimeCodec) : List User → Option (List JValue)
  | [] => some []
  | u :: rest =>
    match marshalUser tc u, marshalUsers tc rest with
    | some j, some js => some (j :: js)
    | _, _ => none

/-- Result of `json.Marshal` on a payload; a map is written with its keys sorted. -/
def marshalPayload (tc : TimeCodec) : Payload → Option JValue
  | Payload.user u => marshalUser tc u
  | Payload.list total users =>
    match marshalUsers tc users with
    | some js => some (JValue.obj [("total", JValue.num total), ("users", JValue.arr js)])
    | none => none

/-- Bytes of `json.Marshal(&DataResponse{Data: body})` with the error dropped: no bytes
when marshalling fails. -/
def dataBody (tc : TimeCodec) (body : Payload) : Body :=
  match marshalPayload tc body with
  | some j => Body.json (JValue.obj [("data", j)])
  | none => Body.empty

/-- Bytes of `json.Marshal(&ErrorResponse{Error: err.Error()})`. -/
def errorBody (err : String) : Body :=
  Body.json (JValue.obj [("error", JValue.str err)])

/-- The server's view of a request: method, path and parsed form. -/
structure Request where
  Method : String
  Path : String
  Form : Values

/-- Method `Request.FormValue`. -/
def Request.FormValue (r : Request) (key : String) : String := r.Form.Get key

/-- The `http.ResponseWriter` of one request, as recorded by `httptest.NewRecorder`. -/
structure ResponseWriter where
  Code : Nat
  wroteHeader : Bool
  Body : Body

def NewRecorder : ResponseWriter := ⟨StatusOK, false, Body.empty⟩

def ResponseWriter.WriteHeader (w : ResponseWriter) (code : Nat) : ResponseWriter :=
  if w.wroteHeader then w else { w with Code := code, wroteHeader := true }

def ResponseWriter.Write (w : ResponseWriter) (data : UserManage.Body) : ResponseWriter :=
  let w1 := w.WriteHeader StatusOK
  { w1 with Body := w1.Body.append data }

/-- Struct `api.Service`: the repository it was built with, and the JSON environment. -/
structure Service (σ : Type) where
  userRepo : Store.UserRepository σ
  tc : TimeCodec

def Service.data {σ : Type} (s : Service σ) (w : ResponseWriter) (body : Payload) :
    ResponseWriter :=
  w.Write (dataBody s.tc body)

def Service.error {σ : Type} (_s : Service σ) (w : ResponseWriter) (err : String) :
    ResponseWriter :=
  w.Write (errorBody err)

/-- Handler `Service.createUser`; `newID` is what `uuid.NewString()` draws. -/
def Service.createUser {σ : Type} (s : Service σ) (newID : UUID) (w : ResponseWriter)
    (r : Request) (st : σ) : ResponseWriter × σ :=
  let name := r.FormValue "name"
  if name = "" then
    (s.error (w.WriteHeader StatusBadRequest) "param name not set", st)
  else
    let email := r.FormValue "email"
    if email = "" then
      (s.error (w.WriteHeader StatusBadRequest) "param email not set", st)
    else
      match s.userRepo.Create
          { ID := newID.String, Name := name, Email := email, Password := "", Age := 0,
            CreatedAt := Time.zero, UpdatedAt := Time.zero, DeletedAt := none } st with
      | (some err, st1) => (s.error (w.WriteHeader StatusInternalServerError) err, st1)
      | (none, st1) =>
        match s.userRepo.GetByEmail email st1 with
        | (Except.error err, st2) =>
          (s.error (w.WriteHeader StatusInternalServerError) err, st2)
        | (Except.ok user, st2) => (s.data w (Payload.user (convertModelUser user)), st2)

/-- Handler `Service.getUser`. -/
def Service.getUser {σ : Type} (s : Service σ) (w : ResponseWriter) (r : Request) (st : σ) :
    ResponseWriter × σ :=
  let id := r.FormValue "id"
  let email := r.FormValue "email"
  if id = "" ∧ email = "" then
    (s.error (w.WriteHeader StatusBadRequest) "param id or email not set", st)
  else
    match (if id ≠ "" then s.userRepo.GetByID id st else s.userRepo.GetByEmail email st) with
    | (Except.error err, st1) => (s.error (w.WriteHeader StatusInternalServerError) err, st1)
    | (Except.ok user, st1) => (s.data w (Payload.user (convertModelUser user)), st1)

/-- Handler `Service.updateUser`. -/
def Service.updateUser {σ : Type} (s : Service σ) (w : ResponseWriter) (r : Request)
    (st : σ) : ResponseWriter × σ :=
  let id := r.FormValue "id"
  if id = "" then
    (s.error (w.WriteHeader StatusBadRequest) "param id not set", st)
  else
    let name := r.FormValue "name"
    if name = "" then
      (s.error (w.WriteHeader StatusBadRequest) "param name not set", st)
    else
      match s.userRepo.GetByID id st with
      | (Except.error err, st1) => (s.error (w.WriteHeader StatusInternalServerError) err, st1)
      | (Except.ok user, st1) =>
        match s.userRepo.Update { user with Name := name } st1 with
        | (some err, _, st2) => (s.error (w.WriteHeader StatusInternalServerError) err, st2)
        | (none, user1, st2) => (s.data w (Payload.user (convertModelUser user1)), st2)

/-- Handler `Service.deleteUser`. -/
def Service.deleteUser {σ : Type} (s : Service σ) (w : ResponseWriter) (r : Request)
    (st : σ) : ResponseWriter × σ :=
  let id := r.FormValue "id"
  if id = "" then
    (s.error (w.WriteHeader StatusBadRequest) "param id not set", st)
  else
    match s.userRepo.DeleteByID id st with
    | (some err, st1) => (s.error (w.WriteHeader StatusInternalServerError) err, st1)
    | (none, st1) => (w, st1)

/-- Handler `Service.listUser`. -/
def Service.listUser {σ : Type} (s : Service σ) (w : ResponseWriter) (_r : Request)
    (st : σ) : ResponseWriter × σ :=
  match s.userRepo.List 1 100 st with
  | (Except.error err, st1) => (s.error (w.WriteHeader StatusInternalServerError) err, st1)
  | (Except.ok (users, total), st1) =>
    (s.data w (Payload.list total (users.map convertModelUser)), st1)

end Api

/-! ## Go maps -/

/-- Lookup in a list of entries: the first entry of the key. -/
def findEntry {V : Type} : List (String × V) → String → Option V
  | [], _ => none
  | (k, v) :: rest, key => if k = key then some v else findEntry rest key

/-- Store into a list of entries: the entry of the key is replaced, or one is added. -/
def storeEntry {V : Type} : List (String × V) → String → V → List (String × V)
  | [], key, val => [(key, val)]
  | (k, v) :: rest, key, val =>
    if k = key then (key, val) :: rest else (k, v) :: storeEntry rest key val

/-- Removal from a list of entries. -/
def dropEntry {V : Type} (l : List (String × V)) (key : String) : List (String × V) :=
  l.filter (fun p => p.1 ≠ key)

/-- A Go `map[string]V` that has been made: its entries in iteration order, no key
twice. -/
structure GoMap (V : Type) where
  entries : List (String × V)
  nodup : (entries.map Prod.fst).Nodup

namespace GoMap

/-- The map literal `map[string]V{}`. -/
def empty {V : Type} : GoMap V := ⟨[], List.nodup_nil⟩

/-- The two-result index expression `v, ok := m[key]`: `none` stands for `ok == false`. -/
def get {V : Type} (m : GoMap V) (key : String) : Option V := findEntry m.entries key

/-- The assignment `m[key] = val`. -/
def set {V : Type} (m : GoMap V) (key : String) (val : V) : GoMap V :=
  ⟨storeEntry m.entries key val, by
    have keys : ∀ l : List (String × V), (storeEntry l key val).map Prod.fst
        = if key ∈ l.map Prod.fst then l.map Prod.fst else l.map Prod.fst ++ [key] := by
      intro l
      induction l with
      | nil => simp [storeEntry]
      | cons p rest ih =>
        obtain ⟨k, v⟩ := p
        by_cases hk : k = key
        · simp [storeEntry, hk]
        · have hk2 : ¬ key = k := fun h => hk h.symm
          by_cases hm : key ∈ rest.map Prod.fst
          · simp only [storeEntry, hk, if_false, List.map_cons, ih, hm, if_true,
              List.mem_cons, or_true]
          · simp only [storeEntry, hk, if_false, List.map_cons, ih, hm, List.mem_cons, hk2,
              or_self, List.cons_append]
    rw [keys]
    split
    · exact m.nodup
    · rename_i hm
      exact List.Nodup.append m.nodup (List.nodup_singleton key)
        (by simpa [List.disjoint_singleton] using hm)⟩

/-- The statement `delete(m, key)`. -/
def delete {V : Type} (m : GoMap V) (key : String) : GoMap V :=
  ⟨dropEntry m.entries key,
    List.Nodup.sublist ((List.filter_sublist m.entries).map Prod.fst) m.nodup⟩

/-- The value of `len(m)`. -/
def len {V : Type} (m : GoMap V) : Nat := m.entries.length

end GoMap

/-! ## pkg/client: the record -/

namespace Client

/-- Struct `client.User`. -/
structure User where
  ID : String
  Name : String
  Email : String
  Age : Int
  CreatedAt : Time
  UpdatedAt : Time
deriving DecidableEq, Repr

end Client

/-! ## pkg/client/fake -/

namespace Fake

/-- A state of `fakeClient` in which both maps have been made, without the lock. The Go
value itself, whose maps may be nil, is `fakeClientValue` below, with the methods that
store into a map. Records are held by value: the code stores `*client.User` and returns
the stored pointer, so a caller who writes through a returned pointer changes the stored
record; such a write is not one of the methods and is not modelled. -/
structure fakeClient where
  users : GoMap Client.User
  usersByEmail : GoMap String

/-- Method `fakeClient.UserCreate`; `newID` is what `uuid.NewString()` draws and `now` what
`time.Now()` reads. The result is the returned pair (record or nil, error or nil) and the
state left behind. -/
def fakeClient.UserCreate (c : fakeClient) (newID : UUID) (now : Time) (u : Client.User) :
    (Option Client.User × Option String) × fakeClient :=
  match c.usersByEmail.get u.Email with
  | some _ => ((none, some "user already exists"), c)
  | none =>
    let id := newID.String
    let users := c.users.set id
      { ID := id, Name := u.Name, Email := u.Email, Age := u.Age,
        CreatedAt := now, UpdatedAt := now }
    let usersByEmail := c.usersByEmail.set u.Email id
    ((users.get id, none), ⟨users, usersByEmail⟩)

/-- Method `fakeClient.UserGet`. -/
def fakeClient.UserGet (c : fakeClient) (id : String) :
    (Option Client.User × Option String) × fakeClient :=
  match c.users.get id with
  | none => ((none, some "user already exists"), c)
  | some user => ((some user, none), c)

/-- Method `fakeClient.UserUpdate`. -/
def fakeClient.UserUpdate (c : fakeClient) (u : Client.User) : Option String × fakeClient :=
  match c.users.get u.ID with
  | none => (some "user already exists", c)
  | some user => (none, { c with users := c.users.set u.ID { user with Name := u.Name } })

/-- Method `fakeClient.UserDelete`. -/
def fakeClient.UserDelete (c : fakeClient) (id : String) : Option String × fakeClient :=
  match c.users.get id with
  | none => (some "user already exists", c)
  | some user =>
    (none, { users := c.users.delete id, usersByEmail := c.usersByEmail.delete user.Email })

/-- Method `fakeClient.UserList`. Go does not fix the order in which `range` visits a map,
and it changes from call to call; the model lists the records in the order of the
entries, and no statement depends on that order. -/
def fakeClient.UserList (c : fakeClient) : (List Client.User × Int) × fakeClient :=
  let total := c.users.len
  let users := c.users.entries.map (fun p =>
    ({ ID := p.2.ID, Name := p.2.Name, Email := p.2.Email, Age := p.2.Age,
       CreatedAt := p.2.CreatedAt, UpdatedAt := p.2.UpdatedAt } : Client.User))
  ((users, (total : Int)), c)

/-- A value of the Go type `fakeClient`, without the lock: each map is nil (`none`) or
made. -/
structure fakeClientValue where
  users : Option (GoMap Client.User)
  usersByEmail : Option (GoMap String)

/-- The zero value `fakeClient{}`, the one `&fakeClient{}` builds: both maps nil. -/
def fakeClientValue.zero : fakeClientValue := ⟨none, none⟩

/-- The Go value of a state whose maps are made. -/
def fakeClient.toValue (c : fakeClient) : fakeClientValue :=
  ⟨some c.users, some c.usersByEmail⟩

/-- The index expression `v, ok := m[key]` on a map that may be nil: a nil map has no
key. -/
def lookupNil {V : Type} (m : Option (GoMap V)) (key : String) : Option V :=
  match m with
  | none => none
  | some made => made.get key

/-- How a call on a `fakeClientValue` ends: it returns its results, or it panics; either
way with the state it leaves behind (the deferred unlock runs in both cases). -/
inductive Outcome (α : Type) where
  | returned (result : α) (state : fakeClientValue)
  | panicked (state : fakeClientValue)

/-- Method `fakeClient.UserCreate` on a Go value. The assignments `c.users[id] = ...` and
`c.usersByEmail[u.Email] = id` panic when the map is nil. -/
def fakeClientValue.UserCreate (c : fakeClientValue) (newID : UUID) (now : Time)
    (u : Client.User) : Outcome (Option Client.User × Option String) :=
  match lookupNil c.usersByEmail u.Email with
  | some _ => Outcome.returned (none, some "user already exists") c
  | none =>
    let id := newID.String
    match c.users with
    | none => Outcome.panicked c
    | some users =>
      let users1 := users.set id
        { ID := id, Name := u.Name, Email := u.Email, Age := u.Age,
          CreatedAt := now, UpdatedAt := now }
      match c.usersByEmail with
      | none => Outcome.panicked ⟨some users1, none⟩
      | some usersByEmail =>
        Outcome.returned (users1.get id, none) ⟨some users1, some (usersByEmail.set u.Email id)⟩

/-- Method `fakeClient.UserGet` on a Go value. -/
def fakeClientValue.UserGet (c : fakeClientValue) (id : String) :
    Outcome (Option Client.User × Option String) :=
  match lookupNil c.users id with
  | none => Outcome.returned (none, some "user already exists") c
  | some user => Outcome.returned (some user, none) c

end Fake

/-! ## net/http as seen by the client -/

namespace Client

/-- An `*http.Request` as the client holds it: method, URL text and the field `Form`.
Its body is nil, every request here being built with `http.NewRequest(_, _, nil)`. -/
structure Request where
  Method : String
  URL : String
  Form : Values
deriving DecidableEq, Repr

/-- What `io.ReadAll(resp.Body)` returns: all the bytes, or the bytes read so far (as text)
together with an error. -/
inductive ReadAll where
  | ok (data : Body)
  | failed (soFar : String) (err : String)

/-- An `*http.Response`: status code and body stream. -/
structure HTTPResponse where
  StatusCode : Nat
  Body : ReadAll

/-- The `net/http` environment of a client over a network state `τ`: the error, if any,
with which `http.NewRequest(method, url, nil)` refuses its arguments, and the exchange
`httpClient.Do`, which answers with a response or fails. -/
structure HTTP (τ : Type) where
  newRequestErr : String → String → Option String
  Do : Request → τ → Except String HTTPResponse × τ

/-- Function `http.NewRequest(method, url, nil)`. -/
def HTTP.NewRequest {τ : Type} (h : HTTP τ) (method url : String) : Except String Request :=
  match h.newRequestErr method url with
  | some err => Except.error err
  | none => Except.ok { Method := method, URL := url, Form := [] }

/-- The same environment, logging every request handed to `Do`. -/
def HTTP.recording {τ : Type} (h : HTTP τ) : HTTP (τ × List Request) where
  newRequestErr := h.newRequestErr
  Do := fun req s => ((h.Do req s.1).1, (h.Do req s.1).2, s.2 ++ [req])

/-! ## encoding/json as used by the client -/

/-- Letter folding of `encoding/json` field matching, on one character: ASCII letters go to
upper case, the long s and the Kelvin sign go to `S` and `K`. (Other characters outside
ASCII fold among themselves and never reach an ASCII letter.) -/
def foldChar (c : Char) : Char :=
  if 'a'.toNat ≤ c.toNat ∧ c.toNat ≤ 'z'.toNat then Char.ofNat (c.toNat - 32)
  else if c.toNat = 0x17F then 'S'
  else if c.toNat = 0x212A then 'K'
  else c

/-- Function `foldName` of `encoding/json`. -/
def foldName (s : String) : String := String.mk (s.data.map foldChar)

/-- The struct field a JSON object key selects: the field of exactly that name, else the
first field equal to it under folding. -/
def matchField (fields : List String) (key : String) : Option String :=
  if key ∈ fields then some key
  else fields.find? (fun f => decide (foldName f = foldName key))

/-- Why `json.Unmarshal` fails: the bytes are not a JSON text, or the document does not fit
the Go value it is decoded into. -/
inductive DecodeError where
  | syntaxError
  | mismatch
deriving DecidableEq, Repr

/-- Decoding into a `string` that currently holds `cur`. -/
def decodeString (v : JValue) (cur : String) : Except DecodeError String :=
  match v with
  | JValue.str s => Except.ok s
  | JValue.null => Except.ok cur
  | _ => Except.error DecodeError.mismatch

/-- Decoding into an `int` or `int64` that currently holds `cur`. -/
def decodeInt (v : JValue) (cur : Int) : Except DecodeError Int :=
  match v with
  | JValue.num n => if inInt64 n then Except.ok n else Except.error DecodeError.mismatch
  | JValue.null => Except.ok cur
  | _ => Except.error DecodeError.mismatch

/-- Decoding into a `time.Time` that currently holds `cur`, through `Time.UnmarshalJSON`. -/
def decodeTime (tc : TimeCodec) (v : JValue) (cur : Time) : Except DecodeError Time :=
  match v with
  | JValue.str s =>
    match tc.parse s with
    | some t => Except.ok t
    | none => Except.error DecodeError.mismatch
  | JValue.null => Except.ok cur
  | _ => Except.error DecodeError.mismatch

/-- The zero value `User{}`. -/
def User.zero : User :=
  { ID := "", Name := "", Email := "", Age := 0, CreatedAt := Time.zero,
    UpdatedAt := Time.zero }

/-- The `json` names of the fields of `User`. -/
def userFields : List String := ["id", "name", "email", "age", "createdAt", "updatedAt"]

/-- Decoding one member of a JSON object into the `User` that currently holds `cur`. -/
def decodeUserMember (tc : TimeCodec) (cur : User) (key : String) (v : JValue) :
    Except DecodeError User :=
  match matchField userFields key with
  | some "id" => (decodeString v cur.ID).map (fun x => { cur with ID := x })
  | some "name" => (decodeString v cur.Name).map (fun x => { cur with Name := x })
  | some "email" => (decodeString v cur.Email).map (fun x => { cur with Email := x })
  | some "age" => (decodeInt v cur.Age).map (fun x => { cur with Age := x })
  | some "createdAt" => (decodeTime tc v cur.CreatedAt).map (fun x => { cur with CreatedAt := x })
  | some "updatedAt" => (decodeTime tc v cur.UpdatedAt).map (fun x => { cur with UpdatedAt := x })
  | _ => Except.ok cur

/-- Decoding the members of a JSON object, in order, into a `User`. -/
def decodeUserMembers (tc : TimeCodec) : List (String × JValue) → User → Except DecodeError User
  | [], cur => Except.ok cur
  | (k, v) :: rest, cur =>
    match decodeUserMember tc cur k v with
    | Except.ok next => decodeUserMembers tc rest next
    | Except.error e => Except.error e

/-- Decoding a JSON value into a `User` that currently holds `cur`. -/
def decodeUser (tc : TimeCodec) (v : JValue) (cur : User) : Except DecodeError User :=
  match v with
  | JValue.obj members => decodeUserMembers tc members cur
  | JValue.null => Except.ok cur
  | _ => Except.error DecodeError.mismatch

/-- Decoding the elements of a JSON array into a `[]User` that currently holds `cur`: each
element is decoded into the element the slice holds at that index, or into a fresh one
beyond its length; the result has as many elements as the array. (The spare capacity of a
slice that was longer before is not modelled.) -/
def decodeUsers (tc : TimeCodec) : List JValue → List User → Except DecodeError (List User)
  | [], _ => Except.ok []
  | v :: rest, cur =>
    match decodeUser tc v (cur.headD User.zero), decodeUsers tc rest cur.tail with
    | Except.ok u, Except.ok us => Except.ok (u :: us)
    | Except.error e, _ => Except.error e
    | _, Except.error e => Except.error e

end Client

/-! ## pkg/client -/

namespace Client

/-- Struct `CreateGetResponse`. -/
structure CreateGetResponse where
  Data : User

/-- Struct `ListResponseData`. -/
structure ListResponseData where
  Total : Int
  Users : List User

/-- Struct `ListResponse`. -/
structure ListResponse where
  Data : ListResponseData

/-- Struct `Response`; a nil `Data` is `none`. -/
structure Response where
  Data : Option JValue
  Error : String

/-- Decoding one member of the top-level object into a `CreateGetResponse`. -/
def decodeCreateGetMember (tc : TimeCodec) (cur : CreateGetResponse) (key : String)
    (v : JValue) : Except DecodeError CreateGetResponse :=
  match matchField ["data"] key with
  | some _ => (decodeUser tc v cur.Data).map (fun x => { cur with Data := x })
  | none => Except.ok cur

def decodeCreateGetMembers (tc : TimeCodec) :
    List (String × JValue) → CreateGetResponse → Except DecodeError CreateGetResponse
  | [], cur => Except.ok cur
  | (k, v) :: rest, cur =>
    match decodeCreateGetMember tc cur k v with
    | Except.ok next => decodeCreateGetMembers tc rest next
    | Except.error e => Except.error e

/-- The call `json.Unmarshal(data, &userResp)` on a zero `CreateGetResponse`. -/
def unmarshalCreateGet (tc : TimeCodec) (data : Body) : Except DecodeError CreateGetResponse :=
  match data with
  | Body.json (JValue.obj members) => decodeCreateGetMembers tc members ⟨User.zero⟩
  | Body.json JValue.null => Except.ok ⟨User.zero⟩
  | Body.json _ => Except.error DecodeError.mismatch
  | _ => Except.error DecodeError.syntaxError

/-- Decoding one member of a JSON object into a `ListResponseData`. -/
def decodeListDataMember (tc : TimeCodec) (cur : ListResponseData) (key : String)
    (v : JValue) : Except DecodeError ListResponseData :=
  match matchField ["total", "users"] key with
  | some "total" => (decodeInt v cur.Total).map (fun x => { cur with Total := x })
  | some "users" =>
    match v with
    | JValue.arr items =>
      (decodeUsers tc items cur.Users).map (fun x => { cur with Users := x })
    | JValue.null => Except.ok { cur with Users := [] }
    | _ => Except.error DecodeError.mismatch
  | _ => Except.ok cur

def decodeListDataMembers (tc : TimeCodec) :
    List (String × JValue) → ListResponseData → Except DecodeError ListResponseData
  | [], cur => Except.ok cur
  | (k, v) :: rest, cur =>
    match decodeListDataMember tc cur k v with
    | Except.ok next => decodeListDataMembers tc rest next
    | Except.error e => Except.error e

/-- Decoding a JSON value into a `ListResponseData` that currently holds `cur`. -/
def decodeListData (tc : TimeCodec) (v : JValue) (cur : ListResponseData) :
    Except DecodeError ListResponseData :=
  match v with
  | JValue.obj members => decodeListDataMembers tc members cur
  | JValue.null => Except.ok cur
  | _ => Except.error DecodeError.mismatch

def decodeListMember (tc : TimeCodec) (cur : ListResponse) (key : String) (v : JValue) :
    Except DecodeError ListResponse :=
  match matchField ["data"] key with
  | some _ => (decodeListData tc v cur.Data).map (fun x => { cur with Data := x })
  | none => Except.ok cur

def decodeListMembers (tc : TimeCodec) :
    List (String × JValue) → ListResponse → Except DecodeError ListResponse
  | [], cur => Except.ok cur
  | (k, v) :: rest, cur =>
    match decodeListMember tc cur k v with
    | Except.ok next => decodeListMembers tc rest next
    | Except.error e => Except.error e

/-- The call `json.Unmarshal(data, &listResp)` on a zero `ListResponse`. -/
def unmarshalList (tc : TimeCodec) (data : Body) : Except DecodeError ListResponse :=
  match data with
  | Body.json (JValue.obj members) => decodeListMembers tc members ⟨⟨0, []⟩⟩
  | Body.json JValue.null => Except.ok ⟨⟨0, []⟩⟩
  | Body.json _ => Except.error DecodeError.mismatch
  | _ => Except.error DecodeError.syntaxError

/-- Decoding one member of the top-level object into a `Response`. A value that does not
fit the field leaves it as it is (the error this raises is dropped by every caller). -/
def decodeResponseMember (cur : Response) (key : String) (v : JValue) : Response :=
  match matchField ["data", "error"] key with
  | some "data" =>
    match v with
    | JValue.null => { cur with Data := none }
    | _ => { cur with Data := some v }
  | some "error" =>
    match v with
    | JValue.str s => { cur with Error := s }
    | _ => cur
  | _ => cur

/-- The call `json.Unmarshal(data, &errRes)` on a zero `Response`, its error dropped: what
`errRes` holds afterwards. -/
def unmarshalResponse (data : Body) : Response :=
  match data with
  | Body.json (JValue.obj members) =>
    members.foldl (fun cur kv => decodeResponseMember cur kv.1 kv.2) ⟨none, ""⟩
  | _ => ⟨none, ""⟩

/-- A Go `error` returned by the client: one whose message is the given text, or the one
made by `fmt.Errorf("parse response failed: %v", err)` from a decoding error. -/
inductive Error where
  | text (msg : String)
  | parseResponse (cause : DecodeError)
deriving DecidableEq, Repr

/-- Struct `client`: the `net/http` environment standing for `httpClient`, the server base
URL, and the JSON environment. -/
structure client (τ : Type) where
  httpClient : HTTP τ
  server : String
  tc : TimeCodec

/-- Method `client.UserCreate`. The result is the returned pair (record or nil, error or
nil) and the network state left behind. -/
def client.UserCreate {τ : Type} (c : client τ) (u : User) (st : τ) :
    (Option User × Option Error) × τ :=
  match c.httpClient.NewRequest "GET" (c.server ++ "/user/create") with
  | Except.error err => ((none, some (Error.text err)), st)
  | Except.ok req0 =>
    let postData := Values.Set (Values.Set [] "name" u.Name) "email" u.Email
    let req := { req0 with Form := postData }
    match c.httpClient.Do req st with
    | (Except.error err, st1) => ((none, some (Error.text err)), st1)
    | (Except.ok resp, st1) =>
      match resp.Body with
      | ReadAll.failed soFar _ =>
        ((none, some (Error.text ("create user failed: " ++ soFar))), st1)
      | ReadAll.ok data =>
        if resp.StatusCode ≠ StatusOK then
          let errRes := unmarshalResponse data
          if errRes.Error ≠ "" then ((none, some (Error.text errRes.Error)), st1)
          else
            ((none, some (Error.text ("create user failed: " ++ toString resp.StatusCode))),
              st1)
        else
          match unmarshalCreateGet c.tc data with
          | Except.error e => ((none, some (Error.parseResponse e)), st1)
          | Except.ok userResp => ((some userResp.Data, none), st1)

/-- Method `client.UserGet`. -/
def client.UserGet {τ : Type} (c : client τ) (id : String) (st : τ) :
    (Option User × Option Error) × τ :=
  match c.httpClient.NewRequest "GET" (c.server ++ "/user/create") with
  | Except.error err => ((none, some (Error.text err)), st)
  | Except.ok req0 =>
    let postData := Values.Set [] "id" id
    let req := { req0 with Form := postData }
    match c.httpClient.Do req st with
    | (Except.error err, st1) => ((none, some (Error.text err)), st1)
    | (Except.ok resp, st1) =>
      match resp.Body with
      | ReadAll.failed soFar _ =>
        ((none, some (Error.text ("create user failed: " ++ soFar))), st1)
      | ReadAll.ok data =>
        if resp.StatusCode ≠ StatusOK then
          let errRes := unmarshalResponse data
          if errRes.Error ≠ "" then ((none, some (Error.text errRes.Error)), st1)
          else
            ((none, some (Error.text ("create user failed: " ++ toString resp.StatusCode))),
              st1)
        else
          match unmarshalCreateGet c.tc data with
          | Except.error e => ((none, some (Error.parseResponse e)), st1)
          | Except.ok userResp => ((some userResp.Data, none), st1)

/-- Method `client.UserUpdate`. The result is the returned error (or nil) and the network
state left behind. -/
def client.UserUpdate {τ : Type} (c : client τ) (u : User) (st : τ) : Option Error × τ :=
  match c.httpClient.NewRequest "POST" (c.server ++ "/user/update") with
  | Except.error _ => (none, st)
  | Except.ok req0 =>
    let postData := Values.Set (Values.Set [] "name" u.Name) "id" u.ID
    let req := { req0 with Form := postData }
    match c.httpClient.Do req st with
    | (Except.error _, st1) => (none, st1)
    | (Except.ok resp, st1) =>
      if resp.StatusCode ≠ StatusOK then
        match resp.Body with
        | ReadAll.failed soFar _ => (some (Error.text ("update user failed: " ++ soFar)), st1)
        | ReadAll.ok data =>
          let errRes := unmarshalResponse data
          if errRes.Error ≠ "" then (some (Error.text errRes.Error), st1)
          else (some (Error.text ("update user failed: " ++ toString resp.StatusCode)), st1)
      else (none, st1)

/-- Method `client.UserDelete`. -/
def client.UserDelete {τ : Type} (c : client τ) (id : String) (st : τ) : Option Error × τ :=
  match c.httpClient.NewRequest "POST" (c.server ++ "/user/delete") with
  | Except.error err => (some (Error.text err), st)
  | Except.ok req0 =>
    let postData := Values.Set [] "id" id
    let req := { req0 with Form := postData }
    match c.httpClient.Do req st with
    | (Except.error err, st1) => (some (Error.text err), st1)
    | (Except.ok resp, st1) =>
      if resp.StatusCode ≠ StatusOK then
        match resp.Body with
        | ReadAll.failed soFar _ => (some (Error.text ("delete user failed: " ++ soFar)), st1)
        | ReadAll.ok data =>
          let errRes := unmarshalResponse data
          if errRes.Error ≠ "" then (some (Error.text errRes.Error), st1)
          else (some (Error.text ("delete user failed: " ++ toString resp.StatusCode)), st1)
      else (none, st1)

/-- Method `client.UserList`. The result is the returned triple (users, total, error or
nil) and the network state left behind. -/
def client.UserList {τ : Type} (c : client τ) (st : τ) :
    (List User × Int × Option Error) × τ :=
  match c.httpClient.NewRequest "GET" (c.server ++ "/user/list") with
  | Except.error err => (([], 0, some (Error.text err)), st)
  | Except.ok req =>
    match c.httpClient.Do req st with
    | (Except.error err, st1) => (([], 0, some (Error.text err)), st1)
    | (Except.ok resp, st1) =>
      match resp.Body with
      | ReadAll.failed soFar _ =>
        (([], 0, some (Error.text ("list user failed: " ++ soFar))), st1)
      | ReadAll.ok data =>
        if resp.StatusCode ≠ StatusOK then
          let errRes := unmarshalResponse data
          if errRes.Error ≠ "" then (([], 0, some (Error.text errRes.Error)), st1)
          else
            (([], 0, some (Error.text ("list user failed: " ++ toString resp.StatusCode))),
              st1)
        else
          match unmarshalList c.tc data with
          | Except.error e => (([], 0, some (Error.parseResponse e)), st1)
          | Except.ok listResp => ((listResp.Data.Users, listResp.Data.Total, none), st1)

end Client

/-! ## From the client's request to the server's request -/

/-- What goes on the wire for a request built with a nil body: the request line made of
method and URL, and no body. The field `Form` of an outgoing request is not transmitted
(`net/http`: the HTTP client ignores `Form` and uses `Body` instead). -/
structure WireRequest where
  Method : String
  URL : String
  Body : Option String
deriving DecidableEq, Repr

/-- The wire image of a request of the client. -/
def Client.Request.onWire (r : Client.Request) : WireRequest :=
  { Method := r.Method, URL := r.URL, Body := none }

/-- Function `strings.Cut` on characters: the text before the first separator and the text
after it; the whole text and nothing when the separator does not occur. -/
def cutAt (sep : Char) : List Char → List Char × List Char
  | [] => ([], [])
  | c :: rest => if c = sep then ([], rest) else (c :: (cutAt sep rest).1, (cutAt sep rest).2)

/-- Function `strings.Split` on characters. -/
def splitOn (sep : Char) : List Char → List (List Char)
  | [] => [[]]
  | c :: rest =>
    if c = sep then [] :: splitOn sep rest
    else
      match splitOn sep rest with
      | [] => [[c]]
      | first :: more => (c :: first) :: more

/-- Field `URL.RawQuery` of a parsed URL: what follows the first `?`, the fragment
removed. -/
def rawQuery (url : String) : String := String.mk (cutAt '?' (cutAt '#' url.data).1).2

/-- Function `url.ParseQuery`, its error dropped, over the unescaping function of the
library: the pairs of the parts between `&`, a part that is empty, holds a `;` or does not
unescape being skipped. -/
def parseQuery (unescape : String → Option String) (query : String) : Values :=
  (splitOn '&' query.data).filterMap (fun part =>
    if ';' ∈ part then none
    else if part = [] then none
    else
      match unescape (String.mk (cutAt '=' part).1),
          unescape (String.mk (cutAt '=' part).2) with
      | some key, some value => some (key, value)
      | _, _ => none)

/-- Field `URL.Path` of a parsed URL of the form `scheme://host/path?query#fragment`: what
follows the host, up to the query. -/
def urlPath (url : String) : String :=
  match (cutAt ':' (cutAt '?' (cutAt '#' url.data).1).1).2 with
  | '/' :: '/' :: rest => String.mk (rest.dropWhile (fun c => c ≠ '/'))
  | _ => String.mk (cutAt '?' (cutAt '#' url.data).1).1

/-- The request the server parses from what came on the wire: its form holds the pairs of
the URL query; a request without body contributes no other pairs. -/
def Api.Request.ofWire (unescape : String → Option String) (w : WireRequest) : Api.Request :=
  { Method := w.Method, Path := urlPath w.URL, Form := parseQuery unescape (rawQuery w.URL) }

/-! ## Vocabulary of the statements -/

section Model

open Store Api

/-- The record `createUser` hands to `Repository.Create`. -/
def createArg (newID : UUID) (name email : String) : Store.User :=
  { ID := newID.String, Name := name, Email := email, Password := "", Age := 0,
    CreatedAt := Time.zero, UpdatedAt := Time.zero, DeletedAt := none }

/-- The response `status` with the envelope carrying the error message `msg`. -/
def errorResponse (status : Nat) (msg : String) : ResponseWriter :=
  ⟨status, true, Body.json (JValue.obj [("error", JValue.str msg)])⟩

/-- Fixed answers of a repository double. -/
structure Answers where
  create : Option String
  getByID : Except String Store.User
  getByEmail : Except String Store.User
  update : Option String
  deleteByID : Option String
  list : Except String (List Store.User × Int)

/-- A repository double in the manner of the generated `MockUserRepository`: every method
returns a fixed answer, keeps no state and leaves its argument alone. -/
def mockRepo (a : Answers) : UserRepository Unit where
  Create := fun _ s => (a.create, s)
  GetByID := fun _ s => (a.getByID, s)
  GetByEmail := fun _ s => (a.getByEmail, s)
  Update := fun u s => (a.update, u, s)
  DeleteByID := fun _ s => (a.deleteByID, s)
  List := fun _ _ s => (a.list, s)

/-- A repository double holding at most one record: `Create` stores its argument,
`GetByEmail` returns the stored record when the email is its email. -/
def slotRepo : UserRepository (Option Store.User) where
  Create := fun u _ => (none, some u)
  GetByID := fun id s =>
    match s with
    | some u => if u.ID = id then (Except.ok u, s) else (Except.error "record not found", s)
    | none => (Except.error "record not found", s)
  GetByEmail := fun email s =>
    match s with
    | some u => if u.Email = email then (Except.ok u, s) else (Except.error "record not found", s)
    | none => (Except.error "record not found", s)
  Update := fun u _ => (none, u, some u)
  DeleteByID := fun _ _ => (none, none)
  List := fun _ _ s =>
    match s with
    | some u => (Except.ok ([u], 1), s)
    | none => (Except.ok ([], 0), s)

/-- The instant `time.Unix(1752999201, 0)` in a zone eight hours east of UTC. -/
def sampleTime : Time := ⟨1752999201000000000, 28800⟩

/-- The record used throughout the repository's tests. -/
def sampleUser : Store.User :=
  { ID := "0198271f-bc9d-74ac-a63b-41cf2c6c2f82", Name := "liuliu", Email := "aa@bb.com",
    Password := "", Age := 0, CreatedAt := sampleTime, UpdatedAt := sampleTime,
    DeletedAt := none }

/-- Answers of a double on which every call succeeds with the sample record. -/
def okAnswers : Answers :=
  { create := none, getByID := Except.ok sampleUser, getByEmail := Except.ok sampleUser,
    update := none, deleteByID := none, list := Except.ok ([sampleUser], 1) }

/-- Answers of a double on which every call fails with the given message. -/
def failAnswers (msg : String) : Answers :=
  { create := some msg, getByID := Except.error msg, getByEmail := Except.error msg,
    update := some msg, deleteByID := some msg, list := Except.error msg }

/-- The zero value in the text form used by the codec of the examples. -/
def zeroTimeText : String := "0001-01-01T00:00:00Z"

/-- The sample instant in the text form found in the repository's tests. -/
def sampleTimeText : String := "2025-07-20T16:13:21+08:00"

/-- A timestamp codec for examples, a two-entry table: the sample time and the zero time
are written as their RFC 3339 texts and read back from them; every other timestamp or
text is refused. -/
def sampleCodec : TimeCodec :=
  { format := fun t =>
      if t = sampleTime then some sampleTimeText
      else if t = Time.zero then some zeroTimeText
      else none
    parse := fun s =>
      if s = sampleTimeText then some sampleTime
      else if s = zeroTimeText then some Time.zero
      else none }

/-- The all-zero identifier. -/
def zeroUUID : UUID := fun _ => 0

/-- A request whose parsed form holds the given pairs. -/
def formRequest (method path : String) (form : Values) : Request := ⟨method, path, form⟩

/-- The record `fakeClient.UserCreate` stores for the input `u`: generated id, the name,
email and age of `u`, both timestamps the current time. -/
def createdRecord (newID : UUID) (now : Time) (u : Client.User) : Client.User :=
  { ID := newID.String, Name := u.Name, Email := u.Email, Age := u.Age,
    CreatedAt := now, UpdatedAt := now }

/-- An empty fake client. -/
def emptyFake : Fake.fakeClient := ⟨GoMap.empty, GoMap.empty⟩

/-- A `client.User` as a caller fills it for `UserCreate`: name and email only. -/
def newUser (name email : String) : Client.User :=
  { ID := "", Name := name, Email := email, Age := 0, CreatedAt := Time.zero,
    UpdatedAt := Time.zero }

/-- The codec reads the text it writes for the timestamp `t` back as a timestamp of the
same instant. -/
def TimeCodec.ReadsBack (tc : TimeCodec) (t : Time) : Prop :=
  ∀ s : String, tc.format t = some s →
    ∃ t2 : Time, tc.parse s = some t2 ∧ t2.unixNano = t.unixNano

/-- The record the client holds carries the id, name, email and age of the record the
service sent, and timestamps of the same instants. -/
def SameOnWire (a : Api.User) (b : Client.User) : Prop :=
  b.ID = a.ID ∧ b.Name = a.Name ∧ b.Email = a.Email ∧ b.Age = a.Age ∧
    b.CreatedAt.unixNano = a.CreatedAt.unixNano ∧ b.UpdatedAt.unixNano = a.UpdatedAt.unixNano

/-- The request `client.UserCreate` hands to `httpClient.Do`. -/
def createRequest (server : String) (u : Client.User) : Client.Request :=
  { Method := "GET", URL := server ++ "/user/create",
    Form := Values.Set (Values.Set [] "name" u.Name) "email" u.Email }

/-- The request `client.UserGet` hands to `httpClient.Do`. -/
def getRequest (server : String) (id : String) : Client.Request :=
  { Method := "GET", URL := server ++ "/user/create", Form := Values.Set [] "id" id }

/-- The request `client.UserUpdate` hands to `httpClient.Do`. -/
def updateRequest (server : String) (u : Client.User) : Client.Request :=
  { Method := "POST", URL := server ++ "/user/update",
    Form := Values.Set (Values.Set [] "name" u.Name) "id" u.ID }

/-- The request `client.UserDelete` hands to `httpClient.Do`. -/
def deleteRequest (server : String) (id : String) : Client.Request :=
  { Method := "POST", URL := server ++ "/user/delete", Form := Values.Set [] "id" id }

/-- The request `client.UserList` hands to `httpClient.Do`. -/
def listRequest (server : String) : Client.Request :=
  { Method := "GET", URL := server ++ "/user/list", Form := [] }

/-- A network on which every request is built and answered with the given status and
body. -/
def answering (status : Nat) (body : Body) : Client.HTTP Unit :=
  { newRequestErr := fun _ _ => none
    Do := fun _ s => (Except.ok ⟨status, Client.ReadAll.ok body⟩, s) }

/-- A network on which every exchange fails with the given error. -/
def refusing (err : String) : Client.HTTP Unit :=
  { newRequestErr := fun _ _ => none
    Do := fun _ s => (Except.error err, s) }

/-- A `net/http` on which no request can be built. -/
def unbuildable (err : String) : Client.HTTP Unit :=
  { newRequestErr := fun _ _ => some err
    Do := fun _ s => (Except.error "unreachable", s) }

/-- The server base URL of the examples. -/
def sampleServer : String := "http://127.0.0.1:8888"

/-- The JSON object written for a record whose timestamps are written as `c` and `m`. -/
def userDoc (u : Api.User) (c m : String) : JValue :=
  JValue.obj [("id", JValue.str u.ID), ("name", JValue.str u.Name),
    ("email", JValue.str u.Email), ("age", JValue.num u.Age),
    ("createdAt", JValue.str c), ("updatedAt", JValue.str m)]

/-- The response is a failure: status 400 or 500 and the envelope carrying an error
message. -/
def IsErrorEnvelope (w : ResponseWriter) : Prop :=
  ∃ e : String, (w.Code = 400 ∨ w.Code = 500) ∧
    w.Body = Body.json (JValue.obj [("error", JValue.str e)])

/-- The create operation succeeds with record `rec`: name and email are given, `Create`
returns no error and `GetByEmail` then returns `rec`. -/
def CreateSucceeds {σ : Type} (repo : UserRepository σ) (newID : UUID) (r : Request) (st : σ)
    (rec : Store.User) : Prop :=
  r.FormValue "name" ≠ "" ∧ r.FormValue "email" ≠ "" ∧
    (repo.Create (createArg newID (r.FormValue "name") (r.FormValue "email")) st).1 = none ∧
    (repo.GetByEmail (r.FormValue "email")
      (repo.Create (createArg newID (r.FormValue "name") (r.FormValue "email")) st).2).1
      = Except.ok rec

/-- The get operation succeeds with record `rec`: an id is given and `GetByID` returns `rec`,
or no id but an email is given and `GetByEmail` returns `rec`. -/
def GetSucceeds {σ : Type} (repo : UserRepository σ) (r : Request) (st : σ)
    (rec : Store.User) : Prop :=
  (r.FormValue "id" ≠ "" ∧ (repo.GetByID (r.FormValue "id") st).1 = Except.ok rec) ∨
    (r.FormValue "id" = "" ∧ r.FormValue "email" ≠ "" ∧
      (repo.GetByEmail (r.FormValue "email") st).1 = Except.ok rec)

/-- The update operation succeeds with record `rec`: id and name are given, `GetByID`
returns a record and `Update`, called with that record under the new name, returns no
error and hands back `rec`. -/
def UpdateSucceeds {σ : Type} (repo : UserRepository σ) (r : Request) (st : σ)
    (rec : Store.User) : Prop :=
  r.FormValue "id" ≠ "" ∧ r.FormValue "name" ≠ "" ∧
    ∃ u : Store.User, (repo.GetByID (r.FormValue "id") st).1 = Except.ok u ∧
      (repo.Update { u with Name := r.FormValue "name" }
        (repo.GetByID (r.FormValue "id") st).2).1 = none ∧
      (repo.Update { u with Name := r.FormValue "name" }
        (repo.GetByID (r.FormValue "id") st).2).2.1 = rec

/-- The list operation succeeds with `users` and `total`: `List(1, 100)` returns them. -/
def ListSucceeds {σ : Type} (repo : UserRepository σ) (st : σ) (users : List Store.User)
    (total : Int) : Prop :=
  (repo.List 1 100 st).1 = Except.ok (users, total)

/-- The delete operation succeeds: an id is given and `DeleteByID` returns no error. -/
def DeleteSucceeds {σ : Type} (repo : UserRepository σ) (r : Request) (st : σ) : Prop :=
  r.FormValue "id" ≠ "" ∧ (repo.DeleteByID (r.FormValue "id") st).1 = none

/-- The value can be stored in a Go `string`: a JSON string, or `null`. -/
def FitsString : JValue → Prop
  | JValue.str _ => True
  | JValue.null => True
  | _ => False

/-- The value can be stored in a Go `int` or `int64`: an integer literal within the range
of `int64`, or `null`. -/
def FitsInt : JValue → Prop
  | JValue.num n => inInt64 n
  | JValue.null => True
  | _ => False

/-- The value can be stored in a `time.Time`: a JSON string that `Time.UnmarshalJSON`
accepts, or `null`. -/
def FitsTime (tc : TimeCodec) : JValue → Prop
  | JValue.str s => tc.parse s ≠ none
  | JValue.null => True
  | _ => False

/-- The member `key: v` of a JSON object can be stored in a `client.User`: when the key is
read as a field of `User`, the value fits the type of that field. -/
def FitsUserMember (tc : TimeCodec) (key : String) (v : JValue) : Prop :=
  match Client.matchField Client.userFields key with
  | some "id" => FitsString v
  | some "name" => FitsString v
  | some "email" => FitsString v
  | some "age" => FitsInt v
  | some "createdAt" => FitsTime tc v
  | some "updatedAt" => FitsTime tc v
  | _ => True

/-- The document has the shape of a user: `null`, or an object each of whose members can
be stored in a `client.User`. -/
def FitsUser (tc : TimeCodec) : JValue → Prop
  | JValue.obj members => ∀ kv ∈ members, FitsUserMember tc kv.1 kv.2
  | JValue.null => True
  | _ => False

/-- The document has the shape of the response to create and get: `null`, or an object in
which every member read as `data` has the shape of a user. -/
def FitsCreateGet (tc : TimeCodec) : JValue → Prop
  | JValue.obj members =>
    ∀ kv ∈ members, Client.matchField ["data"] kv.1 ≠ none → FitsUser tc kv.2
  | JValue.null => True
  | _ => False

/-- The value can be stored in a `[]User`: `null`, or an array each of whose elements has
the shape of a user. -/
def FitsUsers (tc : TimeCodec) : JValue → Prop
  | JValue.arr items => ∀ item ∈ items, FitsUser tc item
  | JValue.null => True
  | _ => False

/-- The member `key: v` of a JSON object can be stored in a `ListResponseData`. -/
def FitsListDataMember (tc : TimeCodec) (key : String) (v : JValue) : Prop :=
  match Client.matchField ["total", "users"] key with
  | some "total" => FitsInt v
  | some "users" => FitsUsers tc v
  | _ => True

/-- The document has the shape of the data of a list response: `null`, or an object each of
whose members can be stored in a `ListResponseData`. -/
def FitsListData (tc : TimeCodec) : JValue → Prop
  | JValue.obj members => ∀ kv ∈ members, FitsListDataMember tc kv.1 kv.2
  | JValue.null => True
  | _ => False

/-- The document has the shape of the response to list: `null`, or an object in which
every member read as `data` has the shape of the data of a list response. -/
def FitsList (tc : TimeCodec) : JValue → Prop
  | JValue.obj members =>
    ∀ kv ∈ members, Client.matchField ["data"] kv.1 ≠ none → FitsListData tc kv.2
  | JValue.null => True
  | _ => False

/-- The document carries no data: it is `null`, or an object in which every member read as
`data` is `null`. -/
def CarriesNoData : JValue → Prop
  | JValue.obj members =>
    ∀ kv ∈ members, Client.matchField ["data"] kv.1 ≠ none → kv.2 = JValue.null
  | JValue.null => True
  | _ => False

/-- A fake client holding one record, made by one `UserCreate` on the empty one. -/
def oneUserFake : Fake.fakeClient :=
  (emptyFake.UserCreate zeroUUID sampleTime (newUser "liuliu" "aa@bb.com")).2

/-- The record held by `oneUserFake`. -/
def oneUserRecord : Client.User :=
  createdRecord zeroUUID sampleTime (newUser "liuliu" "aa@bb.com")

/-- The two maps of a fake client agree: every entry (e, i) of email→id has a record
under `i` whose email is `e`, and every record under an id `i` has `ID` equal to `i` and
an entry (its email, `i`) in email→id. -/
def MapsAgree (c : Fake.fakeClient) : Prop :=
  (∀ (e i : String), c.usersByEmail.get e = some i →
    ∃ r : Client.User, c.users.get i = some r ∧ r.Email = e) ∧
  (∀ (i : String) (r : Client.User), c.users.get i = some r →
    r.ID = i ∧ c.usersByEmail.get r.Email = some i)

/-- The text starts with a character that is neither a digit nor a period. -/
def StartsZone (s : List Char) : Prop :=
  ∃ c rest, s = c :: rest ∧ digitValue c = none ∧ c ≠ '.'

/-- RFC 3339 holds the timestamp without loss: the year of its local date is within
0..9999, and its zone offset is a whole number of minutes and less than 24 hours. -/
def Time.FitsRFC3339 (t : Time) : Prop :=
  0 ≤ t.Year ∧ t.Year ≤ 9999 ∧ t.zoneOffset % 60 = 0 ∧
    -86400 < t.zoneOffset ∧ t.zoneOffset < 86400

/-- A general parser that refuses every text. (The texts of the examples are accepted by
the strict reading, which `Time.UnmarshalJSON` consults first.) -/
def strictOnly : String → Option Time := fun _ => none

/-- Midnight of January 1, 1900 in a zone 8 hours, 5 minutes and 43 seconds east of UTC,
the local mean time that the zone database gives Asia/Shanghai at that date. -/
def lmtTime : Time := ⟨-2209017943000000000, 29143⟩

/-- The sample record, created and updated at `lmtTime`. -/
def lmtUser : Store.User := { sampleUser with CreatedAt := lmtTime, UpdatedAt := lmtTime }

/-- The first instant of the year 10000, in UTC. -/
def year10000 : Time := ⟨253402300800000000000, 0⟩

/-- The sample instant in a zone 24 hours east of UTC. -/
def dayAheadTime : Time := ⟨1752999201000000000, 86400⟩

end Model

/-! # Theorems -/

open Store Api

/-! ## Service: validation, repository failures, create -/

theorem UUID.String_ne_empty (u : UUID) : u.String ≠ "" := by
  intro h
  have h2 : (UUID.String u).data = ([] : List Char) := by rw [h]
  simp only [UUID.String, hexByte] at h2
  exact absurd h2 (by simp)

/-- C1: a create, get, update or delete request with an empty required parameter is
answered with status 400 and the envelope whose error is `param <x> not set` for the
first missing parameter (`id or email` for get), and the repository is not called: the
repository state and the call log are what they were. -/
theorem missing_param_is_bad_request {σ : Type} (repo : UserRepository σ) (tc : TimeCodec)
    (newID : UUID) (r : Request) (st : σ) (log : List Call) :
    (r.FormValue "name" = "" →
      Service.createUser ⟨recording repo, tc⟩ newID NewRecorder r (st, log)
        = (errorResponse 400 "param name not set", (st, log))) ∧
    (r.FormValue "name" ≠ "" → r.FormValue "email" = "" →
      Service.createUser ⟨recording repo, tc⟩ newID NewRecorder r (st, log)
        = (errorResponse 400 "param email not set", (st, log))) ∧
    (r.FormValue "id" = "" → r.FormValue "email" = "" →
      Service.getUser ⟨recording repo, tc⟩ NewRecorder r (st, log)
        = (errorResponse 400 "param id or email not set", (st, log))) ∧
    (r.FormValue "id" = "" →
      Service.updateUser ⟨recording repo, tc⟩ NewRecorder r (st, log)
        = (errorResponse 400 "param id not set", (st, log))) ∧
    (r.FormValue "id" ≠ "" → r.FormValue "name" = "" →
      Service.updateUser ⟨recording repo, tc⟩ NewRecorder r (st, log)
        = (errorResponse 400 "param name not set", (st, log))) ∧
    (r.FormValue "id" = "" →
      Service.deleteUser ⟨recording repo, tc⟩ NewRecorder r (st, log)
        = (errorResponse 400 "param id not set", (st, log))) := by
  refine ⟨?_, ?_, ?_, ?_, ?_, ?_⟩
  · intro h
    simp [Service.createUser, h, Service.error, errorBody, errorResponse, NewRecorder,
      ResponseWriter.WriteHeader, ResponseWriter.Write, Body.append, StatusBadRequest]
  · intro h1 h2
    simp [Service.createUser, h1, h2, Service.error, errorBody, errorResponse, NewRecorder,
      ResponseWriter.WriteHeader, ResponseWriter.Write, Body.append, StatusBadRequest]
  · intro h1 h2
    simp [Service.getUser, h1, h2, Service.error, errorBody, errorResponse, NewRecorder,
      ResponseWriter.WriteHeader, ResponseWriter.Write, Body.append, StatusBadRequest]
  · intro h
    simp [Service.updateUser, h, Service.error, errorBody, errorResponse, NewRecorder,
      ResponseWriter.WriteHeader, ResponseWriter.Write, Body.append, StatusBadRequest]
  · intro h1 h2
    simp [Service.updateUser, h1, h2, Service.error, errorBody, errorResponse, NewRecorder,
      ResponseWriter.WriteHeader, ResponseWriter.Write, Body.append, StatusBadRequest]
  · intro h
    simp [Service.deleteUser, h, Service.error, errorBody, errorResponse, NewRecorder,
      ResponseWriter.WriteHeader, ResponseWriter.Write, Body.append, StatusBadRequest]

theorem missing_param_is_bad_request_witness :
    Service.createUser ⟨recording (mockRepo okAnswers), sampleCodec⟩ zeroUUID NewRecorder
        (formRequest "POST" "/user/create" [("email", "aa@bb.com")]) ((), [])
      = (errorResponse 400 "param name not set", ((), [])) ∧
    Service.createUser ⟨recording (mockRepo okAnswers), sampleCodec⟩ zeroUUID NewRecorder
        (formRequest "POST" "/user/create" [("name", "liuliu")]) ((), [])
      = (errorResponse 400 "param email not set", ((), [])) ∧
    Service.getUser ⟨recording (mockRepo okAnswers), sampleCodec⟩ NewRecorder
        (formRequest "GET" "/user/get" []) ((), [])
      = (errorResponse 400 "param id or email not set", ((), [])) ∧
    Service.updateUser ⟨recording (mockRepo okAnswers), sampleCodec⟩ NewRecorder
        (formRequest "POST" "/user/update" [("name", "liuliu2")]) ((), [])
      = (errorResponse 400 "param id not set", ((), [])) ∧
    Service.updateUser ⟨recording (mockRepo okAnswers), sampleCodec⟩ NewRecorder
        (formRequest "POST" "/user/update" [("id", "7")]) ((), [])
      = (errorResponse 400 "param name not set", ((), [])) ∧
    Service.deleteUser ⟨recording (mockRepo okAnswers), sampleCodec⟩ NewRecorder
        (formRequest "POST" "/user/delete" []) ((), [])
      = (errorResponse 400 "param id not set", ((), [])) :=
  ⟨(missing_param_is_bad_request _ _ _ _ _ _).1 (by decide),
   (missing_param_is_bad_request _ _ _ _ _ _).2.1 (by decide) (by decide),
   (missing_param_is_bad_request _ _ zeroUUID _ _ _).2.2.1 (by decide) (by decide),
   (missing_param_is_bad_request _ _ zeroUUID _ _ _).2.2.2.1 (by decide),
   (missing_param_is_bad_request _ _ zeroUUID _ _ _).2.2.2.2.1 (by decide) (by decide),
   (missing_param_is_bad_request _ _ zeroUUID _ _ _).2.2.2.2.2 (by decide)⟩

/-- C2: when the required parameters are present and a repository call fails with
message `e`, the response is status 500 with the envelope whose error is `e` unchanged,
and the failed call is the last call the handler makes: the log ends with it. -/
theorem repository_failure_is_server_error {σ : Type} (repo : UserRepository σ)
    (tc : TimeCodec) (newID : UUID) (r : Request) (st : σ) (log : List Call) (e : String) :
    (r.FormValue "name" ≠ "" → r.FormValue "email" ≠ "" →
      (repo.Create (createArg newID (r.FormValue "name") (r.FormValue "email")) st).1 = some e →
      Service.createUser ⟨recording repo, tc⟩ newID NewRecorder r (st, log)
        = (errorResponse 500 e,
            ((repo.Create (createArg newID (r.FormValue "name") (r.FormValue "email")) st).2,
             log ++ [Call.create (createArg newID (r.FormValue "name") (r.FormValue "email"))]))) ∧
    (r.FormValue "name" ≠ "" → r.FormValue "email" ≠ "" →
      (repo.Create (createArg newID (r.FormValue "name") (r.FormValue "email")) st).1 = none →
      (repo.GetByEmail (r.FormValue "email")
        (repo.Create (createArg newID (r.FormValue "name") (r.FormValue "email")) st).2).1
        = Except.error e →
      Service.createUser ⟨recording repo, tc⟩ newID NewRecorder r (st, log)
        = (errorResponse 500 e,
            ((repo.GetByEmail (r.FormValue "email")
              (repo.Create (createArg newID (r.FormValue "name") (r.FormValue "email")) st).2).2,
             log ++ [Call.create (createArg newID (r.FormValue "name") (r.FormValue "email")),
                     Call.getByEmail (r.FormValue "email")]))) ∧
    (r.FormValue "id" ≠ "" → (repo.GetByID (r.FormValue "id") st).1 = Except.error e →
      Service.getUser ⟨recording repo, tc⟩ NewRecorder r (st, log)
        = (errorResponse 500 e,
            ((repo.GetByID (r.FormValue "id") st).2, log ++ [Call.getByID (r.FormValue "id")]))) ∧
    (r.FormValue "id" = "" → r.FormValue "email" ≠ "" →
      (repo.GetByEmail (r.FormValue "email") st).1 = Except.error e →
      Service.getUser ⟨recording repo, tc⟩ NewRecorder r (st, log)
        = (errorResponse 500 e,
            ((repo.GetByEmail (r.FormValue "email") st).2,
             log ++ [Call.getByEmail (r.FormValue "email")]))) ∧
    (r.FormValue "id" ≠ "" → r.FormValue "name" ≠ "" →
      (repo.GetByID (r.FormValue "id") st).1 = Except.error e →
      Service.updateUser ⟨recording repo, tc⟩ NewRecorder r (st, log)
        = (errorResponse 500 e,
            ((repo.GetByID (r.FormValue "id") st).2, log ++ [Call.getByID (r.FormValue "id")]))) ∧
    (∀ u : Store.User, r.FormValue "id" ≠ "" → r.FormValue "name" ≠ "" →
      (repo.GetByID (r.FormValue "id") st).1 = Except.ok u →
      (repo.Update { u with Name := r.FormValue "name" }
        (repo.GetByID (r.FormValue "id") st).2).1 = some e →
      Service.updateUser ⟨recording repo, tc⟩ NewRecorder r (st, log)
        = (errorResponse 500 e,
            ((repo.Update { u with Name := r.FormValue "name" }
              (repo.GetByID (r.FormValue "id") st).2).2.2,
             log ++ [Call.getByID (r.FormValue "id"),
                     Call.update { u with Name := r.FormValue "name" }]))) ∧
    (r.FormValue "id" ≠ "" → (repo.DeleteByID (r.FormValue "id") st).1 = some e →
      Service.deleteUser ⟨recording repo, tc⟩ NewRecorder r (st, log)
        = (errorResponse 500 e,
            ((repo.DeleteByID (r.FormValue "id") st).2,
             log ++ [Call.deleteByID (r.FormValue "id")]))) ∧
    ((repo.List 1 100 st).1 = Except.error e →
      Service.listUser ⟨recording repo, tc⟩ NewRecorder r (st, log)
        = (errorResponse 500 e, ((repo.List 1 100 st).2, log ++ [Call.list 1 100]))) := by
  refine ⟨?_, ?_, ?_, ?_, ?_, ?_, ?_, ?_⟩
  · intro h1 h2 h3
    simp [createArg] at h3
    simp [Service.createUser, recording, createArg, h1, h2, h3, Service.error, errorBody,
      errorResponse, NewRecorder, ResponseWriter.WriteHeader, ResponseWriter.Write,
      Body.append, StatusInternalServerError]
  · intro h1 h2 h3 h4
    simp [createArg] at h3 h4
    simp [Service.createUser, recording, createArg, h1, h2, h3, h4, Service.error, errorBody,
      errorResponse, NewRecorder, ResponseWriter.WriteHeader, ResponseWriter.Write,
      Body.append, StatusInternalServerError]
  · intro h1 h3
    simp [Service.getUser, recording, h1, h3, Service.error, errorBody,
      errorResponse, NewRecorder, ResponseWriter.WriteHeader, ResponseWriter.Write,
      Body.append, StatusInternalServerError]
  · intro h1 h2 h3
    simp [Service.getUser, recording, h1, h2, h3, Service.error, errorBody,
      errorResponse, NewRecorder, ResponseWriter.WriteHeader, ResponseWriter.Write,
      Body.append, StatusInternalServerError]
  · intro h1 h2 h3
    simp [Service.updateUser, recording, h1, h2, h3, Service.error, errorBody,
      errorResponse, NewRecorder, ResponseWriter.WriteHeader, ResponseWriter.Write,
      Body.append, StatusInternalServerError]
  · intro u h1 h2 h3 h4
    simp [Service.updateUser, recording, h1, h2, h3, h4, Service.error, errorBody,
      errorResponse, NewRecorder, ResponseWriter.WriteHeader, ResponseWriter.Write,
      Body.append, StatusInternalServerError]
  · intro h1 h3
    simp [Service.deleteUser, recording, h1, h3, Service.error, errorBody,
      errorResponse, NewRecorder, ResponseWriter.WriteHeader, ResponseWriter.Write,
      Body.append, StatusInternalServerError]
  · intro h3
    simp [Service.listUser, recording, h3, Service.error, errorBody,
      errorResponse, NewRecorder, ResponseWriter.WriteHeader, ResponseWriter.Write,
      Body.append, StatusInternalServerError]


theorem repository_failure_is_server_error_witness :
    Service.getUser ⟨recording (mockRepo (failAnswers "user not found")), sampleCodec⟩
        NewRecorder (formRequest "GET" "/user/get" [("email", "aa@bb.com")]) ((), [])
      = (errorResponse 500 "user not found", ((), [Call.getByEmail "aa@bb.com"])) ∧
    Service.createUser ⟨recording (mockRepo (failAnswers "duplicate")), sampleCodec⟩ zeroUUID
        NewRecorder (formRequest "POST" "/user/create" [("name", "a"), ("email", "b")]) ((), [])
      = (errorResponse 500 "duplicate", ((), [Call.create (createArg zeroUUID "a" "b")])) ∧
    Service.createUser
        ⟨recording (mockRepo { failAnswers "gone" with create := none }), sampleCodec⟩ zeroUUID
        NewRecorder (formRequest "POST" "/user/create" [("name", "a"), ("email", "b")]) ((), [])
      = (errorResponse 500 "gone",
          ((), [Call.create (createArg zeroUUID "a" "b"), Call.getByEmail "b"])) ∧
    Service.getUser ⟨recording (mockRepo (failAnswers "x")), sampleCodec⟩
        NewRecorder (formRequest "GET" "/user/get" [("id", "7"), ("email", "b")]) ((), [])
      = (errorResponse 500 "x", ((), [Call.getByID "7"])) ∧
    Service.updateUser ⟨recording (mockRepo (failAnswers "x")), sampleCodec⟩
        NewRecorder (formRequest "POST" "/user/update" [("id", "7"), ("name", "n")]) ((), [])
      = (errorResponse 500 "x", ((), [Call.getByID "7"])) ∧
    Service.updateUser
        ⟨recording (mockRepo { okAnswers with update := some "x" }), sampleCodec⟩
        NewRecorder (formRequest "POST" "/user/update" [("id", "7"), ("name", "n")]) ((), [])
      = (errorResponse 500 "x",
          ((), [Call.getByID "7", Call.update { sampleUser with Name := "n" }])) ∧
    Service.deleteUser ⟨recording (mockRepo (failAnswers "x")), sampleCodec⟩
        NewRecorder (formRequest "POST" "/user/delete" [("id", "7")]) ((), [])
      = (errorResponse 500 "x", ((), [Call.deleteByID "7"])) ∧
    Service.listUser ⟨recording (mockRepo (failAnswers "x")), sampleCodec⟩
        NewRecorder (formRequest "GET" "/user/list" []) ((), [])
      = (errorResponse 500 "x", ((), [Call.list 1 100])) :=
  ⟨(repository_failure_is_server_error _ _ zeroUUID _ _ _ _).2.2.2.1
      (by decide) (by decide) rfl,
   (repository_failure_is_server_error _ _ zeroUUID _ _ _ _).1 (by decide) (by decide) rfl,
   (repository_failure_is_server_error _ _ zeroUUID _ _ _ _).2.1
      (by decide) (by decide) rfl rfl,
   (repository_failure_is_server_error _ _ zeroUUID _ _ _ _).2.2.1 (by decide) rfl,
   (repository_failure_is_server_error _ _ zeroUUID _ _ _ _).2.2.2.2.1
      (by decide) (by decide) rfl,
   (repository_failure_is_server_error _ _ zeroUUID _ _ _ _).2.2.2.2.2.1 sampleUser
      (by decide) (by decide) rfl rfl,
   (repository_failure_is_server_error _ _ zeroUUID _ _ _ _).2.2.2.2.2.2.1 (by decide) rfl,
   (repository_failure_is_server_error _ _ zeroUUID _ _ _ _).2.2.2.2.2.2.2 rfl⟩

/-- C3: a create request with non-empty name and email calls `Create` once, with the record
made of a generated non-empty id, the submitted name and email and age zero, and, when
that succeeds, then calls `GetByEmail` with the submitted email and nothing else; when both
succeed with record `rec` the answer is status 200 with the envelope `data` holding the
conversion of `rec` (spelled out when both timestamps can be written); and when `rec`
carries the id, name and email that were handed to `Create`, the returned record has a
non-empty id and the submitted name and email. -/
theorem create_stores_then_rereads {σ : Type} (repo : UserRepository σ) (tc : TimeCodec)
    (newID : UUID) (r : Request) (st : σ) (log : List Call)
    (hname : r.FormValue "name" ≠ "") (hemail : r.FormValue "email" ≠ "") :
    ((createArg newID (r.FormValue "name") (r.FormValue "email")).ID ≠ "" ∧
      (createArg newID (r.FormValue "name") (r.FormValue "email")).Name = r.FormValue "name" ∧
      (createArg newID (r.FormValue "name") (r.FormValue "email")).Email = r.FormValue "email" ∧
      (createArg newID (r.FormValue "name") (r.FormValue "email")).Age = 0) ∧
    ((repo.Create (createArg newID (r.FormValue "name") (r.FormValue "email")) st).1 ≠ none →
      (Service.createUser ⟨recording repo, tc⟩ newID NewRecorder r (st, log)).2.2
        = log ++ [Call.create (createArg newID (r.FormValue "name") (r.FormValue "email"))]) ∧
    ((repo.Create (createArg newID (r.FormValue "name") (r.FormValue "email")) st).1 = none →
      (Service.createUser ⟨recording repo, tc⟩ newID NewRecorder r (st, log)).2.2
        = log ++ [Call.create (createArg newID (r.FormValue "name") (r.FormValue "email")),
                  Call.getByEmail (r.FormValue "email")]) ∧
    (∀ rec : Store.User,
      (repo.Create (createArg newID (r.FormValue "name") (r.FormValue "email")) st).1 = none →
      (repo.GetByEmail (r.FormValue "email")
        (repo.Create (createArg newID (r.FormValue "name") (r.FormValue "email")) st).2).1
        = Except.ok rec →
      (Service.createUser ⟨recording repo, tc⟩ newID NewRecorder r (st, log)).1
          = ⟨200, true, dataBody tc (Payload.user (convertModelUser rec))⟩ ∧
      (∀ c m : String, tc.format rec.CreatedAt = some c → tc.format rec.UpdatedAt = some m →
        (Service.createUser ⟨recording repo, tc⟩ newID NewRecorder r (st, log)).1
          = ⟨200, true, Body.json (JValue.obj [("data",
              JValue.obj [("id", JValue.str rec.ID), ("name", JValue.str rec.Name),
                ("email", JValue.str rec.Email), ("age", JValue.num rec.Age),
                ("createdAt", JValue.str c), ("updatedAt", JValue.str m)])])⟩) ∧
      (rec.ID = (createArg newID (r.FormValue "name") (r.FormValue "email")).ID →
        rec.Name = (createArg newID (r.FormValue "name") (r.FormValue "email")).Name →
        rec.Email = (createArg newID (r.FormValue "name") (r.FormValue "email")).Email →
        (convertModelUser rec).ID ≠ "" ∧ (convertModelUser rec).Name = r.FormValue "name" ∧
          (convertModelUser rec).Email = r.FormValue "email")) := by
  refine ⟨⟨UUID.String_ne_empty newID, rfl, rfl, rfl⟩, ?_, ?_, ?_⟩
  · intro h
    obtain ⟨e, he⟩ := Option.ne_none_iff_exists'.mp h
    simp [createArg] at he
    simp [Service.createUser, recording, createArg, hname, hemail, he]
  · intro h
    simp only [createArg] at h
    simp only [Service.createUser, recording, createArg, hname, hemail, h, if_false]
    split <;> rename_i heq <;> simp only [Prod.mk.injEq] at heq <;> rw [← heq.2] <;> simp
  · intro rec h hg
    simp [createArg] at h hg
    have hresp : (Service.createUser ⟨recording repo, tc⟩ newID NewRecorder r (st, log)).1
          = ⟨200, true, dataBody tc (Payload.user (convertModelUser rec))⟩ := by
      simp only [Service.createUser, recording, hname, hemail, h, hg, if_false,
        Service.data, NewRecorder, ResponseWriter.Write, ResponseWriter.WriteHeader, StatusOK]
      cases hb : dataBody tc (Payload.user (convertModelUser rec)) <;>
        simp [Body.append]
    refine ⟨hresp, ?_, ?_⟩
    · intro c m hc hm
      rw [hresp]
      simp [dataBody, marshalPayload, marshalUser, convertModelUser, hc, hm]
    · intro h1 _ _
      refine ⟨?_, ?_, ?_⟩
      · simp only [convertModelUser]
        rw [h1]
        exact UUID.String_ne_empty newID
      · simp only [convertModelUser]; assumption
      · simp only [convertModelUser]; assumption

theorem create_stores_then_rereads_witness :
    (Service.createUser ⟨recording slotRepo, sampleCodec⟩ zeroUUID NewRecorder
        (formRequest "POST" "/user/create" [("name", "liuliu"), ("email", "aa@bb.com")])
        (none, [])).1
      = ⟨200, true, Body.json (JValue.obj [("data",
          JValue.obj [("id", JValue.str (createArg zeroUUID "liuliu" "aa@bb.com").ID),
            ("name", JValue.str "liuliu"), ("email", JValue.str "aa@bb.com"),
            ("age", JValue.num 0), ("createdAt", JValue.str zeroTimeText),
            ("updatedAt", JValue.str zeroTimeText)])])⟩ :=
  ((create_stores_then_rereads slotRepo sampleCodec zeroUUID
      (formRequest "POST" "/user/create" [("name", "liuliu"), ("email", "aa@bb.com")])
      none [] (by decide) (by decide)).2.2.2
    (createArg zeroUUID "liuliu" "aa@bb.com") rfl rfl).2.1
    zeroTimeText zeroTimeText (by decide) (by decide)

/-! ## Fake client: create and get -/

theorem storeEntry_keys {V : Type} (l : List (String × V)) (key : String) (val : V) :
    (storeEntry l key val).map Prod.fst
      = if key ∈ l.map Prod.fst then l.map Prod.fst else l.map Prod.fst ++ [key] := by
  induction l with
  | nil => simp [storeEntry]
  | cons p rest ih =>
    obtain ⟨k, v⟩ := p
    by_cases hk : k = key
    · simp [storeEntry, hk]
    · have hk2 : ¬ key = k := fun h => hk h.symm
      by_cases hm : key ∈ rest.map Prod.fst
      · simp only [storeEntry, hk, if_false, List.map_cons, ih, hm, if_true, List.mem_cons,
          or_true]
      · simp only [storeEntry, hk, if_false, List.map_cons, ih, hm, List.mem_cons, hk2,
          or_self, List.cons_append]

theorem storeEntry_nodup {V : Type} (l : List (String × V)) (key : String) (val : V)
    (h : (l.map Prod.fst).Nodup) : ((storeEntry l key val).map Prod.fst).Nodup := by
  rw [storeEntry_keys]
  split
  · exact h
  · rename_i hm
    exact List.Nodup.append h (List.nodup_singleton key)
      (by simpa [List.disjoint_singleton] using hm)

theorem dropEntry_nodup {V : Type} (l : List (String × V)) (key : String)
    (h : (l.map Prod.fst).Nodup) : ((dropEntry l key).map Prod.fst).Nodup := by
  unfold dropEntry
  exact (List.Nodup.sublist ((List.filter_sublist l).map Prod.fst) h)

theorem findEntry_storeEntry_same {V : Type} (l : List (String × V)) (key : String) (val : V) :
    findEntry (storeEntry l key val) key = some val := by
  induction l with
  | nil => simp [storeEntry, findEntry]
  | cons p rest ih =>
    obtain ⟨k, v⟩ := p
    by_cases hk : k = key
    · simp [storeEntry, findEntry, hk]
    · simp [storeEntry, findEntry, hk, ih]

theorem GoMap.get_set_same {V : Type} (m : GoMap V) (key : String) (val : V) :
    (m.set key val).get key = some val :=
  findEntry_storeEntry_same m.entries key val

/-- C4: when the email of `u` is already a key of the email→id map, `UserCreate(u)` returns
no record and the error `user already exists`, and the state, both maps, is what it was;
and the second of two successive `UserCreate` calls with one email, whatever the other
fields, ids and times, returns that error and leaves the state the first call left. -/
theorem fake_create_duplicate_email_fails (c : Fake.fakeClient) (newID newID2 : UUID)
    (now now2 : Time) (u u2 : Client.User) :
    (c.usersByEmail.get u.Email ≠ none →
      c.UserCreate newID now u = ((none, some "user already exists"), c)) ∧
    (u2.Email = u.Email →
      (c.UserCreate newID now u).2.UserCreate newID2 now2 u2
        = ((none, some "user already exists"), (c.UserCreate newID now u).2)) := by
  have key : ∀ (d : Fake.fakeClient) (i : UUID) (t : Time) (w : Client.User),
      d.usersByEmail.get w.Email ≠ none →
      d.UserCreate i t w = ((none, some "user already exists"), d) := by
    intro d i t w h
    unfold Fake.fakeClient.UserCreate
    cases hg : d.usersByEmail.get w.Email with
    | none => exact absurd hg h
    | some _ => rfl
  refine ⟨key c newID now u, ?_⟩
  intro he
  apply key
  rw [he]
  cases hg : c.usersByEmail.get u.Email with
  | some i => simp [Fake.fakeClient.UserCreate, hg]
  | none => simp [Fake.fakeClient.UserCreate, hg, GoMap.get_set_same]

theorem fake_create_duplicate_email_fails_witness :
    (emptyFake.UserCreate zeroUUID sampleTime (newUser "liuliu" "aa@bb.com")).2.UserCreate
        zeroUUID sampleTime (newUser "liuliu" "aa@bb.com")
      = ((none, some "user already exists"),
          (emptyFake.UserCreate zeroUUID sampleTime (newUser "liuliu" "aa@bb.com")).2) ∧
    (emptyFake.UserCreate zeroUUID sampleTime (newUser "liuliu" "aa@bb.com")).2.UserCreate
        (fun _ => 1) Time.zero (newUser "other" "aa@bb.com")
      = ((none, some "user already exists"),
          (emptyFake.UserCreate zeroUUID sampleTime (newUser "liuliu" "aa@bb.com")).2) :=
  ⟨(fake_create_duplicate_email_fails
      (emptyFake.UserCreate zeroUUID sampleTime (newUser "liuliu" "aa@bb.com")).2
      zeroUUID zeroUUID sampleTime sampleTime (newUser "liuliu" "aa@bb.com")
      (newUser "liuliu" "aa@bb.com")).1 (by decide),
   (fake_create_duplicate_email_fails emptyFake zeroUUID (fun _ => 1) sampleTime Time.zero
      (newUser "liuliu" "aa@bb.com") (newUser "other" "aa@bb.com")).2 rfl⟩

/-! ## Fake client: create on the Go value -/

theorem toValue_UserCreate (c : Fake.fakeClient) (newID : UUID) (now : Time)
    (u : Client.User) :
    c.toValue.UserCreate newID now u
      = Fake.Outcome.returned (c.UserCreate newID now u).1
          (c.UserCreate newID now u).2.toValue := by
  cases h : c.usersByEmail.get u.Email <;>
    simp [Fake.fakeClientValue.UserCreate, Fake.fakeClient.UserCreate, Fake.fakeClient.toValue,
      Fake.lookupNil, h]

theorem toValue_UserGet (c : Fake.fakeClient) (id : String) :
    c.toValue.UserGet id
      = Fake.Outcome.returned (c.UserGet id).1 (c.UserGet id).2.toValue := by
  cases h : c.users.get id <;>
    simp [Fake.fakeClientValue.UserGet, Fake.fakeClient.UserGet, Fake.fakeClient.toValue,
      Fake.lookupNil, h]

/-- C5 (as stated, refuted): on the zero value `fakeClient{}` the email `aa@bb.com` is not
present, and `UserCreate` panics at its first store instead of returning a record; it
panics as well when only one of the two maps is nil, in one case after the record has
been stored. -/
theorem fake_create_on_zero_value_panics :
    Fake.lookupNil Fake.fakeClientValue.zero.usersByEmail "aa@bb.com" = none ∧
    Fake.fakeClientValue.zero.UserCreate zeroUUID sampleTime (newUser "liuliu" "aa@bb.com")
      = Fake.Outcome.panicked Fake.fakeClientValue.zero ∧
    (⟨none, some GoMap.empty⟩ : Fake.fakeClientValue).UserCreate zeroUUID sampleTime
        (newUser "liuliu" "aa@bb.com")
      = Fake.Outcome.panicked ⟨none, some GoMap.empty⟩ ∧
    (⟨some GoMap.empty, none⟩ : Fake.fakeClientValue).UserCreate zeroUUID sampleTime
        (newUser "liuliu" "aa@bb.com")
      = Fake.Outcome.panicked ⟨some oneUserFake.users, none⟩ := by
  refine ⟨rfl, rfl, rfl, rfl⟩

/-- C5 (amended): on a fake client whose two maps have been made, when the email of `u` is not
a key of the email→id map, `UserCreate(u)` returns, with a nil error, the record made of
the generated id, which is not empty, the name, email and age of `u` and the current time
as both timestamps, whatever id and timestamps `u` carries; and `UserGet` of that id on
the state left behind returns the same record with a nil error. -/
theorem fake_create_then_get_on_made_maps (users : GoMap Client.User)
    (usersByEmail : GoMap String) (newID : UUID) (now : Time) (u : Client.User)
    (h : usersByEmail.get u.Email = none) :
    ∃ st : Fake.fakeClientValue,
      (⟨some users, some usersByEmail⟩ : Fake.fakeClientValue).UserCreate newID now u
        = Fake.Outcome.returned (some (createdRecord newID now u), none) st ∧
      (createdRecord newID now u).ID ≠ "" ∧
      (createdRecord newID now u).Name = u.Name ∧
      (createdRecord newID now u).Email = u.Email ∧
      (createdRecord newID now u).Age = u.Age ∧
      (createdRecord newID now u).CreatedAt = (createdRecord newID now u).UpdatedAt ∧
      st.UserGet (createdRecord newID now u).ID
        = Fake.Outcome.returned (some (createdRecord newID now u), none) st := by
  have hid : (createdRecord newID now u).ID = newID.String := by simp only [createdRecord]
  refine ⟨⟨some (users.set newID.String (createdRecord newID now u)),
    some (usersByEmail.set u.Email newID.String)⟩, ?_, ?_, by simp only [createdRecord],
    by simp only [createdRecord], by simp only [createdRecord], by simp only [createdRecord],
    ?_⟩
  · simp only [Fake.fakeClientValue.UserCreate, Fake.lookupNil, h, GoMap.get_set_same,
      createdRecord]
  · rw [hid]
    exact UUID.String_ne_empty newID
  · rw [hid]
    simp only [Fake.fakeClientValue.UserGet, Fake.lookupNil, GoMap.get_set_same]

theorem fake_create_then_get_on_made_maps_witness :
    ∃ st : Fake.fakeClientValue,
      emptyFake.toValue.UserCreate zeroUUID sampleTime (newUser "liuliu" "aa@bb.com")
        = Fake.Outcome.returned
            (some (createdRecord zeroUUID sampleTime (newUser "liuliu" "aa@bb.com")), none)
            st ∧
      st.UserGet (createdRecord zeroUUID sampleTime (newUser "liuliu" "aa@bb.com")).ID
        = Fake.Outcome.returned
            (some (createdRecord zeroUUID sampleTime (newUser "liuliu" "aa@bb.com")), none)
            st :=
  let ⟨st, h1, _, _, _, _, _, h2⟩ :=
    fake_create_then_get_on_made_maps GoMap.empty GoMap.empty zeroUUID sampleTime
      (newUser "liuliu" "aa@bb.com") (by decide)
  ⟨st, h1, h2⟩

/-! ## Client decoding of what the service encodes -/

theorem decodeUserMember_id (tc : TimeCodec) (cur : Client.User) (v : JValue) :
    Client.decodeUserMember tc cur "id" v
      = (Client.decodeString v cur.ID).map (fun x => { cur with ID := x }) := rfl

theorem decodeUserMember_name (tc : TimeCodec) (cur : Client.User) (v : JValue) :
    Client.decodeUserMember tc cur "name" v
      = (Client.decodeString v cur.Name).map (fun x => { cur with Name := x }) := rfl

theorem decodeUserMember_email (tc : TimeCodec) (cur : Client.User) (v : JValue) :
    Client.decodeUserMember tc cur "email" v
      = (Client.decodeString v cur.Email).map (fun x => { cur with Email := x }) := rfl

theorem decodeUserMember_age (tc : TimeCodec) (cur : Client.User) (v : JValue) :
    Client.decodeUserMember tc cur "age" v
      = (Client.decodeInt v cur.Age).map (fun x => { cur with Age := x }) := rfl

theorem decodeUserMember_createdAt (tc : TimeCodec) (cur : Client.User) (v : JValue) :
    Client.decodeUserMember tc cur "createdAt" v
      = (Client.decodeTime tc v cur.CreatedAt).map (fun x => { cur with CreatedAt := x }) := rfl

theorem decodeUserMember_updatedAt (tc : TimeCodec) (cur : Client.User) (v : JValue) :
    Client.decodeUserMember tc cur "updatedAt" v
      = (Client.decodeTime tc v cur.UpdatedAt).map (fun x => { cur with UpdatedAt := x }) := rfl

theorem decodeUser_marshalUser (tc : TimeCodec) (a : Api.User)
    (hcr : tc.ReadsBack a.CreatedAt) (hup : tc.ReadsBack a.UpdatedAt)
    (cur : Client.User) (j : JValue) (hage : inInt64 a.Age) (hj : marshalUser tc a = some j) :
    ∃ r : Client.User, Client.decodeUser tc j cur = Except.ok r ∧ SameOnWire a r := by
  unfold marshalUser at hj
  cases hc : tc.format a.CreatedAt with
  | none => simp [hc] at hj
  | some c =>
    cases hm : tc.format a.UpdatedAt with
    | none => simp [hc, hm] at hj
    | some m =>
      simp only [hc, hm, Option.some.injEq] at hj
      obtain ⟨c2, hc2, hci⟩ := hcr _ hc
      obtain ⟨m2, hm2, hmi⟩ := hup _ hm
      refine ⟨⟨a.ID, a.Name, a.Email, a.Age, c2, m2⟩, ?_, ⟨rfl, rfl, rfl, rfl, hci, hmi⟩⟩
      subst hj
      simp only [Client.decodeUser, Client.decodeUserMembers, decodeUserMember_id,
        decodeUserMember_name, decodeUserMember_email, decodeUserMember_age,
        decodeUserMember_createdAt, decodeUserMember_updatedAt, Client.decodeString,
        Client.decodeInt, Client.decodeTime, hage, hc2, hm2, if_true, Except.map]

theorem decodeUsers_marshalUsers (tc : TimeCodec) (as : List Api.User)
    (hrb : ∀ a ∈ as, tc.ReadsBack a.CreatedAt ∧ tc.ReadsBack a.UpdatedAt)
    (js : List JValue) (hage : ∀ a ∈ as, inInt64 a.Age) (hj : marshalUsers tc as = some js) :
    ∃ rs : List Client.User, Client.decodeUsers tc js [] = Except.ok rs ∧
      List.Forall₂ SameOnWire as rs := by
  induction as generalizing js with
  | nil =>
    simp only [marshalUsers, Option.some.injEq] at hj
    subst hj
    exact ⟨[], rfl, List.Forall₂.nil⟩
  | cons a rest ih =>
    unfold marshalUsers at hj
    cases h1 : marshalUser tc a with
    | none => simp [h1] at hj
    | some j1 =>
      cases h2 : marshalUsers tc rest with
      | none => simp [h1, h2] at hj
      | some js1 =>
        simp only [h1, h2, Option.some.injEq] at hj
        subst hj
        obtain ⟨r, hr, hsame⟩ := decodeUser_marshalUser tc a
          (hrb a (List.mem_cons_self a rest)).1 (hrb a (List.mem_cons_self a rest)).2
          Client.User.zero j1 (hage a (List.mem_cons_self a rest)) h1
        obtain ⟨rs, hrs, hall⟩ := ih (fun x hx => hrb x (List.mem_cons_of_mem a hx)) js1
          (fun x hx => hage x (List.mem_cons_of_mem a hx)) h2
        refine ⟨r :: rs, ?_, List.Forall₂.cons hsame hall⟩
        simp only [Client.decodeUsers, List.headD_nil, List.tail_nil, hr, hrs]

theorem unmarshalCreateGet_dataBody (tc : TimeCodec) (a : Api.User)
    (hcr : tc.ReadsBack a.CreatedAt) (hup : tc.ReadsBack a.UpdatedAt) (j : JValue) (hage : inInt64 a.Age) (hj : marshalUser tc a = some j) :
    ∃ r : Client.User, Client.unmarshalCreateGet tc (dataBody tc (Payload.user a))
        = Except.ok ⟨r⟩ ∧ SameOnWire a r := by
  obtain ⟨r, hr, hsame⟩ := decodeUser_marshalUser tc a hcr hup Client.User.zero j hage hj
  refine ⟨r, ?_, hsame⟩
  have hfield : Client.matchField ["data"] "data" = some "data" := rfl
  simp only [dataBody, marshalPayload, hj, Client.unmarshalCreateGet,
    Client.decodeCreateGetMembers, Client.decodeCreateGetMember, hfield, hr, Except.map]

theorem unmarshalList_dataBody (tc : TimeCodec) (as : List Api.User)
    (hrb : ∀ a ∈ as, tc.ReadsBack a.CreatedAt ∧ tc.ReadsBack a.UpdatedAt) (total : Int) (js : List JValue) (htotal : inInt64 total)
    (hage : ∀ a ∈ as, inInt64 a.Age) (hj : marshalUsers tc as = some js) :
    ∃ rs : List Client.User, Client.unmarshalList tc (dataBody tc (Payload.list total as))
        = Except.ok ⟨⟨total, rs⟩⟩ ∧ List.Forall₂ SameOnWire as rs := by
  obtain ⟨rs, hrs, hall⟩ := decodeUsers_marshalUsers tc as hrb js hage hj
  refine ⟨rs, ?_, hall⟩
  have hfield : Client.matchField ["data"] "data" = some "data" := rfl
  have htot : ∀ (cur : Client.ListResponseData) (v : JValue),
      Client.decodeListDataMember tc cur "total" v
        = (Client.decodeInt v cur.Total).map (fun x => { cur with Total := x }) :=
    fun _ _ => rfl
  have husers : ∀ (cur : Client.ListResponseData) (items : List JValue),
      Client.decodeListDataMember tc cur "users" (JValue.arr items)
        = (Client.decodeUsers tc items cur.Users).map (fun x => { cur with Users := x }) :=
    fun _ _ => rfl
  simp only [dataBody, marshalPayload, hj, Client.unmarshalList, Client.decodeListMembers,
    Client.decodeListMember, hfield, Client.decodeListData, Client.decodeListDataMembers,
    htot, husers, Client.decodeInt, htotal, if_true, hrs, Except.map]

/-- Whatever the timestamp codec, when it reads back the timestamps of the records sent,
the envelope the service writes, answered with status 200, makes `UserCreate` and
`UserGet` return a user agreeing with the record sent, and `UserList` return the same
total and as many users, in the same order, each agreeing with the one sent. -/
theorem client_decodes_envelope {τ : Type} (h : Client.HTTP τ)
    (tc : TimeCodec) (server : String) (st st1 : τ) (arg : Client.User) (id : String)
    (u : Store.User) (users : List Store.User) (total : Int) :
    (∀ j : JValue, inInt64 u.Age → tc.ReadsBack u.CreatedAt → tc.ReadsBack u.UpdatedAt →
      marshalUser tc (convertModelUser u) = some j →
      h.newRequestErr "GET" (server ++ "/user/create") = none →
      h.Do (createRequest server arg) st
        = (Except.ok ⟨200, Client.ReadAll.ok (dataBody tc (Payload.user (convertModelUser u)))⟩,
            st1) →
      ∃ r : Client.User,
        Client.client.UserCreate ⟨h, server, tc⟩ arg st = ((some r, none), st1) ∧
          SameOnWire (convertModelUser u) r) ∧
    (∀ j : JValue, inInt64 u.Age → tc.ReadsBack u.CreatedAt → tc.ReadsBack u.UpdatedAt →
      marshalUser tc (convertModelUser u) = some j →
      h.newRequestErr "GET" (server ++ "/user/create") = none →
      h.Do (getRequest server id) st
        = (Except.ok ⟨200, Client.ReadAll.ok (dataBody tc (Payload.user (convertModelUser u)))⟩,
            st1) →
      ∃ r : Client.User,
        Client.client.UserGet ⟨h, server, tc⟩ id st = ((some r, none), st1) ∧
          SameOnWire (convertModelUser u) r) ∧
    (∀ js : List JValue, inInt64 total → (∀ x ∈ users, inInt64 x.Age) →
      (∀ x ∈ users, tc.ReadsBack x.CreatedAt ∧ tc.ReadsBack x.UpdatedAt) →
      marshalUsers tc (users.map convertModelUser) = some js →
      h.newRequestErr "GET" (server ++ "/user/list") = none →
      h.Do (listRequest server) st
        = (Except.ok ⟨200, Client.ReadAll.ok
            (dataBody tc (Payload.list total (users.map convertModelUser)))⟩, st1) →
      ∃ rs : List Client.User,
        Client.client.UserList ⟨h, server, tc⟩ st = ((rs, total, none), st1) ∧
          rs.length = users.length ∧
          List.Forall₂ SameOnWire (users.map convertModelUser) rs) := by
  refine ⟨?_, ?_, ?_⟩
  · intro j hage hcr hup hj hreq hdo
    obtain ⟨r, hr, hsame⟩ :=
      unmarshalCreateGet_dataBody tc (convertModelUser u) hcr hup j hage hj
    refine ⟨r, ?_, hsame⟩
    simp only [createRequest] at hdo
    simp [Client.client.UserCreate, Client.HTTP.NewRequest, hreq, hdo, StatusOK, hr]
  · intro j hage hcr hup hj hreq hdo
    obtain ⟨r, hr, hsame⟩ :=
      unmarshalCreateGet_dataBody tc (convertModelUser u) hcr hup j hage hj
    refine ⟨r, ?_, hsame⟩
    simp only [getRequest] at hdo
    simp [Client.client.UserGet, Client.HTTP.NewRequest, hreq, hdo, StatusOK, hr]
  · intro js htotal hage hrb hj hreq hdo
    have hage2 : ∀ a ∈ users.map convertModelUser, inInt64 a.Age := by
      intro a ha
      obtain ⟨x, hx, rfl⟩ := List.mem_map.mp ha
      exact hage x hx
    have hrb2 : ∀ a ∈ users.map convertModelUser,
        tc.ReadsBack a.CreatedAt ∧ tc.ReadsBack a.UpdatedAt := by
      intro a ha
      obtain ⟨x, hx, rfl⟩ := List.mem_map.mp ha
      exact hrb x hx
    obtain ⟨rs, hrs, hall⟩ := unmarshalList_dataBody tc (users.map convertModelUser) hrb2
      total js htotal hage2 hj
    refine ⟨rs, ?_, ?_, hall⟩
    · simp only [listRequest] at hdo
      simp [Client.client.UserList, Client.HTTP.NewRequest, hreq, hdo, StatusOK, hrs]
    · have := hall.length_eq
      simpa using this.symm

/-! ## The JSON codec of time.Time reads back what it writes -/

theorem digitValue_digit (n : Int) (h0 : 0 ≤ n) (h9 : n ≤ 9) :
    digitValue (digit n) = some n := by
  interval_cases n <;> rfl

theorem digit_not_period (n : Int) (h0 : 0 ≤ n) (h9 : n ≤ 9) : digit n ≠ '.' := by
  interval_cases n <;> decide

theorem parseUint_appendInt2 (x lo hi : Int) (h0 : 0 ≤ x) (h99 : x ≤ 99)
    (hlo : lo ≤ x) (hhi : x ≤ hi) : parseUint (appendInt2 x) lo hi = some x := by
  have h1 := digitValue_digit (x / 10) (by omega) (by omega)
  have h2 := digitValue_digit (x % 10) (by omega) (by omega)
  have hx : (0 * 10 + x / 10) * 10 + x % 10 = x := by omega
  simp only [parseUint, appendInt2, List.foldl_cons, List.foldl_nil, Option.some_bind, h1, h2,
    Option.map_some', hx]
  rw [if_neg (by omega)]

theorem parseUint_appendInt4 (x lo hi : Int) (h0 : 0 ≤ x) (h99 : x ≤ 9999)
    (hlo : lo ≤ x) (hhi : x ≤ hi) : parseUint (appendInt4 x) lo hi = some x := by
  have h1 := digitValue_digit (x / 1000) (by omega) (by omega)
  have h2 := digitValue_digit (x / 100 % 10) (by omega) (by omega)
  have h3 := digitValue_digit (x / 10 % 10) (by omega) (by omega)
  have h4 := digitValue_digit (x % 10) (by omega) (by omega)
  have hx : (((0 * 10 + x / 1000) * 10 + x / 100 % 10) * 10 + x / 10 % 10) * 10 + x % 10
      = x := by omega
  simp only [parseUint, appendInt4, List.foldl_cons, List.foldl_nil, Option.some_bind, h1, h2,
    h3, h4, Option.map_some', hx]
  rw [if_neg (by omega)]

theorem readFraction_stop (s : List Char) (w : Nat) (h : StartsZone s) :
    readFraction s w = (0, s) := by
  obtain ⟨c, rest, rfl, hc, _⟩ := h
  simp only [readFraction, hc]

theorem readFraction_fractionDigits (w : Nat) (x : Int) (h0 : 0 ≤ x) (hw : x < 10 ^ w)
    (tail : List Char) (ht : StartsZone tail) :
    readFraction (fractionDigits w x ++ tail) w = (x, tail) := by
  induction w generalizing x with
  | zero =>
    have hx : x = 0 := by simp at hw; omega
    subst hx
    simpa [fractionDigits] using readFraction_stop tail 0 ht
  | succ w ih =>
    by_cases hx : x = 0
    · subst hx
      simpa [fractionDigits] using readFraction_stop tail (w + 1) ht
    · have hpos : (0 : Int) < 10 ^ w := by positivity
      have hq0 : 0 ≤ x / 10 ^ w := Int.ediv_nonneg h0 hpos.le
      have hq9 : x / 10 ^ w ≤ 9 := by
        have : x / 10 ^ w < 10 := by
          apply Int.ediv_lt_of_lt_mul hpos
          rw [pow_succ] at hw
          linarith
        omega
      have hr0 : 0 ≤ x % 10 ^ w := Int.emod_nonneg _ hpos.ne'
      have hr1 : x % 10 ^ w < 10 ^ w := Int.emod_lt_of_pos _ hpos
      have hd := digitValue_digit _ hq0 hq9
      have hrec := ih (x % 10 ^ w) hr0 hr1
      simp only [fractionDigits, hx, if_false, List.cons_append, readFraction, hd, hrec]
      congr 1
      have := Int.ediv_add_emod x (10 ^ w)
      linarith [mul_comm (10 ^ w : Int) (x / 10 ^ w)]

theorem parseFraction_appendNano (nsec : Int) (h0 : 0 ≤ nsec) (h1 : nsec < 1000000000)
    (tail : List Char) (ht : StartsZone tail) :
    parseFraction (appendNano nsec ++ tail) = (nsec, tail) := by
  by_cases hx : nsec = 0
  · subst hx
    obtain ⟨c, rest, rfl, hc, hdot⟩ := ht
    cases rest with
    | nil => simp [appendNano, parseFraction]
    | cons c2 rest2 => simp [appendNano, parseFraction, hdot]
  · have hq0 : 0 ≤ nsec / 10 ^ 8 := by omega
    have hq9 : nsec / 10 ^ 8 ≤ 9 := by omega
    have hd := digitValue_digit _ hq0 hq9
    have hfd : fractionDigits 9 nsec
        = digit (nsec / 10 ^ 8) :: fractionDigits 8 (nsec % 10 ^ 8) := by
      simp only [fractionDigits, hx, if_false]
    have hrec := readFraction_fractionDigits 9 nsec h0 (by norm_num; omega) tail ht
    rw [hfd] at hrec
    simp only [appendNano, hx, if_false, hfd, List.cons_append, parseFraction, hd,
      Option.isSome_some, and_self, if_true]
    exact hrec

theorem cycle_split (doe : Int) (h0 : 0 ≤ doe) (h1 : doe < 146097) :
    ∃ c q n doy : Int,
      c = doe / 36524 - doe / 146096 ∧
      q = (doe - 36524 * c) / 1461 ∧
      n = (doe - 36524 * c) % 1461 / 365 - (doe - 36524 * c) % 1461 / 1460 ∧
      doy = (doe - 36524 * c) % 1461 - 365 * n ∧
      0 ≤ c ∧ c ≤ 3 ∧ 0 ≤ q ∧ q ≤ 24 ∧ 0 ≤ n ∧ n ≤ 3 ∧ 0 ≤ doy ∧ doy ≤ 365 ∧
      doe = 36524 * c + 1461 * q + 365 * n + doy ∧
      (doy = 365 → n = 3 ∧ (q ≠ 24 ∨ c = 3)) := by
  refine ⟨_, _, _, _, rfl, rfl, rfl, rfl, ?_⟩
  generalize hc : doe / 36524 - doe / 146096 = c
  have hc2 : 0 ≤ c ∧ c ≤ 3 := by omega
  generalize hd1 : doe - 36524 * c = d1
  have hd1b : 0 ≤ d1 ∧ d1 ≤ 36524 ∧ (d1 = 36524 → c = 3) := by omega
  generalize hq : d1 / 1461 = q
  generalize hd2 : d1 % 1461 = d2
  have hq2 : 0 ≤ q ∧ q ≤ 24 ∧ d1 = 1461 * q + d2 ∧ 0 ≤ d2 ∧ d2 ≤ 1460 := by omega
  generalize hn : d2 / 365 - d2 / 1460 = n
  have hn2 : 0 ≤ n ∧ n ≤ 3 := by omega
  have hdoy : 0 ≤ d2 - 365 * n ∧ d2 - 365 * n ≤ 365 ∧ (d2 - 365 * n = 365 → n = 3 ∧ d2 = 1460) := by
    omega
  refine ⟨hc2.1, hc2.2, hq2.1, hq2.2.1, hn2.1, hn2.2, hdoy.1, hdoy.2.1, by omega, ?_⟩
  intro h365
  obtain ⟨h3, h1460⟩ := hdoy.2.2 h365
  refine ⟨h3, ?_⟩
  omega

theorem civilFromDays_spec (D y m d : Int) (h : civilFromDays D = (y, m, d)) :
    1 ≤ m ∧ m ≤ 12 ∧ 1 ≤ d ∧ d ≤ daysIn m y ∧ daysFromCivil y m d = D := by
  simp only [civilFromDays, Prod.mk.injEq] at h
  obtain ⟨hy, hm, hd⟩ := h
  have hzz : 0 ≤ (D + 719468) % 146097 ∧ (D + 719468) % 146097 < 146097 := by omega
  obtain ⟨c, q, n, doy, hc, hq, hn, hdoy, hc0, hc3, hq0, hq24, hn0, hn3, hd0, hd365, hsum,
    hleap⟩ := cycle_split ((D + 719468) % 146097) hzz.1 hzz.2
  rw [← hc] at hy hm hd
  rw [← hq] at hy
  rw [← hn] at hy hm hd
  rw [← hdoy] at hy hm hd
  obtain ⟨mp, hmp⟩ : ∃ mp, mp = (5 * doy + 2) / 153 := ⟨_, rfl⟩
  rw [← hmp] at hy hm hd
  obtain ⟨era, hera⟩ : ∃ era, era = (D + 719468) / 146097 := ⟨_, rfl⟩
  rw [← hera] at hy
  have hD : D = 146097 * era + (36524 * c + 1461 * q + 365 * n + doy) - 719468 := by omega
  have hmp0 : 0 ≤ mp := by omega
  have hmp11 : mp ≤ 11 := by omega
  clear hc hq hn hdoy hsum hzz hera
  have k1 : (100 * c + 4 * q + n + era * 400) / 400 = era := by omega
  have k2 : (100 * c + 4 * q + n + era * 400) % 400 = 100 * c + 4 * q + n := by omega
  have k3 : (100 * c + 4 * q + n) / 4 = 25 * c + q := by omega
  have k4 : (100 * c + 4 * q + n) / 100 = c := by omega
  have k5 : (100 * c + 4 * q + n + era * 400 + 1) % 4 = (n + 1) % 4 := by omega
  have k6 : (100 * c + 4 * q + n + era * 400 + 1) % 100 = (4 * q + n + 1) % 100 := by omega
  have k7 : (100 * c + 4 * q + n + era * 400 + 1) % 400 = (100 * c + 4 * q + n + 1) % 400 := by
    omega
  subst hD
  simp only [daysFromCivil, daysIn, isLeap]
  interval_cases mp <;> simp at hy hm hd <;> subst hm <;> subst hy <;> subst hd <;>
    simp [k1, k2, k3, k4, k5, k6, k7] <;> omega

theorem parseZone_appendZone (off : Int) (h60 : off % 60 = 0)
    (hz : ¬ (zoneMinutes off / 60 ≥ 24 ∨ -zoneMinutes off / 60 ≥ 24)) :
    parseZone (appendZone off) = some off ∧ StartsZone (appendZone off) := by
  by_cases h0 : off = 0
  · subst h0
    exact ⟨by decide, 'Z', [], by decide, by decide, by decide⟩
  · by_cases hneg : off < 0
    · have hzm : zoneMinutes off = -(-off / 60) := by simp only [zoneMinutes, hneg, if_true]
      rw [hzm] at hz
      have hlt : -(-(-off / 60)) / 60 < 24 := by omega
      have h1 := parseUint_appendInt2 (-(-(-off / 60)) / 60) 0 23 (by omega) (by omega)
        (by omega) (by omega)
      have h2 := parseUint_appendInt2 (-(-(-off / 60)) % 60) 0 59 (by omega) (by omega)
        (by omega) (by omega)
      simp only [appendInt2] at h1 h2
      have hlt0 : -(-off / 60) < 0 := by omega
      refine ⟨?_, '-', _, by simp only [appendZone, h0, if_false, hzm, hlt0, if_true]; rfl,
        by decide, by decide⟩
      have hne : ∀ l : List Char, ('-' :: l) ≠ ['Z'] := by
        intro l hl
        have := (List.cons.inj hl).1
        exact absurd this (by decide)
      simp only [appendZone, h0, if_false, hzm, hlt0, if_true, appendInt2, List.cons_append,
        List.nil_append, parseZone, hne, h1, h2, Option.some_bind, true_or, and_self]
      congr 1
      omega
    · have hzm : zoneMinutes off = off / 60 := by simp only [zoneMinutes, hneg, if_false]
      rw [hzm] at hz
      have h1 := parseUint_appendInt2 (off / 60 / 60) 0 23 (by omega) (by omega)
        (by omega) (by omega)
      have h2 := parseUint_appendInt2 (off / 60 % 60) 0 59 (by omega) (by omega)
        (by omega) (by omega)
      simp only [appendInt2] at h1 h2
      have hlt0 : ¬ off / 60 < 0 := by omega
      refine ⟨?_, '+', _, by simp only [appendZone, h0, if_false, hzm, hlt0]; rfl,
        by decide, by decide⟩
      have hne : ∀ l : List Char, ('+' :: l) ≠ ['Z'] := by
        intro l hl
        have := (List.cons.inj hl).1
        exact absurd this (by decide)
      have hpm : ('+' : Char) ≠ '-' := by decide
      simp only [appendZone, h0, if_false, hzm, hlt0, appendInt2, List.cons_append,
        List.nil_append, parseZone, hne, h1, h2, Option.some_bind, or_true, and_self, if_true,
        hpm]
      congr 1
      omega

theorem parseRFC3339_appendStrictRFC3339 (t : Time) (cs : List Char)
    (h60 : t.zoneOffset % 60 = 0) (h : appendStrictRFC3339 t = some cs) :
    parseRFC3339 cs = some t := by
  obtain ⟨y, m, d, hdate⟩ : ∃ y m d, civilFromDays (t.localSec / 86400) = (y, m, d) :=
    ⟨_, _, _, rfl⟩
  obtain ⟨hm1, hm12, hd1, hdIn, hdays⟩ := civilFromDays_spec _ y m d hdate
  simp only [appendStrictRFC3339, hdate] at h
  by_cases hyr : y < 0 ∨ 9999 < y
  · simp only [hyr, if_true] at h
    exact absurd h (by simp)
  · by_cases hzn : zoneMinutes t.zoneOffset / 60 ≥ 24 ∨ -zoneMinutes t.zoneOffset / 60 ≥ 24
    · simp only [hyr, if_false, hzn, if_true] at h
      exact absurd h (by simp)
    · simp only [hyr, if_false, hzn, Option.some.injEq] at h
      obtain ⟨hzone, hstart⟩ := parseZone_appendZone t.zoneOffset h60 hzn
      have hdmax : d ≤ 31 := by
        have : daysIn m y ≤ 31 := by
          unfold daysIn
          split
          · split <;> omega
          · split <;> omega
        omega
      have hY := parseUint_appendInt4 y 0 9999 (by omega) (by omega) (by omega) (by omega)
      have hM := parseUint_appendInt2 m 1 12 (by omega) (by omega) hm1 hm12
      have hDd := parseUint_appendInt2 d 1 (daysIn m y) (by omega) (by omega) hd1 hdIn
      have hH := parseUint_appendInt2 (t.localSec % 86400 / 3600) 0 23 (by omega) (by omega)
        (by omega) (by omega)
      have hMi := parseUint_appendInt2 (t.localSec % 86400 % 3600 / 60) 0 59 (by omega)
        (by omega) (by omega) (by omega)
      have hS := parseUint_appendInt2 (t.localSec % 86400 % 60) 0 59 (by omega) (by omega)
        (by omega) (by omega)
      have hfrac := parseFraction_appendNano t.Nanosecond (by unfold Time.Nanosecond; omega)
        (by unfold Time.Nanosecond; omega) (appendZone t.zoneOffset) hstart
      simp only [appendInt4, appendInt2] at hY hM hDd hH hMi hS
      subst h
      simp only [appendInt4, appendInt2, List.cons_append, List.nil_append, parseRFC3339, hY, hM,
        hDd, hH, hMi, hS, Option.some_bind, and_self, if_true, hfrac, hzone, Option.map_some',
        hdays]
      congr 1
      obtain ⟨n, off⟩ := t
      simp only [Time.mk.injEq, and_true, Time.localSec, Time.Nanosecond]
      omega

theorem goCodec_readsBack (Parse : String → Option Time) (t : Time)
    (h60 : t.zoneOffset % 60 = 0) : (goCodec Parse).ReadsBack t := by
  intro s hs
  simp only [goCodec, Time.MarshalJSON] at hs
  cases hcs : appendStrictRFC3339 t with
  | none => simp [hcs] at hs
  | some cs =>
    simp only [hcs, Option.map_some', Option.some.injEq] at hs
    subst hs
    refine ⟨t, ?_, rfl⟩
    simp only [goCodec, Time.UnmarshalJSON, parseRFC3339_appendStrictRFC3339 t cs h60 hcs]

/-- Known dates: the epoch, a leap day, the zero time, and the first and last days the
layout can hold. -/
theorem civilFromDays_examples :
    civilFromDays 0 = (1970, 1, 1) ∧ civilFromDays 11016 = (2000, 2, 29) ∧
    civilFromDays (-25567) = (1900, 1, 1) ∧ civilFromDays (-719162) = (1, 1, 1) ∧
    civilFromDays (-719528) = (0, 1, 1) ∧ civilFromDays 2932896 = (9999, 12, 31) := by
  decide

/-- The texts written for the sample time, the zero time, an instant before the epoch with
nanoseconds, and an instant in a zone west of UTC with trailing zeros in its fraction; the
texts read, with a fraction of more than nine digits, and the texts refused. -/
theorem goCodec_examples :
    Time.MarshalJSON sampleTime = some sampleTimeText ∧
    Time.MarshalJSON Time.zero = some zeroTimeText ∧
    Time.MarshalJSON ⟨-1, 0⟩ = some "1969-12-31T23:59:59.999999999Z" ∧
    Time.MarshalJSON ⟨1752999201000001200, -12600⟩
      = some "2025-07-20T04:43:21.0000012-03:30" ∧
    Time.MarshalJSON lmtTime = some "1900-01-01T00:00:00+08:05" ∧
    Time.MarshalJSON year10000 = none ∧
    parseRFC3339 sampleTimeText.data = some sampleTime ∧
    parseRFC3339 "2025-07-20T04:43:21.1234567891234Z".data
      = some ⟨1752986601123456789, 0⟩ ∧
    parseRFC3339 "2025-02-29T04:43:21Z".data = none ∧
    parseRFC3339 "2025-07-20T04:43:21".data = none := by
  decide

theorem marshalJSON_fits (t : Time) (h : t.FitsRFC3339) : ∃ s, t.MarshalJSON = some s := by
  obtain ⟨hy0, hy1, _, hlo, hhi⟩ := h
  unfold Time.Year at hy0 hy1
  have hyr : ¬ ((civilFromDays (t.localSec / 86400)).1 < 0 ∨
      9999 < (civilFromDays (t.localSec / 86400)).1) := by omega
  have hzn : ¬ (zoneMinutes t.zoneOffset / 60 ≥ 24 ∨ -zoneMinutes t.zoneOffset / 60 ≥ 24) := by
    unfold zoneMinutes
    split <;> omega
  simp only [Time.MarshalJSON, appendStrictRFC3339, hyr, hzn, if_false, Option.map_some']
  exact ⟨_, rfl⟩

theorem marshalUser_fits (Parse : String → Option Time) (a : Api.User)
    (hc : a.CreatedAt.FitsRFC3339) (hm : a.UpdatedAt.FitsRFC3339) :
    ∃ c m, marshalUser (goCodec Parse) a = some (userDoc a c m) := by
  obtain ⟨c, hc2⟩ := marshalJSON_fits _ hc
  obtain ⟨m, hm2⟩ := marshalJSON_fits _ hm
  exact ⟨c, m, by simp only [marshalUser, goCodec, hc2, hm2, userDoc]⟩

theorem marshalUsers_fits (Parse : String → Option Time) (as : List Api.User)
    (h : ∀ a ∈ as, a.CreatedAt.FitsRFC3339 ∧ a.UpdatedAt.FitsRFC3339) :
    ∃ js, marshalUsers (goCodec Parse) as = some js := by
  induction as with
  | nil => exact ⟨[], rfl⟩
  | cons a rest ih =>
    obtain ⟨c, m, hj⟩ := marshalUser_fits Parse a (h a (List.mem_cons_self _ _)).1
      (h a (List.mem_cons_self _ _)).2
    obtain ⟨js, hjs⟩ := ih (fun x hx => h x (List.mem_cons_of_mem _ hx))
    exact ⟨userDoc a c m :: js, by simp only [marshalUsers, hj, hjs]⟩

/-- C6 (as stated, refuted): a record created at midnight of January 1, 1900 in a zone
8 h 5 min 43 s east of UTC is written by the service with the zone `+08:05`, and `UserGet`,
answered with that body and status 200, returns a record whose `createdAt` and
`updatedAt` are instants 43 seconds later than those of the record sent. A record
created in the year 10000, or in a zone 24 hours east of UTC, makes the service write no
body at all, on which `UserGet` fails. -/
theorem zone_seconds_are_lost_on_the_wire :
    dataBody (goCodec strictOnly) (Payload.user (convertModelUser lmtUser))
      = Body.json (JValue.obj [("data", userDoc (convertModelUser lmtUser)
          "1900-01-01T00:00:00+08:05" "1900-01-01T00:00:00+08:05")]) ∧
    Client.client.UserGet
        ⟨answering 200 (dataBody (goCodec strictOnly) (Payload.user (convertModelUser lmtUser))),
          sampleServer, goCodec strictOnly⟩ lmtUser.ID ()
      = ((some { ID := lmtUser.ID, Name := lmtUser.Name, Email := lmtUser.Email,
                 Age := lmtUser.Age,
                 CreatedAt := ⟨lmtUser.CreatedAt.unixNano + 43000000000, 29100⟩,
                 UpdatedAt := ⟨lmtUser.UpdatedAt.unixNano + 43000000000, 29100⟩ }, none), ()) ∧
    dataBody (goCodec strictOnly)
        (Payload.user (convertModelUser { sampleUser with CreatedAt := year10000 }))
      = Body.empty ∧
    dataBody (goCodec strictOnly)
        (Payload.user (convertModelUser { sampleUser with UpdatedAt := dayAheadTime }))
      = Body.empty ∧
    Client.client.UserGet ⟨answering 200 Body.empty, sampleServer, goCodec strictOnly⟩
        sampleUser.ID ()
      = ((none, some (Client.Error.parseResponse Client.DecodeError.syntaxError)), ()) :=
  ⟨by rfl, by decide, by rfl, by rfl, by decide⟩

/-- C6 (amended): with the JSON codec of `time.Time`, whatever the general parser behind
it. For a stored user whose two timestamps RFC 3339 holds without loss (year within
0..9999, zone offset of whole minutes and less than 24 hours) the body the service writes
on a successful create or get is the object `{"data": ...}` of the converted record, and
`UserCreate` and `UserGet`, answered with that body and status 200, return a user with the
same id, name, email and age and the same `createdAt` and `updatedAt` instants. For a
list of such users and a total, `UserList`, answered with the body the service writes for
them and status 200, returns the same total and as many users in the same order, each with
the same id, name, email, age and instants as the one sent. (Strings are valid UTF-8 and
`Age`, `total` lie in the range of the Go integers.) -/
theorem client_decoding_undoes_encoding_of_rfc3339_times {τ : Type} (h : Client.HTTP τ)
    (Parse : String → Option Time) (server : String) (st st1 : τ) (arg : Client.User)
    (id : String) (u : Store.User) (users : List Store.User) (total : Int) :
    (inInt64 u.Age → u.CreatedAt.FitsRFC3339 → u.UpdatedAt.FitsRFC3339 →
      (∃ c m : String,
        dataBody (goCodec Parse) (Payload.user (convertModelUser u))
          = Body.json (JValue.obj [("data", userDoc (convertModelUser u) c m)])) ∧
      (h.newRequestErr "GET" (server ++ "/user/create") = none →
        h.Do (createRequest server arg) st
          = (Except.ok ⟨200, Client.ReadAll.ok
              (dataBody (goCodec Parse) (Payload.user (convertModelUser u)))⟩, st1) →
        ∃ r : Client.User,
          Client.client.UserCreate ⟨h, server, goCodec Parse⟩ arg st = ((some r, none), st1) ∧
            SameOnWire (convertModelUser u) r) ∧
      (h.newRequestErr "GET" (server ++ "/user/create") = none →
        h.Do (getRequest server id) st
          = (Except.ok ⟨200, Client.ReadAll.ok
              (dataBody (goCodec Parse) (Payload.user (convertModelUser u)))⟩, st1) →
        ∃ r : Client.User,
          Client.client.UserGet ⟨h, server, goCodec Parse⟩ id st = ((some r, none), st1) ∧
            SameOnWire (convertModelUser u) r)) ∧
    (inInt64 total →
      (∀ x ∈ users, inInt64 x.Age ∧ x.CreatedAt.FitsRFC3339 ∧ x.UpdatedAt.FitsRFC3339) →
      h.newRequestErr "GET" (server ++ "/user/list") = none →
      h.Do (listRequest server) st
        = (Except.ok ⟨200, Client.ReadAll.ok
            (dataBody (goCodec Parse) (Payload.list total (users.map convertModelUser)))⟩,
            st1) →
      ∃ rs : List Client.User,
        Client.client.UserList ⟨h, server, goCodec Parse⟩ st = ((rs, total, none), st1) ∧
          rs.length = users.length ∧
          List.Forall₂ SameOnWire (users.map convertModelUser) rs) := by
  have hall := client_decodes_envelope h (goCodec Parse) server st st1 arg id u users total
  refine ⟨?_, ?_⟩
  · intro hage hcr hup
    obtain ⟨c, m, hj⟩ := marshalUser_fits Parse (convertModelUser u) hcr hup
    have hrc := goCodec_readsBack Parse u.CreatedAt hcr.2.2.1
    have hru := goCodec_readsBack Parse u.UpdatedAt hup.2.2.1
    refine ⟨⟨c, m, by simp only [dataBody, marshalPayload, hj]⟩, ?_, ?_⟩
    · intro hreq hdo
      exact hall.1 _ hage hrc hru hj hreq hdo
    · intro hreq hdo
      exact hall.2.1 _ hage hrc hru hj hreq hdo
  · intro htotal hus hreq hdo
    obtain ⟨js, hjs⟩ := marshalUsers_fits Parse (users.map convertModelUser) (by
      intro a ha
      obtain ⟨x, hx, rfl⟩ := List.mem_map.mp ha
      exact ⟨(hus x hx).2.1, (hus x hx).2.2⟩)
    exact hall.2.2 js htotal (fun x hx => (hus x hx).1)
      (fun x hx => ⟨goCodec_readsBack Parse _ (hus x hx).2.1.2.2.1,
        goCodec_readsBack Parse _ (hus x hx).2.2.2.2.1⟩) hjs hreq hdo

theorem sampleTime_fitsRFC3339 : sampleTime.FitsRFC3339 :=
  ⟨by decide, by decide, by decide, by decide, by decide⟩

theorem client_decoding_undoes_encoding_of_rfc3339_times_witness :
    (∃ r : Client.User,
      Client.client.UserGet
          ⟨answering 200
              (dataBody (goCodec strictOnly) (Payload.user (convertModelUser sampleUser))),
            sampleServer, goCodec strictOnly⟩ sampleUser.ID ()
        = ((some r, none), ()) ∧ SameOnWire (convertModelUser sampleUser) r) ∧
    (∃ rs : List Client.User,
      Client.client.UserList
          ⟨answering 200
              (dataBody (goCodec strictOnly)
                (Payload.list 1 ([sampleUser].map convertModelUser))),
            sampleServer, goCodec strictOnly⟩ ()
        = ((rs, 1, none), ()) ∧ rs.length = [sampleUser].length ∧
        List.Forall₂ SameOnWire ([sampleUser].map convertModelUser) rs) :=
  ⟨((client_decoding_undoes_encoding_of_rfc3339_times
      (answering 200
        (dataBody (goCodec strictOnly) (Payload.user (convertModelUser sampleUser))))
      strictOnly sampleServer () () (newUser "liuliu" "aa@bb.com") sampleUser.ID sampleUser
      [sampleUser] 1).1 (by decide) sampleTime_fitsRFC3339 sampleTime_fitsRFC3339).2.2 rfl rfl,
   (client_decoding_undoes_encoding_of_rfc3339_times
      (answering 200
        (dataBody (goCodec strictOnly) (Payload.list 1 ([sampleUser].map convertModelUser))))
      strictOnly sampleServer () () (newUser "liuliu" "aa@bb.com") sampleUser.ID sampleUser
      [sampleUser] 1).2 (by decide)
      (by
        intro x hx
        simp only [List.mem_singleton] at hx
        subst hx
        exact ⟨by decide, sampleTime_fitsRFC3339, sampleTime_fitsRFC3339⟩) rfl rfl⟩

/-! ## Client: failures, requests, parameters, error messages -/

/-- C7 (the code at a failing input): when the exchange fails with `connection refused`,
and when the request cannot be built, `UserUpdate` returns a nil error, whereas
`UserDelete` on the same networks returns the error. -/
theorem update_reports_transport_failure_as_success :
    Client.client.UserUpdate ⟨refusing "connection refused", sampleServer, sampleCodec⟩
        { newUser "liuliu2" "" with ID := "7" } () = (none, ()) ∧
    Client.client.UserUpdate ⟨unbuildable "invalid URL", sampleServer, sampleCodec⟩
        { newUser "liuliu2" "" with ID := "7" } () = (none, ()) ∧
    Client.client.UserDelete ⟨refusing "connection refused", sampleServer, sampleCodec⟩
        "7" () = (some (Client.Error.text "connection refused"), ()) ∧
    Client.client.UserDelete ⟨unbuildable "invalid URL", sampleServer, sampleCodec⟩
        "7" () = (some (Client.Error.text "invalid URL"), ()) := by
  refine ⟨rfl, rfl, rfl, rfl⟩

/-- C8 (the code at a failing input): the one request `UserGet` hands to the exchange is
`GET <server>/user/create`, not `GET <server>/user/get`, and the one request `UserCreate`
hands to it is `GET <server>/user/create`, not a `POST`; `UserUpdate`, `UserDelete` and
`UserList` send `POST <server>/user/update`, `POST <server>/user/delete` and
`GET <server>/user/list`. -/
theorem get_and_create_requests_miss_the_contract :
    (Client.client.UserGet
        ⟨Client.HTTP.recording (answering 200 Body.empty), sampleServer, sampleCodec⟩
        "7" ((), [])).2.2
      = [{ Method := "GET", URL := "http://127.0.0.1:8888/user/create",
           Form := [("id", "7")] }] ∧
    (Client.client.UserCreate
        ⟨Client.HTTP.recording (answering 200 Body.empty), sampleServer, sampleCodec⟩
        (newUser "liuliu" "aa@bb.com") ((), [])).2.2
      = [{ Method := "GET", URL := "http://127.0.0.1:8888/user/create",
           Form := [("name", "liuliu"), ("email", "aa@bb.com")] }] ∧
    (Client.client.UserUpdate
        ⟨Client.HTTP.recording (answering 200 Body.empty), sampleServer, sampleCodec⟩
        { newUser "liuliu2" "" with ID := "7" } ((), [])).2.2
      = [{ Method := "POST", URL := "http://127.0.0.1:8888/user/update",
           Form := [("name", "liuliu2"), ("id", "7")] }] ∧
    (Client.client.UserDelete
        ⟨Client.HTTP.recording (answering 200 Body.empty), sampleServer, sampleCodec⟩
        "7" ((), [])).2.2
      = [{ Method := "POST", URL := "http://127.0.0.1:8888/user/delete",
           Form := [("id", "7")] }] ∧
    (Client.client.UserList
        ⟨Client.HTTP.recording (answering 200 Body.empty), sampleServer, sampleCodec⟩
        ((), [])).2.2
      = [{ Method := "GET", URL := "http://127.0.0.1:8888/user/list", Form := [] }] := by
  refine ⟨by decide, by decide, by decide, by decide, by decide⟩

theorem createUser_without_name {σ : Type} (s : Service σ) (newID : UUID) (r : Request)
    (st : σ) (h : r.FormValue "name" = "") :
    Service.createUser s newID NewRecorder r st
      = (errorResponse 400 "param name not set", st) := by
  simp [Service.createUser, h, Service.error, errorBody, errorResponse, NewRecorder,
    ResponseWriter.WriteHeader, ResponseWriter.Write, Body.append, StatusBadRequest]

theorem rawQuery_sample_create :
    rawQuery "http://127.0.0.1:8888/user/create" = "" := by decide

theorem rawQuery_sample_update :
    rawQuery "http://127.0.0.1:8888/user/update" = "" := by decide

theorem parseQuery_empty (unescape : String → Option String) :
    parseQuery unescape "" = [] := by
  simp [parseQuery, splitOn]

/-- C9 (the code at a failing input): the request `UserCreate` hands to the exchange for name
`liuliu` and email `aa@bb.com` holds them in its field `Form` only; on the wire it is
`GET http://127.0.0.1:8888/user/create` with no query and no body, so the server reads
empty `name` and `email` and `createUser` answers 400 `param name not set` without
calling the repository. The same holds of `id` and `name` for `UserUpdate`. -/
theorem client_parameters_do_not_reach_the_server (unescape : String → Option String) :
    (Client.client.UserCreate
        ⟨Client.HTTP.recording (answering 200 Body.empty), sampleServer, sampleCodec⟩
        (newUser "liuliu" "aa@bb.com") ((), [])).2.2
      = [createRequest sampleServer (newUser "liuliu" "aa@bb.com")] ∧
    (createRequest sampleServer (newUser "liuliu" "aa@bb.com")).onWire
      = { Method := "GET", URL := "http://127.0.0.1:8888/user/create", Body := none } ∧
    (Api.Request.ofWire unescape
        (createRequest sampleServer (newUser "liuliu" "aa@bb.com")).onWire).FormValue "name"
      = "" ∧
    (Api.Request.ofWire unescape
        (createRequest sampleServer (newUser "liuliu" "aa@bb.com")).onWire).FormValue "email"
      = "" ∧
    Service.createUser ⟨recording (mockRepo okAnswers), sampleCodec⟩ zeroUUID NewRecorder
        (Api.Request.ofWire unescape
          (createRequest sampleServer (newUser "liuliu" "aa@bb.com")).onWire) ((), [])
      = (errorResponse 400 "param name not set", ((), [])) ∧
    (updateRequest sampleServer { newUser "liuliu2" "" with ID := "7" }).onWire
      = { Method := "POST", URL := "http://127.0.0.1:8888/user/update", Body := none } ∧
    (Api.Request.ofWire unescape
        (updateRequest sampleServer { newUser "liuliu2" "" with ID := "7" }).onWire).FormValue
        "id" = "" := by
  have hc : (createRequest sampleServer (newUser "liuliu" "aa@bb.com")).onWire
      = { Method := "GET", URL := "http://127.0.0.1:8888/user/create", Body := none } := by
    decide
  have hu : (updateRequest sampleServer { newUser "liuliu2" "" with ID := "7" }).onWire
      = { Method := "POST", URL := "http://127.0.0.1:8888/user/update", Body := none } := by
    decide
  have hform : (Api.Request.ofWire unescape
      (createRequest sampleServer (newUser "liuliu" "aa@bb.com")).onWire).Form = [] := by
    rw [hc]
    simp only [Api.Request.ofWire, rawQuery_sample_create, parseQuery_empty]
  have hform2 : (Api.Request.ofWire unescape
      (updateRequest sampleServer { newUser "liuliu2" "" with ID := "7" }).onWire).Form
      = [] := by
    rw [hu]
    simp only [Api.Request.ofWire, rawQuery_sample_update, parseQuery_empty]
  have hname : (Api.Request.ofWire unescape
      (createRequest sampleServer (newUser "liuliu" "aa@bb.com")).onWire).FormValue "name"
      = "" := by
    simp only [Request.FormValue, hform, Values.Get]
  refine ⟨by decide, hc, hname, ?_, ?_, hu, ?_⟩
  · simp only [Request.FormValue, hform, Values.Get]
  · exact createUser_without_name _ _ _ _ hname
  · simp only [Request.FormValue, hform2, Values.Get]

/-- C10 (the code at a failing input): on status 500 with an empty body `UserGet` fails with
the message `create user failed: 500`, which names another operation than the one called;
with the envelope `error` = `user not found` it fails with exactly that message, and the
other four calls name themselves. -/
theorem get_generic_failure_names_create :
    Client.client.UserGet ⟨answering 500 Body.empty, sampleServer, sampleCodec⟩ "7" ()
      = ((none, some (Client.Error.text "create user failed: 500")), ()) ∧
    "create user failed: 500" ≠ "get user failed: 500" ∧
    Client.client.UserGet
        ⟨answering 500 (errorBody "user not found"), sampleServer, sampleCodec⟩ "7" ()
      = ((none, some (Client.Error.text "user not found")), ()) ∧
    Client.client.UserCreate ⟨answering 500 Body.empty, sampleServer, sampleCodec⟩
        (newUser "liuliu" "aa@bb.com") ()
      = ((none, some (Client.Error.text "create user failed: 500")), ()) ∧
    Client.client.UserUpdate ⟨answering 500 Body.empty, sampleServer, sampleCodec⟩
        { newUser "liuliu2" "" with ID := "7" } ()
      = (some (Client.Error.text "update user failed: 500"), ()) ∧
    Client.client.UserDelete ⟨answering 500 Body.empty, sampleServer, sampleCodec⟩ "7" ()
      = (some (Client.Error.text "delete user failed: 500"), ()) ∧
    Client.client.UserList ⟨answering 500 Body.empty, sampleServer, sampleCodec⟩ ()
      = (([], 0, some (Client.Error.text "list user failed: 500")), ()) := by
  refine ⟨by decide, by decide, by decide, by decide, by decide, by decide, by decide⟩

/-! ## Service: get, list, update, response bodies -/

theorem dataBody_user (tc : TimeCodec) (a : Api.User) (c m : String)
    (hc : tc.format a.CreatedAt = some c) (hm : tc.format a.UpdatedAt = some m) :
    dataBody tc (Payload.user a) = Body.json (JValue.obj [("data", userDoc a c m)]) := by
  simp [dataBody, marshalPayload, marshalUser, hc, hm, userDoc]

theorem marshalUsers_length (tc : TimeCodec) (as : List Api.User) (js : List JValue)
    (h : marshalUsers tc as = some js) : js.length = as.length := by
  induction as generalizing js with
  | nil =>
    simp only [marshalUsers, Option.some.injEq] at h
    subst h
    rfl
  | cons a rest ih =>
    unfold marshalUsers at h
    cases h1 : marshalUser tc a with
    | none => simp [h1] at h
    | some j1 =>
      cases h2 : marshalUsers tc rest with
      | none => simp [h1, h2] at h
      | some js1 =>
        simp only [h1, h2, Option.some.injEq] at h
        subst h
        simp [ih js1 h2]

theorem marshalUsers_get (tc : TimeCodec) (as : List Api.User) (js : List JValue)
    (h : marshalUsers tc as = some js) (i : Nat) (a : Api.User) (ha : as.get? i = some a) :
    js.get? i = marshalUser tc a := by
  induction as generalizing js i with
  | nil => simp at ha
  | cons b rest ih =>
    unfold marshalUsers at h
    cases h1 : marshalUser tc b with
    | none => simp [h1] at h
    | some j1 =>
      cases h2 : marshalUsers tc rest with
      | none => simp [h1, h2] at h
      | some js1 =>
        simp only [h1, h2, Option.some.injEq] at h
        subst h
        cases i with
        | zero =>
          simp only [List.get?_cons_zero, Option.some.injEq] at ha
          subst ha
          simp [h1]
        | succ n =>
          simp only [List.get?_cons_succ] at ha
          simpa using ih js1 h2 n ha

theorem dataBody_list (tc : TimeCodec) (total : Int) (as : List Api.User) (js : List JValue)
    (h : marshalUsers tc as = some js) :
    dataBody tc (Payload.list total as)
      = Body.json (JValue.obj [("data",
          JValue.obj [("total", JValue.num total), ("users", JValue.arr js)])]) := by
  simp [dataBody, marshalPayload, h]

theorem write_dataBody_fresh {σ : Type} (s : Service σ) (body : Payload) :
    s.data NewRecorder body = ⟨200, true, dataBody s.tc body⟩ := by
  simp only [Service.data, NewRecorder, ResponseWriter.Write, ResponseWriter.WriteHeader,
    StatusOK]
  cases dataBody s.tc body <;> simp [Body.append]

/-- C17: a get request with a non-empty id makes exactly one repository call, `GetByID(id)`,
also when an email is supplied; with an empty id and a non-empty email it makes exactly
one, `GetByEmail(email)`; and when the lookup succeeds with record `u` the answer is
status 200 with the envelope whose `data` is the conversion of `u` (spelled out when both
timestamps can be written). -/
theorem get_by_id_else_by_email {σ : Type} (repo : UserRepository σ) (tc : TimeCodec)
    (r : Request) (st : σ) (log : List Call) :
    (r.FormValue "id" ≠ "" →
      (Service.getUser ⟨recording repo, tc⟩ NewRecorder r (st, log)).2
        = ((repo.GetByID (r.FormValue "id") st).2,
            log ++ [Call.getByID (r.FormValue "id")])) ∧
    (r.FormValue "id" = "" → r.FormValue "email" ≠ "" →
      (Service.getUser ⟨recording repo, tc⟩ NewRecorder r (st, log)).2
        = ((repo.GetByEmail (r.FormValue "email") st).2,
            log ++ [Call.getByEmail (r.FormValue "email")])) ∧
    (∀ u : Store.User, r.FormValue "id" ≠ "" →
      (repo.GetByID (r.FormValue "id") st).1 = Except.ok u →
      (Service.getUser ⟨recording repo, tc⟩ NewRecorder r (st, log)).1
        = ⟨200, true, dataBody tc (Payload.user (convertModelUser u))⟩) ∧
    (∀ u : Store.User, r.FormValue "id" = "" → r.FormValue "email" ≠ "" →
      (repo.GetByEmail (r.FormValue "email") st).1 = Except.ok u →
      (Service.getUser ⟨recording repo, tc⟩ NewRecorder r (st, log)).1
        = ⟨200, true, dataBody tc (Payload.user (convertModelUser u))⟩) ∧
    (∀ (u : Store.User) (c m : String),
      tc.format u.CreatedAt = some c → tc.format u.UpdatedAt = some m →
      dataBody tc (Payload.user (convertModelUser u))
        = Body.json (JValue.obj [("data", userDoc (convertModelUser u) c m)])) := by
  refine ⟨?_, ?_, ?_, ?_, ?_⟩
  · intro h
    simp only [Service.getUser, recording, h, false_and, if_false, ne_eq, not_false_eq_true,
      if_true]
    split <;> rename_i heq <;> simp only [Prod.mk.injEq] at heq <;> rw [← heq.2]
  · intro h1 h2
    simp only [Service.getUser, recording, h1, h2, and_false, if_false, ne_eq,
      not_true_eq_false]
    split <;> rename_i heq <;> simp only [Prod.mk.injEq] at heq <;> rw [← heq.2]
  · intro u h hu
    simp only [Service.getUser, recording, h, false_and, if_false, ne_eq, not_false_eq_true,
      if_true, hu, write_dataBody_fresh]
  · intro u h1 h2 hu
    simp only [Service.getUser, recording, h1, h2, and_false, if_false, ne_eq,
      not_true_eq_false, hu, write_dataBody_fresh]
  · intro u c m hc hm
    exact dataBody_user tc (convertModelUser u) c m hc hm

theorem get_by_id_else_by_email_witness :
    (Service.getUser ⟨recording (mockRepo okAnswers), sampleCodec⟩ NewRecorder
        (formRequest "GET" "/user/get" [("id", "7"), ("email", "aa@bb.com")]) ((), [])).2
      = ((), [Call.getByID "7"]) ∧
    (Service.getUser ⟨recording (mockRepo okAnswers), sampleCodec⟩ NewRecorder
        (formRequest "GET" "/user/get" [("email", "aa@bb.com")]) ((), [])).2
      = ((), [Call.getByEmail "aa@bb.com"]) ∧
    (Service.getUser ⟨recording (mockRepo okAnswers), sampleCodec⟩ NewRecorder
        (formRequest "GET" "/user/get" [("id", "7"), ("email", "aa@bb.com")]) ((), [])).1
      = ⟨200, true, dataBody sampleCodec (Payload.user (convertModelUser sampleUser))⟩ ∧
    (Service.getUser ⟨recording (mockRepo okAnswers), sampleCodec⟩ NewRecorder
        (formRequest "GET" "/user/get" [("email", "aa@bb.com")]) ((), [])).1
      = ⟨200, true, dataBody sampleCodec (Payload.user (convertModelUser sampleUser))⟩ ∧
    dataBody sampleCodec (Payload.user (convertModelUser sampleUser))
      = Body.json (JValue.obj [("data",
          userDoc (convertModelUser sampleUser) sampleTimeText sampleTimeText)]) :=
  ⟨(get_by_id_else_by_email (mockRepo okAnswers) sampleCodec
      (formRequest "GET" "/user/get" [("id", "7"), ("email", "aa@bb.com")]) () []).1
      (by decide),
   (get_by_id_else_by_email (mockRepo okAnswers) sampleCodec
      (formRequest "GET" "/user/get" [("email", "aa@bb.com")]) () []).2.1
      (by decide) (by decide),
   (get_by_id_else_by_email (mockRepo okAnswers) sampleCodec
      (formRequest "GET" "/user/get" [("id", "7"), ("email", "aa@bb.com")]) () []).2.2.1
      sampleUser (by decide) rfl,
   (get_by_id_else_by_email (mockRepo okAnswers) sampleCodec
      (formRequest "GET" "/user/get" [("email", "aa@bb.com")]) () []).2.2.2.1
      sampleUser (by decide) (by decide) rfl,
   (get_by_id_else_by_email (mockRepo okAnswers) sampleCodec
      (formRequest "GET" "/user/get" []) () []).2.2.2.2
      sampleUser sampleTimeText sampleTimeText (by decide) (by decide)⟩

/-- C18: a list request, whatever its parameters, makes exactly one repository call,
`List(1, 100)`; when that succeeds with `users` and `total` the answer is status 200 with
the envelope whose `data` holds `total` as it came, also when it exceeds the number of
users, and the conversions of `users` in the same order (spelled out, with as many
elements as `users`, when all timestamps can be written). -/
theorem list_asks_first_hundred {σ : Type} (repo : UserRepository σ) (tc : TimeCodec)
    (r : Request) (st : σ) (log : List Call) :
    (Service.listUser ⟨recording repo, tc⟩ NewRecorder r (st, log)).2
        = ((repo.List 1 100 st).2, log ++ [Call.list 1 100]) ∧
    (∀ (users : List Store.User) (total : Int),
      (repo.List 1 100 st).1 = Except.ok (users, total) →
      (Service.listUser ⟨recording repo, tc⟩ NewRecorder r (st, log)).1
        = ⟨200, true, dataBody tc (Payload.list total (users.map convertModelUser))⟩) ∧
    (∀ (users : List Store.User) (total : Int) (js : List JValue),
      marshalUsers tc (users.map convertModelUser) = some js →
      dataBody tc (Payload.list total (users.map convertModelUser))
          = Body.json (JValue.obj [("data",
              JValue.obj [("total", JValue.num total), ("users", JValue.arr js)])]) ∧
        js.length = users.length ∧
        ∀ (i : Nat) (u : Store.User), users.get? i = some u →
          js.get? i = marshalUser tc (convertModelUser u)) := by
  refine ⟨?_, ?_, ?_⟩
  · simp only [Service.listUser, recording]
    split <;> rename_i heq <;> simp only [Prod.mk.injEq] at heq <;> rw [← heq.2]
  · intro users total h
    simp only [Service.listUser, recording, h, write_dataBody_fresh]
  · intro users total js h
    refine ⟨dataBody_list tc total _ js h, ?_, ?_⟩
    · simpa using marshalUsers_length tc _ js h
    · intro i u hu
      exact marshalUsers_get tc _ js h i (convertModelUser u)
        (by simp only [List.get?_eq_getElem?] at hu ⊢; simp [hu])

theorem list_asks_first_hundred_witness :
    (Service.listUser
        ⟨recording (mockRepo { okAnswers with list := Except.ok ([sampleUser], 5) }),
          sampleCodec⟩ NewRecorder
        (formRequest "GET" "/user/list" [("page", "3"), ("pageSize", "10")]) ((), [])).1
      = ⟨200, true, dataBody sampleCodec
          (Payload.list 5 ([sampleUser].map convertModelUser))⟩ ∧
    dataBody sampleCodec (Payload.list 5 ([sampleUser].map convertModelUser))
      = Body.json (JValue.obj [("data", JValue.obj [("total", JValue.num 5),
          ("users", JValue.arr
            [userDoc (convertModelUser sampleUser) sampleTimeText sampleTimeText])])]) :=
  ⟨(list_asks_first_hundred
      (mockRepo { okAnswers with list := Except.ok ([sampleUser], 5) }) sampleCodec
      (formRequest "GET" "/user/list" [("page", "3"), ("pageSize", "10")]) () []).2.1
      [sampleUser] 5 rfl,
   ((list_asks_first_hundred
      (mockRepo { okAnswers with list := Except.ok ([sampleUser], 5) }) sampleCodec
      (formRequest "GET" "/user/list" [("page", "3"), ("pageSize", "10")]) () []).2.2
      [sampleUser] 5
      [userDoc (convertModelUser sampleUser) sampleTimeText sampleTimeText] rfl).1⟩

/-- C13: an update request with non-empty id and name, for which `GetByID(id)` returns the
record `u` and `Update` succeeds and leaves the record it is given as it is, calls `Update`
with `u` whose `Name` is replaced by the submitted name and answers status 200 with the
envelope whose `data` is the conversion of that same record: id, email, age, createdAt
and updatedAt are those of `u`. -/
theorem update_replaces_name_only {σ : Type} (repo : UserRepository σ) (tc : TimeCodec)
    (r : Request) (st : σ) (log : List Call) (u : Store.User)
    (hid : r.FormValue "id" ≠ "") (hname : r.FormValue "name" ≠ "")
    (hget : (repo.GetByID (r.FormValue "id") st).1 = Except.ok u)
    (hupd : (repo.Update { u with Name := r.FormValue "name" }
      (repo.GetByID (r.FormValue "id") st).2).1 = none)
    (hkeep : (repo.Update { u with Name := r.FormValue "name" }
      (repo.GetByID (r.FormValue "id") st).2).2.1 = { u with Name := r.FormValue "name" }) :
    (Service.updateUser ⟨recording repo, tc⟩ NewRecorder r (st, log)).2.2
      = log ++ [Call.getByID (r.FormValue "id"),
                Call.update { u with Name := r.FormValue "name" }] ∧
    (Service.updateUser ⟨recording repo, tc⟩ NewRecorder r (st, log)).1
      = ⟨200, true, dataBody tc (Payload.user
          (convertModelUser { u with Name := r.FormValue "name" }))⟩ ∧
    ({ u with Name := r.FormValue "name" } : Store.User)
      = { ID := u.ID, Name := r.FormValue "name", Email := u.Email, Password := u.Password,
          Age := u.Age, CreatedAt := u.CreatedAt, UpdatedAt := u.UpdatedAt,
          DeletedAt := u.DeletedAt } ∧
    convertModelUser { u with Name := r.FormValue "name" }
      = { ID := u.ID, Name := r.FormValue "name", Email := u.Email, Age := u.Age,
          CreatedAt := u.CreatedAt, UpdatedAt := u.UpdatedAt } ∧
    (∀ c m : String, tc.format u.CreatedAt = some c → tc.format u.UpdatedAt = some m →
      (Service.updateUser ⟨recording repo, tc⟩ NewRecorder r (st, log)).1
        = ⟨200, true, Body.json (JValue.obj [("data",
            JValue.obj [("id", JValue.str u.ID), ("name", JValue.str (r.FormValue "name")),
              ("email", JValue.str u.Email), ("age", JValue.num u.Age),
              ("createdAt", JValue.str c), ("updatedAt", JValue.str m)])])⟩) := by
  have hresp : (Service.updateUser ⟨recording repo, tc⟩ NewRecorder r (st, log)).1
      = ⟨200, true, dataBody tc (Payload.user
          (convertModelUser { u with Name := r.FormValue "name" }))⟩ := by
    simp only [Service.updateUser, recording, hid, hname, if_false, hget, hupd, hkeep,
      write_dataBody_fresh]
  refine ⟨?_, hresp, rfl, rfl, ?_⟩
  · simp only [Service.updateUser, recording, hid, hname, if_false, hget, hupd, hkeep]
    simp
  · intro c m hc hm
    rw [hresp, dataBody_user tc _ c m hc hm]
    simp [userDoc, convertModelUser]

theorem update_replaces_name_only_witness :
    (Service.updateUser ⟨recording (mockRepo okAnswers), sampleCodec⟩ NewRecorder
        (formRequest "POST" "/user/update"
          [("id", "0198271f-bc9d-74ac-a63b-41cf2c6c2f82"), ("name", "liuliu2")]) ((), [])).1
      = ⟨200, true, Body.json (JValue.obj [("data",
          JValue.obj [("id", JValue.str "0198271f-bc9d-74ac-a63b-41cf2c6c2f82"),
            ("name", JValue.str "liuliu2"), ("email", JValue.str "aa@bb.com"),
            ("age", JValue.num 0), ("createdAt", JValue.str sampleTimeText),
            ("updatedAt", JValue.str sampleTimeText)])])⟩ :=
  (update_replaces_name_only (mockRepo okAnswers) sampleCodec
    (formRequest "POST" "/user/update"
      [("id", "0198271f-bc9d-74ac-a63b-41cf2c6c2f82"), ("name", "liuliu2")]) () []
    sampleUser (by decide) (by decide) rfl rfl rfl).2.2.2.2
    sampleTimeText sampleTimeText (by decide) (by decide)

theorem write_error_fresh {σ : Type} (s : Service σ) (code : Nat) (err : String) :
    s.error (NewRecorder.WriteHeader code) err = errorResponse code err := by
  simp [Service.error, errorBody, errorResponse, NewRecorder, ResponseWriter.WriteHeader,
    ResponseWriter.Write, Body.append]

theorem errorResponse_isErrorEnvelope (code : Nat) (err : String)
    (h : code = 400 ∨ code = 500) : IsErrorEnvelope (errorResponse code err) :=
  ⟨err, h, rfl⟩

/-- C12 (as stated, refuted): a delete request whose `DeleteByID` succeeds is answered with
status 200 and no body at all, which is not a JSON object. -/
theorem delete_success_body_is_empty :
    Service.deleteUser ⟨recording (mockRepo okAnswers), sampleCodec⟩ NewRecorder
        (formRequest "POST" "/user/delete" [("id", "0198271f-bc9d-74ac-a63b-41cf2c6c2f82")])
        ((), [])
      = (⟨200, false, Body.empty⟩,
          ((), [Call.deleteByID "0198271f-bc9d-74ac-a63b-41cf2c6c2f82"])) ∧
    ¬ ∃ doc : JValue, (Body.empty : Body) = Body.json doc := by
  refine ⟨rfl, ?_⟩
  rintro ⟨doc, h⟩
  cases h

/-- C12 (amended): for create, get, update and list, when the operation succeeds the response
is status 200 with the bytes written for the envelope whose `data` is the record (or the
total and the records) the repository returned, which are the JSON object
`{"data": ...}` whenever that payload can be marshalled, and when the operation does not
succeed (a required parameter is missing or a repository call fails) the response is status
400 or 500 with the JSON object `{"error": message}`; for delete, success is answered with
status 200 and an empty body and failure with that error object. -/
theorem envelope_follows_outcome {σ : Type} (s : Service σ) (newID : UUID) (r : Request)
    (st : σ) :
    (∀ rec : Store.User, CreateSucceeds s.userRepo newID r st rec →
      (s.createUser newID NewRecorder r st).1
        = ⟨200, true, dataBody s.tc (Payload.user (convertModelUser rec))⟩) ∧
    ((¬ ∃ rec : Store.User, CreateSucceeds s.userRepo newID r st rec) →
      IsErrorEnvelope (s.createUser newID NewRecorder r st).1) ∧
    (∀ rec : Store.User, GetSucceeds s.userRepo r st rec →
      (s.getUser NewRecorder r st).1
        = ⟨200, true, dataBody s.tc (Payload.user (convertModelUser rec))⟩) ∧
    ((¬ ∃ rec : Store.User, GetSucceeds s.userRepo r st rec) →
      IsErrorEnvelope (s.getUser NewRecorder r st).1) ∧
    (∀ rec : Store.User, UpdateSucceeds s.userRepo r st rec →
      (s.updateUser NewRecorder r st).1
        = ⟨200, true, dataBody s.tc (Payload.user (convertModelUser rec))⟩) ∧
    ((¬ ∃ rec : Store.User, UpdateSucceeds s.userRepo r st rec) →
      IsErrorEnvelope (s.updateUser NewRecorder r st).1) ∧
    (∀ (users : List Store.User) (total : Int), ListSucceeds s.userRepo st users total →
      (s.listUser NewRecorder r st).1
        = ⟨200, true, dataBody s.tc (Payload.list total (users.map convertModelUser))⟩) ∧
    ((¬ ∃ (users : List Store.User) (total : Int), ListSucceeds s.userRepo st users total) →
      IsErrorEnvelope (s.listUser NewRecorder r st).1) ∧
    (DeleteSucceeds s.userRepo r st →
      (s.deleteUser NewRecorder r st).1 = ⟨200, false, Body.empty⟩) ∧
    (¬ DeleteSucceeds s.userRepo r st → IsErrorEnvelope (s.deleteUser NewRecorder r st).1) ∧
    (∀ (p : Payload) (j : JValue), marshalPayload s.tc p = some j →
      dataBody s.tc p = Body.json (JValue.obj [("data", j)])) := by
  refine ⟨?_, ?_, ?_, ?_, ?_, ?_, ?_, ?_, ?_, ?_, ?_⟩
  · rintro rec ⟨hn, he, hc, hg⟩
    simp only [createArg] at hc hg
    simp only [Service.createUser, hn, he, if_false]
    generalize s.userRepo.Create _ st = res at hc hg ⊢
    obtain ⟨oe, st1⟩ := res
    simp only at hc hg
    subst hc
    simp only
    generalize s.userRepo.GetByEmail _ st1 = res2 at hg ⊢
    obtain ⟨x, st2⟩ := res2
    simp only at hg
    subst hg
    simp only [write_dataBody_fresh]
  · intro hno
    by_cases hn : r.FormValue "name" = ""
    · simp only [Service.createUser, hn, if_true, write_error_fresh]
      exact errorResponse_isErrorEnvelope _ _ (Or.inl rfl)
    · by_cases he : r.FormValue "email" = ""
      · simp only [Service.createUser, hn, he, if_true, if_false, write_error_fresh]
        exact errorResponse_isErrorEnvelope _ _ (Or.inl rfl)
      · have hno2 : ¬ ∃ rec : Store.User,
            (s.userRepo.Create (createArg newID (r.FormValue "name") (r.FormValue "email"))
              st).1 = none ∧
            (s.userRepo.GetByEmail (r.FormValue "email")
              (s.userRepo.Create (createArg newID (r.FormValue "name") (r.FormValue "email"))
                st).2).1 = Except.ok rec :=
          fun ⟨rec, h1, h2⟩ => hno ⟨rec, hn, he, h1, h2⟩
        simp only [createArg] at hno2
        simp only [Service.createUser, hn, he, if_false, write_error_fresh]
        generalize s.userRepo.Create _ st = res at hno2 ⊢
        obtain ⟨oe, st1⟩ := res
        cases oe with
        | some err => exact errorResponse_isErrorEnvelope _ _ (Or.inr rfl)
        | none =>
          dsimp only at hno2 ⊢
          generalize s.userRepo.GetByEmail _ st1 = res2 at hno2 ⊢
          obtain ⟨x, st2⟩ := res2
          cases x with
          | error err => exact errorResponse_isErrorEnvelope _ _ (Or.inr rfl)
          | ok user => exact absurd ⟨user, rfl, rfl⟩ hno2
  · rintro rec (⟨hid, hg⟩ | ⟨hid, he, hg⟩)
    · simp only [Service.getUser, hid, false_and, if_false, ne_eq, not_false_eq_true, if_true]
      generalize s.userRepo.GetByID _ st = res at hg ⊢
      obtain ⟨x, st1⟩ := res
      simp only at hg
      subst hg
      simp only [write_dataBody_fresh]
    · simp only [Service.getUser, hid, he, and_false, if_false, ne_eq, not_true_eq_false]
      generalize s.userRepo.GetByEmail _ st = res at hg ⊢
      obtain ⟨x, st1⟩ := res
      simp only at hg
      subst hg
      simp only [write_dataBody_fresh]
  · intro hno
    by_cases hid : r.FormValue "id" = ""
    · by_cases he : r.FormValue "email" = ""
      · simp only [Service.getUser, hid, he, and_self, if_true, write_error_fresh]
        exact errorResponse_isErrorEnvelope _ _ (Or.inl rfl)
      · have hno2 : ¬ ∃ rec : Store.User,
            (s.userRepo.GetByEmail (r.FormValue "email") st).1 = Except.ok rec :=
          fun ⟨rec, h1⟩ => hno ⟨rec, Or.inr ⟨hid, he, h1⟩⟩
        simp only [Service.getUser, hid, he, and_false, if_false, ne_eq, not_true_eq_false,
          write_error_fresh]
        generalize s.userRepo.GetByEmail _ st = res at hno2 ⊢
        obtain ⟨x, st1⟩ := res
        cases x with
        | error err => exact errorResponse_isErrorEnvelope _ _ (Or.inr rfl)
        | ok user => exact absurd ⟨user, rfl⟩ hno2
    · have hno2 : ¬ ∃ rec : Store.User,
          (s.userRepo.GetByID (r.FormValue "id") st).1 = Except.ok rec :=
        fun ⟨rec, h1⟩ => hno ⟨rec, Or.inl ⟨hid, h1⟩⟩
      simp only [Service.getUser, hid, false_and, if_false, ne_eq, not_false_eq_true, if_true,
        write_error_fresh]
      generalize s.userRepo.GetByID _ st = res at hno2 ⊢
      obtain ⟨x, st1⟩ := res
      cases x with
      | error err => exact errorResponse_isErrorEnvelope _ _ (Or.inr rfl)
      | ok user => exact absurd ⟨user, rfl⟩ hno2
  · rintro rec ⟨hid, hn, u, hg, hu, hrec⟩
    simp only [Service.updateUser, hid, hn, if_false]
    generalize s.userRepo.GetByID _ st = res at hg hu hrec ⊢
    obtain ⟨x, st1⟩ := res
    simp only at hg hu hrec
    subst hg
    simp only
    generalize s.userRepo.Update _ st1 = res2 at hu hrec ⊢
    obtain ⟨oe, u1, st2⟩ := res2
    simp only at hu hrec
    subst hu
    subst hrec
    simp only [write_dataBody_fresh]
  · intro hno
    by_cases hid : r.FormValue "id" = ""
    · simp only [Service.updateUser, hid, if_true, write_error_fresh]
      exact errorResponse_isErrorEnvelope _ _ (Or.inl rfl)
    · by_cases hn : r.FormValue "name" = ""
      · simp only [Service.updateUser, hid, hn, if_true, if_false, write_error_fresh]
        exact errorResponse_isErrorEnvelope _ _ (Or.inl rfl)
      · have hno2 : ¬ ∃ u : Store.User,
            (s.userRepo.GetByID (r.FormValue "id") st).1 = Except.ok u ∧
            (s.userRepo.Update { u with Name := r.FormValue "name" }
              (s.userRepo.GetByID (r.FormValue "id") st).2).1 = none :=
          fun ⟨u, h1, h2⟩ => hno ⟨_, hid, hn, u, h1, h2, rfl⟩
        simp only [Service.updateUser, hid, hn, if_false, write_error_fresh]
        generalize s.userRepo.GetByID _ st = res at hno2 ⊢
        obtain ⟨x, st1⟩ := res
        cases x with
        | error err => exact errorResponse_isErrorEnvelope _ _ (Or.inr rfl)
        | ok user =>
          dsimp only at hno2 ⊢
          have hno3 : ¬ (s.userRepo.Update { user with Name := r.FormValue "name" } st1).1
              = none := fun h => hno2 ⟨user, rfl, h⟩
          generalize s.userRepo.Update _ st1 = res2 at hno3 ⊢
          obtain ⟨oe, u1, st2⟩ := res2
          cases oe with
          | some err => exact errorResponse_isErrorEnvelope _ _ (Or.inr rfl)
          | none => exact absurd rfl hno3
  · intro users total h
    simp only [ListSucceeds] at h
    simp only [Service.listUser]
    generalize s.userRepo.List 1 100 st = res at h ⊢
    obtain ⟨x, st1⟩ := res
    simp only at h
    subst h
    simp only [write_dataBody_fresh]
  · intro hno
    simp only [ListSucceeds] at hno
    simp only [Service.listUser, write_error_fresh]
    generalize s.userRepo.List 1 100 st = res at hno ⊢
    obtain ⟨x, st1⟩ := res
    cases x with
    | error err => exact errorResponse_isErrorEnvelope _ _ (Or.inr rfl)
    | ok pair =>
      obtain ⟨users, total⟩ := pair
      exact absurd ⟨users, total, rfl⟩ hno
  · rintro ⟨hid, hd⟩
    simp only [Service.deleteUser, hid, if_false]
    generalize s.userRepo.DeleteByID _ st = res at hd ⊢
    obtain ⟨oe, st1⟩ := res
    simp only at hd
    subst hd
    rfl
  · intro hno
    by_cases hid : r.FormValue "id" = ""
    · simp only [Service.deleteUser, hid, if_true, write_error_fresh]
      exact errorResponse_isErrorEnvelope _ _ (Or.inl rfl)
    · have hno2 : ¬ (s.userRepo.DeleteByID (r.FormValue "id") st).1 = none :=
        fun h => hno ⟨hid, h⟩
      simp only [Service.deleteUser, hid, if_false, write_error_fresh]
      generalize s.userRepo.DeleteByID _ st = res at hno2 ⊢
      obtain ⟨oe, st1⟩ := res
      cases oe with
      | some err => exact errorResponse_isErrorEnvelope _ _ (Or.inr rfl)
      | none => exact absurd rfl hno2
  · intro p j h
    simp [dataBody, h]

theorem envelope_follows_outcome_witness :
    (Service.getUser ⟨mockRepo okAnswers, sampleCodec⟩ NewRecorder
        (formRequest "GET" "/user/get" [("id", "7")]) ()).1
      = ⟨200, true, dataBody sampleCodec (Payload.user (convertModelUser sampleUser))⟩ ∧
    IsErrorEnvelope
      (Service.getUser ⟨mockRepo (failAnswers "user not found"), sampleCodec⟩ NewRecorder
        (formRequest "GET" "/user/get" [("email", "aa@bb.com")]) ()).1 ∧
    (Service.deleteUser ⟨mockRepo okAnswers, sampleCodec⟩ NewRecorder
        (formRequest "POST" "/user/delete" [("id", "7")]) ()).1
      = ⟨200, false, Body.empty⟩ ∧
    IsErrorEnvelope
      (Service.deleteUser ⟨mockRepo (failAnswers "gone"), sampleCodec⟩ NewRecorder
        (formRequest "POST" "/user/delete" [("id", "7")]) ()).1 ∧
    dataBody sampleCodec (Payload.user (convertModelUser sampleUser))
      = Body.json (JValue.obj [("data",
          userDoc (convertModelUser sampleUser) sampleTimeText sampleTimeText)]) :=
  ⟨(envelope_follows_outcome ⟨mockRepo okAnswers, sampleCodec⟩ zeroUUID
      (formRequest "GET" "/user/get" [("id", "7")]) ()).2.2.1 sampleUser
      (Or.inl ⟨by decide, rfl⟩),
   (envelope_follows_outcome ⟨mockRepo (failAnswers "user not found"), sampleCodec⟩ zeroUUID
      (formRequest "GET" "/user/get" [("email", "aa@bb.com")]) ()).2.2.2.1
      (by
        rintro ⟨rec, ⟨hid, _⟩ | ⟨_, _, hget⟩⟩
        · exact hid (by decide)
        · cases hget),
   (envelope_follows_outcome ⟨mockRepo okAnswers, sampleCodec⟩ zeroUUID
      (formRequest "POST" "/user/delete" [("id", "7")]) ()).2.2.2.2.2.2.2.2.1
      ⟨by decide, rfl⟩,
   (envelope_follows_outcome ⟨mockRepo (failAnswers "gone"), sampleCodec⟩ zeroUUID
      (formRequest "POST" "/user/delete" [("id", "7")]) ()).2.2.2.2.2.2.2.2.2.1
      (by
        rintro ⟨_, hdel⟩
        cases hdel),
   (envelope_follows_outcome ⟨mockRepo okAnswers, sampleCodec⟩ zeroUUID
      (formRequest "GET" "/user/get" [("id", "7")]) ()).2.2.2.2.2.2.2.2.2.2
      (Payload.user (convertModelUser sampleUser))
      (userDoc (convertModelUser sampleUser) sampleTimeText sampleTimeText) rfl⟩

/-! ## Client: bodies of a status-200 response -/

theorem userCreate_status_ok {τ : Type} (h : Client.HTTP τ) (tc : TimeCodec)
    (server : String) (st st1 : τ) (arg : Client.User) (body : Body)
    (hreq : h.newRequestErr "GET" (server ++ "/user/create") = none)
    (hdo : h.Do (createRequest server arg) st
      = (Except.ok ⟨200, Client.ReadAll.ok body⟩, st1)) :
    Client.client.UserCreate ⟨h, server, tc⟩ arg st
      = match Client.unmarshalCreateGet tc body with
        | Except.error e => ((none, some (Client.Error.parseResponse e)), st1)
        | Except.ok userResp => ((some userResp.Data, none), st1) := by
  simp only [createRequest] at hdo
  simp [Client.client.UserCreate, Client.HTTP.NewRequest, hreq, hdo, StatusOK]

theorem userGet_status_ok {τ : Type} (h : Client.HTTP τ) (tc : TimeCodec)
    (server : String) (st st1 : τ) (id : String) (body : Body)
    (hreq : h.newRequestErr "GET" (server ++ "/user/create") = none)
    (hdo : h.Do (getRequest server id) st
      = (Except.ok ⟨200, Client.ReadAll.ok body⟩, st1)) :
    Client.client.UserGet ⟨h, server, tc⟩ id st
      = match Client.unmarshalCreateGet tc body with
        | Except.error e => ((none, some (Client.Error.parseResponse e)), st1)
        | Except.ok userResp => ((some userResp.Data, none), st1) := by
  simp only [getRequest] at hdo
  simp [Client.client.UserGet, Client.HTTP.NewRequest, hreq, hdo, StatusOK]

theorem userList_status_ok {τ : Type} (h : Client.HTTP τ) (tc : TimeCodec)
    (server : String) (st st1 : τ) (body : Body)
    (hreq : h.newRequestErr "GET" (server ++ "/user/list") = none)
    (hdo : h.Do (listRequest server) st
      = (Except.ok ⟨200, Client.ReadAll.ok body⟩, st1)) :
    Client.client.UserList ⟨h, server, tc⟩ st
      = match Client.unmarshalList tc body with
        | Except.error e => (([], 0, some (Client.Error.parseResponse e)), st1)
        | Except.ok listResp => ((listResp.Data.Users, listResp.Data.Total, none), st1) := by
  simp only [listRequest] at hdo
  simp [Client.client.UserList, Client.HTTP.NewRequest, hreq, hdo, StatusOK]

theorem matchField_mem (fields : List String) (key f : String)
    (h : Client.matchField fields key = some f) : f ∈ fields := by
  unfold Client.matchField at h
  split at h
  · rename_i hk
    simp only [Option.some.injEq] at h
    exact h ▸ hk
  · exact List.mem_of_find?_eq_some h

theorem decodeUserMember_fits (tc : TimeCodec) (cur : Client.User) (k : String) (v : JValue)
    (h : FitsUserMember tc k v) : ∃ r, Client.decodeUserMember tc cur k v = Except.ok r := by
  unfold FitsUserMember at h
  unfold Client.decodeUserMember
  cases hm : Client.matchField Client.userFields k with
  | none => exact ⟨cur, rfl⟩
  | some f =>
    have hf := matchField_mem _ _ _ hm
    rw [hm] at h
    simp only [Client.userFields, List.mem_cons, List.mem_singleton, List.not_mem_nil,
      or_false] at hf
    rcases hf with rfl | rfl | rfl | rfl | rfl | rfl <;>
      cases v <;>
      simp_all [FitsString, FitsInt, FitsTime, Client.decodeString, Client.decodeInt,
        Client.decodeTime, Except.map]
    all_goals
      rename_i s
      cases ht : tc.parse s with
      | none => exact absurd ht h
      | some t => exact ⟨_, rfl⟩

theorem decodeUserMember_misfit (tc : TimeCodec) (cur : Client.User) (k : String) (v : JValue)
    (h : ¬ FitsUserMember tc k v) :
    Client.decodeUserMember tc cur k v = Except.error Client.DecodeError.mismatch := by
  unfold FitsUserMember at h
  unfold Client.decodeUserMember
  cases hm : Client.matchField Client.userFields k with
  | none => rw [hm] at h; exact absurd trivial h
  | some f =>
    have hf := matchField_mem _ _ _ hm
    rw [hm] at h
    simp only [Client.userFields, List.mem_cons, List.mem_singleton, List.not_mem_nil,
      or_false] at hf
    rcases hf with rfl | rfl | rfl | rfl | rfl | rfl <;>
      cases v <;>
      simp_all [FitsString, FitsInt, FitsTime, Client.decodeString, Client.decodeInt,
        Client.decodeTime, Except.map]

theorem decodeUserMembers_fits (tc : TimeCodec) (members : List (String × JValue))
    (cur : Client.User) (h : ∀ kv ∈ members, FitsUserMember tc kv.1 kv.2) :
    ∃ r, Client.decodeUserMembers tc members cur = Except.ok r := by
  induction members generalizing cur with
  | nil => exact ⟨cur, rfl⟩
  | cons kv rest ih =>
    obtain ⟨k, v⟩ := kv
    obtain ⟨next, hnext⟩ := decodeUserMember_fits tc cur k v (h (k, v) (List.mem_cons_self _ _))
    obtain ⟨r, hr⟩ := ih next (fun x hx => h x (List.mem_cons_of_mem _ hx))
    exact ⟨r, by simp only [Client.decodeUserMembers, hnext, hr]⟩

theorem decodeUserMembers_misfit (tc : TimeCodec) (members : List (String × JValue))
    (cur : Client.User) (h : ¬ ∀ kv ∈ members, FitsUserMember tc kv.1 kv.2) :
    Client.decodeUserMembers tc members cur = Except.error Client.DecodeError.mismatch := by
  induction members generalizing cur with
  | nil => exact absurd (fun _ hx => absurd hx (List.not_mem_nil _)) h
  | cons kv rest ih =>
    obtain ⟨k, v⟩ := kv
    by_cases hkv : FitsUserMember tc k v
    · obtain ⟨next, hnext⟩ := decodeUserMember_fits tc cur k v hkv
      have hrest : ¬ ∀ x ∈ rest, FitsUserMember tc x.1 x.2 := by
        intro hall
        apply h
        intro x hx
        rcases List.mem_cons.mp hx with rfl | hx
        · exact hkv
        · exact hall x hx
      simp only [Client.decodeUserMembers, hnext, ih next hrest]
    · simp only [Client.decodeUserMembers, decodeUserMember_misfit tc cur k v hkv]

theorem decodeUser_fits (tc : TimeCodec) (v : JValue) (cur : Client.User)
    (h : FitsUser tc v) : ∃ r, Client.decodeUser tc v cur = Except.ok r := by
  cases v with
  | obj members => exact decodeUserMembers_fits tc members cur h
  | null => exact ⟨cur, rfl⟩
  | _ => exact absurd h (by simp [FitsUser])

theorem decodeUser_misfit (tc : TimeCodec) (v : JValue) (cur : Client.User)
    (h : ¬ FitsUser tc v) :
    Client.decodeUser tc v cur = Except.error Client.DecodeError.mismatch := by
  cases v with
  | obj members => exact decodeUserMembers_misfit tc members cur h
  | null => exact absurd trivial h
  | _ => rfl

theorem decodeUser_null (tc : TimeCodec) (cur : Client.User) :
    Client.decodeUser tc JValue.null cur = Except.ok cur := rfl

theorem decodeUsers_fits (tc : TimeCodec) (items : List JValue) (cur : List Client.User)
    (h : ∀ item ∈ items, FitsUser tc item) :
    ∃ rs, Client.decodeUsers tc items cur = Except.ok rs := by
  induction items generalizing cur with
  | nil => exact ⟨[], rfl⟩
  | cons v rest ih =>
    obtain ⟨r, hr⟩ := decodeUser_fits tc v (cur.headD Client.User.zero)
      (h v (List.mem_cons_self _ _))
    obtain ⟨rs, hrs⟩ := ih cur.tail (fun x hx => h x (List.mem_cons_of_mem _ hx))
    exact ⟨r :: rs, by simp only [Client.decodeUsers, hr, hrs]⟩

theorem decodeUsers_misfit (tc : TimeCodec) (items : List JValue) (cur : List Client.User)
    (h : ¬ ∀ item ∈ items, FitsUser tc item) :
    Client.decodeUsers tc items cur = Except.error Client.DecodeError.mismatch := by
  induction items generalizing cur with
  | nil => exact absurd (fun _ hx => absurd hx (List.not_mem_nil _)) h
  | cons v rest ih =>
    by_cases hv : FitsUser tc v
    · obtain ⟨r, hr⟩ := decodeUser_fits tc v (cur.headD Client.User.zero) hv
      have hrest : ¬ ∀ x ∈ rest, FitsUser tc x := by
        intro hall
        apply h
        intro x hx
        rcases List.mem_cons.mp hx with rfl | hx
        · exact hv
        · exact hall x hx
      simp only [Client.decodeUsers, hr, ih cur.tail hrest]
    · have he := decodeUser_misfit tc v (cur.headD Client.User.zero) hv
      simp only [Client.decodeUsers, he]

theorem decodeListDataMember_fits (tc : TimeCodec) (cur : Client.ListResponseData)
    (k : String) (v : JValue) (h : FitsListDataMember tc k v) :
    ∃ r, Client.decodeListDataMember tc cur k v = Except.ok r := by
  unfold FitsListDataMember at h
  unfold Client.decodeListDataMember
  cases hm : Client.matchField ["total", "users"] k with
  | none => exact ⟨cur, rfl⟩
  | some f =>
    have hf := matchField_mem _ _ _ hm
    rw [hm] at h
    simp only [List.mem_cons, List.mem_singleton, List.not_mem_nil, or_false] at hf
    rcases hf with rfl | rfl
    · cases v <;> simp_all [FitsInt, Client.decodeInt, Except.map]
    · cases v with
      | arr items =>
        obtain ⟨rs, hrs⟩ := decodeUsers_fits tc items cur.Users h
        exact ⟨{ cur with Users := rs }, by simp only [hrs, Except.map]⟩
      | null => exact ⟨_, rfl⟩
      | _ => exact absurd h (by simp [FitsUsers])

theorem decodeListDataMember_misfit (tc : TimeCodec) (cur : Client.ListResponseData)
    (k : String) (v : JValue) (h : ¬ FitsListDataMember tc k v) :
    Client.decodeListDataMember tc cur k v = Except.error Client.DecodeError.mismatch := by
  unfold FitsListDataMember at h
  unfold Client.decodeListDataMember
  cases hm : Client.matchField ["total", "users"] k with
  | none => rw [hm] at h; exact absurd trivial h
  | some f =>
    have hf := matchField_mem _ _ _ hm
    rw [hm] at h
    simp only [List.mem_cons, List.mem_singleton, List.not_mem_nil, or_false] at hf
    rcases hf with rfl | rfl
    · cases v <;> simp_all [FitsInt, Client.decodeInt, Except.map]
    · cases v with
      | arr items =>
        have he := decodeUsers_misfit tc items cur.Users h
        simp only [he, Except.map]
      | null => exact absurd trivial h
      | _ => rfl

theorem decodeListDataMembers_fits (tc : TimeCodec) (members : List (String × JValue))
    (cur : Client.ListResponseData) (h : ∀ kv ∈ members, FitsListDataMember tc kv.1 kv.2) :
    ∃ r, Client.decodeListDataMembers tc members cur = Except.ok r := by
  induction members generalizing cur with
  | nil => exact ⟨cur, rfl⟩
  | cons kv rest ih =>
    obtain ⟨k, v⟩ := kv
    obtain ⟨next, hnext⟩ :=
      decodeListDataMember_fits tc cur k v (h (k, v) (List.mem_cons_self _ _))
    obtain ⟨r, hr⟩ := ih next (fun x hx => h x (List.mem_cons_of_mem _ hx))
    exact ⟨r, by simp only [Client.decodeListDataMembers, hnext, hr]⟩

theorem decodeListDataMembers_misfit (tc : TimeCodec) (members : List (String × JValue))
    (cur : Client.ListResponseData)
    (h : ¬ ∀ kv ∈ members, FitsListDataMember tc kv.1 kv.2) :
    Client.decodeListDataMembers tc members cur
      = Except.error Client.DecodeError.mismatch := by
  induction members generalizing cur with
  | nil => exact absurd (fun _ hx => absurd hx (List.not_mem_nil _)) h
  | cons kv rest ih =>
    obtain ⟨k, v⟩ := kv
    by_cases hkv : FitsListDataMember tc k v
    · obtain ⟨next, hnext⟩ := decodeListDataMember_fits tc cur k v hkv
      have hrest : ¬ ∀ x ∈ rest, FitsListDataMember tc x.1 x.2 := by
        intro hall
        apply h
        intro x hx
        rcases List.mem_cons.mp hx with rfl | hx
        · exact hkv
        · exact hall x hx
      simp only [Client.decodeListDataMembers, hnext, ih next hrest]
    · simp only [Client.decodeListDataMembers, decodeListDataMember_misfit tc cur k v hkv]

theorem decodeListData_fits (tc : TimeCodec) (v : JValue) (cur : Client.ListResponseData)
    (h : FitsListData tc v) : ∃ r, Client.decodeListData tc v cur = Except.ok r := by
  cases v with
  | obj members => exact decodeListDataMembers_fits tc members cur h
  | null => exact ⟨cur, rfl⟩
  | _ => exact absurd h (by simp [FitsListData])

theorem decodeListData_misfit (tc : TimeCodec) (v : JValue) (cur : Client.ListResponseData)
    (h : ¬ FitsListData tc v) :
    Client.decodeListData tc v cur = Except.error Client.DecodeError.mismatch := by
  cases v with
  | obj members => exact decodeListDataMembers_misfit tc members cur h
  | null => exact absurd trivial h
  | _ => rfl

theorem decodeCreateGetMembers_fits (tc : TimeCodec) (members : List (String × JValue))
    (cur : Client.CreateGetResponse)
    (h : ∀ kv ∈ members, Client.matchField ["data"] kv.1 ≠ none → FitsUser tc kv.2) :
    ∃ r, Client.decodeCreateGetMembers tc members cur = Except.ok r := by
  induction members generalizing cur with
  | nil => exact ⟨cur, rfl⟩
  | cons kv rest ih =>
    obtain ⟨k, v⟩ := kv
    have hrest := fun x hx => h x (List.mem_cons_of_mem (k, v) hx)
    cases hm : Client.matchField ["data"] k with
    | none =>
      obtain ⟨r, hr⟩ := ih cur hrest
      exact ⟨r, by simp only [Client.decodeCreateGetMembers, Client.decodeCreateGetMember, hm,
        hr]⟩
    | some f =>
      obtain ⟨u, hu⟩ := decodeUser_fits tc v cur.Data
        (h (k, v) (List.mem_cons_self _ _) (by simp [hm]))
      obtain ⟨r, hr⟩ := ih { cur with Data := u } hrest
      exact ⟨r, by simp only [Client.decodeCreateGetMembers, Client.decodeCreateGetMember, hm,
        hu, Except.map, hr]⟩

theorem decodeCreateGetMembers_misfit (tc : TimeCodec) (members : List (String × JValue))
    (cur : Client.CreateGetResponse)
    (h : ¬ ∀ kv ∈ members, Client.matchField ["data"] kv.1 ≠ none → FitsUser tc kv.2) :
    Client.decodeCreateGetMembers tc members cur
      = Except.error Client.DecodeError.mismatch := by
  induction members generalizing cur with
  | nil => exact absurd (fun _ hx => absurd hx (List.not_mem_nil _)) h
  | cons kv rest ih =>
    obtain ⟨k, v⟩ := kv
    by_cases hkv : Client.matchField ["data"] k ≠ none → FitsUser tc v
    · have hrest : ¬ ∀ x ∈ rest, Client.matchField ["data"] x.1 ≠ none → FitsUser tc x.2 := by
        intro hall
        apply h
        intro x hx
        rcases List.mem_cons.mp hx with rfl | hx
        · exact hkv
        · exact hall x hx
      cases hm : Client.matchField ["data"] k with
      | none =>
        simp only [Client.decodeCreateGetMembers, Client.decodeCreateGetMember, hm,
          ih cur hrest]
      | some f =>
        obtain ⟨u, hu⟩ := decodeUser_fits tc v cur.Data (hkv (by simp [hm]))
        simp only [Client.decodeCreateGetMembers, Client.decodeCreateGetMember, hm, hu,
          Except.map, ih _ hrest]
    · have hm : Client.matchField ["data"] k ≠ none := fun hn => hkv (fun hne => absurd hn hne)
      have hv : ¬ FitsUser tc v := fun hf => hkv (fun _ => hf)
      obtain ⟨f, hf⟩ := Option.ne_none_iff_exists'.mp hm
      simp only [Client.decodeCreateGetMembers, Client.decodeCreateGetMember, hf,
        decodeUser_misfit tc v cur.Data hv, Except.map]

theorem decodeListMembers_fits (tc : TimeCodec) (members : List (String × JValue))
    (cur : Client.ListResponse)
    (h : ∀ kv ∈ members, Client.matchField ["data"] kv.1 ≠ none → FitsListData tc kv.2) :
    ∃ r, Client.decodeListMembers tc members cur = Except.ok r := by
  induction members generalizing cur with
  | nil => exact ⟨cur, rfl⟩
  | cons kv rest ih =>
    obtain ⟨k, v⟩ := kv
    have hrest := fun x hx => h x (List.mem_cons_of_mem (k, v) hx)
    cases hm : Client.matchField ["data"] k with
    | none =>
      obtain ⟨r, hr⟩ := ih cur hrest
      exact ⟨r, by simp only [Client.decodeListMembers, Client.decodeListMember, hm, hr]⟩
    | some f =>
      obtain ⟨u, hu⟩ := decodeListData_fits tc v cur.Data
        (h (k, v) (List.mem_cons_self _ _) (by simp [hm]))
      obtain ⟨r, hr⟩ := ih { cur with Data := u } hrest
      exact ⟨r, by simp only [Client.decodeListMembers, Client.decodeListMember, hm,
        hu, Except.map, hr]⟩

theorem decodeListMembers_misfit (tc : TimeCodec) (members : List (String × JValue))
    (cur : Client.ListResponse)
    (h : ¬ ∀ kv ∈ members, Client.matchField ["data"] kv.1 ≠ none → FitsListData tc kv.2) :
    Client.decodeListMembers tc members cur = Except.error Client.DecodeError.mismatch := by
  induction members generalizing cur with
  | nil => exact absurd (fun _ hx => absurd hx (List.not_mem_nil _)) h
  | cons kv rest ih =>
    obtain ⟨k, v⟩ := kv
    by_cases hkv : Client.matchField ["data"] k ≠ none → FitsListData tc v
    · have hrest :
          ¬ ∀ x ∈ rest, Client.matchField ["data"] x.1 ≠ none → FitsListData tc x.2 := by
        intro hall
        apply h
        intro x hx
        rcases List.mem_cons.mp hx with rfl | hx
        · exact hkv
        · exact hall x hx
      cases hm : Client.matchField ["data"] k with
      | none =>
        simp only [Client.decodeListMembers, Client.decodeListMember, hm, ih cur hrest]
      | some f =>
        obtain ⟨u, hu⟩ := decodeListData_fits tc v cur.Data (hkv (by simp [hm]))
        simp only [Client.decodeListMembers, Client.decodeListMember, hm, hu,
          Except.map, ih _ hrest]
    · have hm : Client.matchField ["data"] k ≠ none := fun hn => hkv (fun hne => absurd hn hne)
      have hv : ¬ FitsListData tc v := fun hf => hkv (fun _ => hf)
      obtain ⟨f, hf⟩ := Option.ne_none_iff_exists'.mp hm
      simp only [Client.decodeListMembers, Client.decodeListMember, hf,
        decodeListData_misfit tc v cur.Data hv, Except.map]

theorem decodeCreateGetMembers_noData (tc : TimeCodec) (members : List (String × JValue))
    (cur : Client.CreateGetResponse)
    (h : ∀ kv ∈ members, Client.matchField ["data"] kv.1 ≠ none → kv.2 = JValue.null) :
    Client.decodeCreateGetMembers tc members cur = Except.ok cur := by
  induction members with
  | nil => rfl
  | cons kv rest ih =>
    obtain ⟨k, v⟩ := kv
    have hrest := fun x hx => h x (List.mem_cons_of_mem (k, v) hx)
    cases hm : Client.matchField ["data"] k with
    | none =>
      simp only [Client.decodeCreateGetMembers, Client.decodeCreateGetMember, hm, ih hrest]
    | some f =>
      have hv : v = JValue.null := h (k, v) (List.mem_cons_self _ _) (by simp [hm])
      subst hv
      simp only [Client.decodeCreateGetMembers, Client.decodeCreateGetMember, hm,
        decodeUser_null, Except.map, ih hrest]

theorem decodeListMembers_noData (tc : TimeCodec) (members : List (String × JValue))
    (cur : Client.ListResponse)
    (h : ∀ kv ∈ members, Client.matchField ["data"] kv.1 ≠ none → kv.2 = JValue.null) :
    Client.decodeListMembers tc members cur = Except.ok cur := by
  induction members with
  | nil => rfl
  | cons kv rest ih =>
    obtain ⟨k, v⟩ := kv
    have hrest := fun x hx => h x (List.mem_cons_of_mem (k, v) hx)
    cases hm : Client.matchField ["data"] k with
    | none =>
      simp only [Client.decodeListMembers, Client.decodeListMember, hm, ih hrest]
    | some f =>
      have hv : v = JValue.null := h (k, v) (List.mem_cons_self _ _) (by simp [hm])
      subst hv
      have hnull : Client.decodeListData tc JValue.null cur.Data = Except.ok cur.Data := rfl
      simp only [Client.decodeListMembers, Client.decodeListMember, hm, hnull, Except.map,
        ih hrest]

theorem unmarshalCreateGet_fits (tc : TimeCodec) (v : JValue) (h : FitsCreateGet tc v) :
    ∃ r, Client.unmarshalCreateGet tc (Body.json v) = Except.ok r := by
  cases v with
  | obj members => exact decodeCreateGetMembers_fits tc members _ h
  | null => exact ⟨_, rfl⟩
  | _ => exact absurd h (by simp [FitsCreateGet])

theorem unmarshalCreateGet_misfit (tc : TimeCodec) (v : JValue) (h : ¬ FitsCreateGet tc v) :
    Client.unmarshalCreateGet tc (Body.json v) = Except.error Client.DecodeError.mismatch := by
  cases v with
  | obj members => exact decodeCreateGetMembers_misfit tc members _ h
  | null => exact absurd trivial h
  | _ => rfl

theorem unmarshalCreateGet_noData (tc : TimeCodec) (v : JValue) (h : CarriesNoData v) :
    Client.unmarshalCreateGet tc (Body.json v) = Except.ok ⟨Client.User.zero⟩ := by
  cases v with
  | obj members => exact decodeCreateGetMembers_noData tc members _ h
  | null => rfl
  | _ => exact absurd h (by simp [CarriesNoData])

theorem unmarshalList_fits (tc : TimeCodec) (v : JValue) (h : FitsList tc v) :
    ∃ r, Client.unmarshalList tc (Body.json v) = Except.ok r := by
  cases v with
  | obj members => exact decodeListMembers_fits tc members _ h
  | null => exact ⟨_, rfl⟩
  | _ => exact absurd h (by simp [FitsList])

theorem unmarshalList_misfit (tc : TimeCodec) (v : JValue) (h : ¬ FitsList tc v) :
    Client.unmarshalList tc (Body.json v) = Except.error Client.DecodeError.mismatch := by
  cases v with
  | obj members => exact decodeListMembers_misfit tc members _ h
  | null => exact absurd trivial h
  | _ => rfl

theorem unmarshalList_noData (tc : TimeCodec) (v : JValue) (h : CarriesNoData v) :
    Client.unmarshalList tc (Body.json v) = Except.ok ⟨⟨0, []⟩⟩ := by
  cases v with
  | obj members => exact decodeListMembers_noData tc members _ h
  | null => rfl
  | _ => exact absurd h (by simp [CarriesNoData])

/-- C11 (as stated, refuted): with status 200, the body `{}` makes `UserGet` return the
zero-valued user with a nil error, the body `{"error":"x"}` makes `UserCreate` do the
same, and the body `{}` makes `UserList` return an empty list and total 0 with a nil
error. -/
theorem empty_object_is_accepted_as_zero_result :
    Client.client.UserGet
        ⟨answering 200 (Body.json (JValue.obj [])), sampleServer, sampleCodec⟩ "7" ()
      = ((some Client.User.zero, none), ()) ∧
    Client.client.UserCreate
        ⟨answering 200 (Body.json (JValue.obj [("error", JValue.str "x")])), sampleServer,
          sampleCodec⟩ (newUser "liuliu" "aa@bb.com") ()
      = ((some Client.User.zero, none), ()) ∧
    Client.client.UserList
        ⟨answering 200 (Body.json (JValue.obj [])), sampleServer, sampleCodec⟩ ()
      = (([], 0, none), ()) := by
  refine ⟨by decide, by decide, by decide⟩

/-- C11 (amended): for `UserCreate`, `UserGet` and `UserList` and a response with status 200.
A body that is not a JSON text (empty or otherwise) makes the call fail with a parse error.
A JSON document makes the call fail with a parse error exactly when it does not have the
expected shape, that is, when it is neither `null` nor an object, or when some member read
as `data` (whatever its position, under the exact name or another spelling that folds
to it) is neither `null` nor an object whose members fit the fields they are read as
(for a user: `id`, `name`, `email` a string, `age` an integer of 64 bits, `createdAt`,
`updatedAt` a string the time codec accepts; for a list: `total` an integer of 64 bits,
`users` an array of such users; `null` fits everywhere); a failing call returns no user,
or no users and total 0. A document of the expected shape makes the call return a result
with a nil error; when it carries no data (`null`, or an object in which every member read
as `data` is `null`, such as `{}`, `{"error":"x"}`, `{"data":null}`) that result is the
zero-valued user, or an empty list with total 0. -/
theorem status_ok_outcome_follows_shape {τ : Type} (h : Client.HTTP τ) (tc : TimeCodec)
    (server : String) (st st1 : τ) (arg : Client.User) (id : String) (body : Body)
    (hreq : h.newRequestErr "GET" (server ++ "/user/create") = none)
    (hreqList : h.newRequestErr "GET" (server ++ "/user/list") = none)
    (hcreate : h.Do (createRequest server arg) st
      = (Except.ok ⟨200, Client.ReadAll.ok body⟩, st1))
    (hget : h.Do (getRequest server id) st
      = (Except.ok ⟨200, Client.ReadAll.ok body⟩, st1))
    (hlist : h.Do (listRequest server) st
      = (Except.ok ⟨200, Client.ReadAll.ok body⟩, st1)) :
    ((body = Body.empty ∨ body = Body.invalid) →
      Client.client.UserCreate ⟨h, server, tc⟩ arg st
        = ((none, some (Client.Error.parseResponse Client.DecodeError.syntaxError)), st1) ∧
      Client.client.UserGet ⟨h, server, tc⟩ id st
        = ((none, some (Client.Error.parseResponse Client.DecodeError.syntaxError)), st1) ∧
      Client.client.UserList ⟨h, server, tc⟩ st
        = (([], 0, some (Client.Error.parseResponse Client.DecodeError.syntaxError)), st1)) ∧
    (∀ v : JValue, body = Body.json v →
      (¬ FitsCreateGet tc v →
        Client.client.UserCreate ⟨h, server, tc⟩ arg st
          = ((none, some (Client.Error.parseResponse Client.DecodeError.mismatch)), st1) ∧
        Client.client.UserGet ⟨h, server, tc⟩ id st
          = ((none, some (Client.Error.parseResponse Client.DecodeError.mismatch)), st1)) ∧
      (¬ FitsList tc v →
        Client.client.UserList ⟨h, server, tc⟩ st
          = (([], 0, some (Client.Error.parseResponse Client.DecodeError.mismatch)), st1)) ∧
      (FitsCreateGet tc v →
        ∃ r : Client.User,
          Client.client.UserCreate ⟨h, server, tc⟩ arg st = ((some r, none), st1) ∧
          Client.client.UserGet ⟨h, server, tc⟩ id st = ((some r, none), st1)) ∧
      (FitsList tc v →
        ∃ (rs : List Client.User) (total : Int),
          Client.client.UserList ⟨h, server, tc⟩ st = ((rs, total, none), st1)) ∧
      (CarriesNoData v →
        Client.client.UserCreate ⟨h, server, tc⟩ arg st
          = ((some Client.User.zero, none), st1) ∧
        Client.client.UserGet ⟨h, server, tc⟩ id st = ((some Client.User.zero, none), st1) ∧
        Client.client.UserList ⟨h, server, tc⟩ st = (([], 0, none), st1))) := by
  have hC := userCreate_status_ok h tc server st st1 arg body hreq hcreate
  have hG := userGet_status_ok h tc server st st1 id body hreq hget
  have hL := userList_status_ok h tc server st st1 body hreqList hlist
  refine ⟨?_, ?_⟩
  · intro hb
    rcases hb with hb | hb <;> subst hb <;>
      exact ⟨by rw [hC]; rfl, by rw [hG]; rfl, by rw [hL]; rfl⟩
  · intro v hb
    subst hb
    refine ⟨?_, ?_, ?_, ?_, ?_⟩
    · intro hv
      rw [hC, hG, unmarshalCreateGet_misfit tc v hv]
      exact ⟨rfl, rfl⟩
    · intro hv
      rw [hL, unmarshalList_misfit tc v hv]
    · intro hv
      obtain ⟨r, hr⟩ := unmarshalCreateGet_fits tc v hv
      rw [hC, hG, hr]
      exact ⟨r.Data, rfl, rfl⟩
    · intro hv
      obtain ⟨r, hr⟩ := unmarshalList_fits tc v hv
      rw [hL, hr]
      exact ⟨r.Data.Users, r.Data.Total, rfl⟩
    · intro hv
      rw [hC, hG, hL, unmarshalCreateGet_noData tc v hv, unmarshalList_noData tc v hv]
      exact ⟨rfl, rfl, rfl⟩

theorem status_ok_outcome_follows_shape_witness :
    Client.client.UserGet ⟨answering 200 Body.empty, sampleServer, sampleCodec⟩ "7" ()
      = ((none, some (Client.Error.parseResponse Client.DecodeError.syntaxError)), ()) ∧
    Client.client.UserCreate
        ⟨answering 200 (Body.json (JValue.obj [("x", JValue.num 1), ("data", JValue.num 5)])),
          sampleServer, sampleCodec⟩ (newUser "liuliu" "aa@bb.com") ()
      = ((none, some (Client.Error.parseResponse Client.DecodeError.mismatch)), ()) ∧
    Client.client.UserList
        ⟨answering 200 (Body.json (JValue.obj [("DATA", JValue.str "x")])), sampleServer,
          sampleCodec⟩ ()
      = (([], 0, some (Client.Error.parseResponse Client.DecodeError.mismatch)), ()) ∧
    Client.client.UserGet
        ⟨answering 200
            (Body.json (JValue.obj [("data", JValue.obj [("age", JValue.str "x")])])),
          sampleServer, sampleCodec⟩ "7" ()
      = ((none, some (Client.Error.parseResponse Client.DecodeError.mismatch)), ()) ∧
    Client.client.UserGet
        ⟨answering 200 (Body.json (JValue.obj [("data", JValue.null)])), sampleServer,
          sampleCodec⟩ "7" ()
      = ((some Client.User.zero, none), ()) ∧
    Client.client.UserList ⟨answering 200 (Body.json JValue.null), sampleServer, sampleCodec⟩ ()
      = (([], 0, none), ()) :=
  ⟨((status_ok_outcome_follows_shape (answering 200 Body.empty) sampleCodec sampleServer () ()
      (newUser "liuliu" "aa@bb.com") "7" Body.empty rfl rfl rfl rfl rfl).1
      (Or.inl rfl)).2.1,
   (((status_ok_outcome_follows_shape
      (answering 200 (Body.json (JValue.obj [("x", JValue.num 1), ("data", JValue.num 5)])))
      sampleCodec sampleServer () () (newUser "liuliu" "aa@bb.com") "7"
      (Body.json (JValue.obj [("x", JValue.num 1), ("data", JValue.num 5)]))
      rfl rfl rfl rfl rfl).2 _ rfl).1
      (fun hfit => hfit ("data", JValue.num 5) (by simp) (by decide))).1,
   (((status_ok_outcome_follows_shape
      (answering 200 (Body.json (JValue.obj [("DATA", JValue.str "x")])))
      sampleCodec sampleServer () () (newUser "liuliu" "aa@bb.com") "7"
      (Body.json (JValue.obj [("DATA", JValue.str "x")]))
      rfl rfl rfl rfl rfl).2 _ rfl).2.1
      (fun hfit => hfit ("DATA", JValue.str "x") (by simp) (by decide))),
   (((status_ok_outcome_follows_shape
      (answering 200
        (Body.json (JValue.obj [("data", JValue.obj [("age", JValue.str "x")])])))
      sampleCodec sampleServer () () (newUser "liuliu" "aa@bb.com") "7"
      (Body.json (JValue.obj [("data", JValue.obj [("age", JValue.str "x")])]))
      rfl rfl rfl rfl rfl).2 _ rfl).1
      (fun hfit => hfit ("data", JValue.obj [("age", JValue.str "x")]) (by simp) (by decide)
        ("age", JValue.str "x") (by simp))).2,
   (((status_ok_outcome_follows_shape
      (answering 200 (Body.json (JValue.obj [("data", JValue.null)])))
      sampleCodec sampleServer () () (newUser "liuliu" "aa@bb.com") "7"
      (Body.json (JValue.obj [("data", JValue.null)]))
      rfl rfl rfl rfl rfl).2 _ rfl).2.2.2.2
      (by intro kv hkv _; simp only [List.mem_singleton] at hkv; subst hkv; rfl)).2.1,
   (((status_ok_outcome_follows_shape
      (answering 200 (Body.json JValue.null))
      sampleCodec sampleServer () () (newUser "liuliu" "aa@bb.com") "7"
      (Body.json JValue.null)
      rfl rfl rfl rfl rfl).2 _ rfl).2.2.2.2 trivial).2.2⟩

/-! ## Fake client: update, delete, lookup of an absent id -/

theorem findEntry_storeEntry_other {V : Type} (l : List (String × V)) (key k : String)
    (val : V) (h : k ≠ key) : findEntry (storeEntry l key val) k = findEntry l k := by
  have h2 : ¬ key = k := fun e => h e.symm
  induction l with
  | nil => simp [storeEntry, findEntry, h2]
  | cons p rest ih =>
    obtain ⟨k1, v1⟩ := p
    by_cases hk : k1 = key
    · have h3 : ¬ k1 = k := fun e => h (e.symm.trans hk)
      simp [storeEntry, findEntry, hk, h2]
    · by_cases hk2 : k1 = k
      · subst hk2
        simp only [storeEntry, hk, if_false, findEntry, if_true]
      · simp only [storeEntry, hk, if_false, findEntry, hk2, ih]

theorem dropEntry_cons {V : Type} (k1 : String) (v1 : V) (rest : List (String × V))
    (key : String) :
    dropEntry ((k1, v1) :: rest) key
      = if k1 = key then dropEntry rest key else (k1, v1) :: dropEntry rest key := by
  by_cases hk : k1 = key <;> simp [dropEntry, List.filter_cons, hk]

theorem findEntry_dropEntry_same {V : Type} (l : List (String × V)) (key : String) :
    findEntry (dropEntry l key) key = none := by
  induction l with
  | nil => rfl
  | cons p rest ih =>
    obtain ⟨k1, v1⟩ := p
    rw [dropEntry_cons]
    by_cases hk : k1 = key
    · simp only [hk, if_true, ih]
    · simp only [hk, if_false, findEntry, ih]

theorem findEntry_dropEntry_other {V : Type} (l : List (String × V)) (key k : String)
    (h : k ≠ key) : findEntry (dropEntry l key) k = findEntry l k := by
  induction l with
  | nil => rfl
  | cons p rest ih =>
    obtain ⟨k1, v1⟩ := p
    rw [dropEntry_cons]
    by_cases hk : k1 = key
    · have h3 : ¬ k1 = k := fun e => h (e.symm.trans hk)
      simp only [hk, if_true, ih, findEntry]
      rw [← hk]
      simp only [h3, if_false]
    · simp only [hk, if_false, findEntry, ih]

theorem findEntry_some_mem_keys {V : Type} (l : List (String × V)) (key : String) (val : V)
    (h : findEntry l key = some val) : key ∈ l.map Prod.fst := by
  induction l with
  | nil => simp [findEntry] at h
  | cons p rest ih =>
    obtain ⟨k1, v1⟩ := p
    by_cases hk : k1 = key
    · simp [hk]
    · simp only [findEntry, hk, if_false] at h
      simp [ih h]

theorem GoMap.get_set_other {V : Type} (m : GoMap V) (key k : String) (val : V)
    (h : k ≠ key) : (m.set key val).get k = m.get k :=
  findEntry_storeEntry_other m.entries key k val h

theorem GoMap.get_delete_same {V : Type} (m : GoMap V) (key : String) :
    (m.delete key).get key = none :=
  findEntry_dropEntry_same m.entries key

theorem GoMap.get_delete_other {V : Type} (m : GoMap V) (key k : String) (h : k ≠ key) :
    (m.delete key).get k = m.get k :=
  findEntry_dropEntry_other m.entries key k h

theorem GoMap.keys_set_present {V : Type} (m : GoMap V) (key : String) (old val : V)
    (h : m.get key = some old) :
    (m.set key val).entries.map Prod.fst = m.entries.map Prod.fst := by
  have hmem := findEntry_some_mem_keys m.entries key old h
  simp only [GoMap.set, storeEntry_keys, hmem, if_true]

/-- C14: when `u.ID` is not a key of the id→record map, `UserUpdate(u)` returns an error and
the state is what it was; when it is, with record `old`, the call returns nil, the
email→id map is what it was, the map keeps its keys in their order, every other id keeps
its record, and the record under `u.ID` is `old` with `Name` replaced by `u.Name`: id,
email, age and both timestamps are those of `old`, whatever `u` carries. -/
theorem fake_update_replaces_name_only (c : Fake.fakeClient) (u : Client.User) :
    (c.users.get u.ID = none → c.UserUpdate u = (some "user already exists", c)) ∧
    (∀ old : Client.User, c.users.get u.ID = some old →
      (c.UserUpdate u).1 = none ∧
      (c.UserUpdate u).2.usersByEmail = c.usersByEmail ∧
      (c.UserUpdate u).2.users.entries.map Prod.fst = c.users.entries.map Prod.fst ∧
      (∀ k : String, k ≠ u.ID → (c.UserUpdate u).2.users.get k = c.users.get k) ∧
      (c.UserUpdate u).2.users.get u.ID
        = some { ID := old.ID, Name := u.Name, Email := old.Email, Age := old.Age,
                 CreatedAt := old.CreatedAt, UpdatedAt := old.UpdatedAt }) := by
  refine ⟨?_, ?_⟩
  · intro h
    simp only [Fake.fakeClient.UserUpdate, h]
  · intro old h
    simp only [Fake.fakeClient.UserUpdate, h]
    refine ⟨trivial, trivial, GoMap.keys_set_present c.users u.ID old _ h, ?_, ?_⟩
    · intro k hk
      exact GoMap.get_set_other c.users u.ID k _ hk
    · exact GoMap.get_set_same c.users u.ID _

theorem fake_update_replaces_name_only_witness :
    emptyFake.UserUpdate { newUser "liuliu2" "" with ID := "7" }
      = (some "user already exists", emptyFake) ∧
    (oneUserFake.UserUpdate
        { ID := oneUserRecord.ID, Name := "liuliu2", Email := "other@bb.com", Age := 44,
          CreatedAt := Time.zero, UpdatedAt := Time.zero }).2.users.get oneUserRecord.ID
      = some { ID := oneUserRecord.ID, Name := "liuliu2", Email := "aa@bb.com", Age := 0,
               CreatedAt := sampleTime, UpdatedAt := sampleTime } :=
  ⟨(fake_update_replaces_name_only emptyFake { newUser "liuliu2" "" with ID := "7" }).1
      (by decide),
   ((fake_update_replaces_name_only oneUserFake
      { ID := oneUserRecord.ID, Name := "liuliu2", Email := "other@bb.com", Age := 44,
        CreatedAt := Time.zero, UpdatedAt := Time.zero }).2 oneUserRecord (by decide)).2.2.2.2⟩

/-- C15: when `id` is not a key of the id→record map, `UserDelete(id)` returns an error and
the state is what it was; when it is, with record `rec`, the call returns nil, `id` is no
longer a key and every other id keeps its record, the email of `rec` is no longer a key
of the email→id map and every other email keeps its id, a following `UserGet(id)` returns
an error and no record, and a following `UserCreate` with the email of `rec` returns a
record and a nil error. -/
theorem fake_delete_removes_id_and_email (c : Fake.fakeClient) (id : String) :
    (c.users.get id = none → c.UserDelete id = (some "user already exists", c)) ∧
    (∀ rec : Client.User, c.users.get id = some rec →
      (c.UserDelete id).1 = none ∧
      (c.UserDelete id).2.users.get id = none ∧
      (∀ k : String, k ≠ id → (c.UserDelete id).2.users.get k = c.users.get k) ∧
      (c.UserDelete id).2.usersByEmail.get rec.Email = none ∧
      (∀ e : String, e ≠ rec.Email →
        (c.UserDelete id).2.usersByEmail.get e = c.usersByEmail.get e) ∧
      (c.UserDelete id).2.UserGet id
        = ((none, some "user already exists"), (c.UserDelete id).2) ∧
      (∀ (newID : UUID) (now : Time) (u : Client.User), u.Email = rec.Email →
        ((c.UserDelete id).2.UserCreate newID now u).1
          = (some (createdRecord newID now u), none))) := by
  refine ⟨?_, ?_⟩
  · intro h
    simp only [Fake.fakeClient.UserDelete, h]
  · intro rec h
    have hstate : (c.UserDelete id).2
        = ⟨c.users.delete id, c.usersByEmail.delete rec.Email⟩ := by
      simp only [Fake.fakeClient.UserDelete, h]
    have hgone : (c.UserDelete id).2.users.get id = none := by
      rw [hstate]
      exact GoMap.get_delete_same c.users id
    have hemail : (c.UserDelete id).2.usersByEmail.get rec.Email = none := by
      rw [hstate]
      exact GoMap.get_delete_same c.usersByEmail rec.Email
    refine ⟨?_, hgone, ?_, hemail, ?_, ?_, ?_⟩
    · simp only [Fake.fakeClient.UserDelete, h]
    · intro k hk
      rw [hstate]
      exact GoMap.get_delete_other c.users id k hk
    · intro e he
      rw [hstate]
      exact GoMap.get_delete_other c.usersByEmail rec.Email e he
    · simp only [Fake.fakeClient.UserGet, hgone]
    · intro newID now u hu
      rw [← hu] at hemail
      simp only [Fake.fakeClient.UserCreate, hemail, GoMap.get_set_same, createdRecord]

theorem fake_delete_removes_id_and_email_witness :
    emptyFake.UserDelete "7" = (some "user already exists", emptyFake) ∧
    (oneUserFake.UserDelete oneUserRecord.ID).2.UserGet oneUserRecord.ID
      = ((none, some "user already exists"), (oneUserFake.UserDelete oneUserRecord.ID).2) ∧
    ((oneUserFake.UserDelete oneUserRecord.ID).2.UserCreate zeroUUID Time.zero
        (newUser "again" "aa@bb.com")).1
      = (some (createdRecord zeroUUID Time.zero (newUser "again" "aa@bb.com")), none) :=
  ⟨(fake_delete_removes_id_and_email emptyFake "7").1 (by decide),
   ((fake_delete_removes_id_and_email oneUserFake oneUserRecord.ID).2 oneUserRecord
      (by decide)).2.2.2.2.2.1,
   ((fake_delete_removes_id_and_email oneUserFake oneUserRecord.ID).2 oneUserRecord
      (by decide)).2.2.2.2.2.2 zeroUUID Time.zero (newUser "again" "aa@bb.com") rfl⟩

/-- C16 (the code at a failing input): on the empty fake client, `UserGet` of an id that was
never created returns no record, leaves the state as it was and fails with the message
`user already exists`, the very message with which `UserCreate` refuses a duplicate
email. -/
theorem fake_get_absent_reports_already_exists :
    emptyFake.UserGet "never-created" = ((none, some "user already exists"), emptyFake) ∧
    (oneUserFake.UserCreate zeroUUID sampleTime (newUser "other" "aa@bb.com")).1
      = (none, some "user already exists") ∧
    (emptyFake.UserGet "never-created").1.2
      = (oneUserFake.UserCreate zeroUUID sampleTime (newUser "other" "aa@bb.com")).1.2 := by
  refine ⟨rfl, by decide, by decide⟩

/-! ## Fake client: the two maps agree -/

theorem findEntry_of_mem {V : Type} (l : List (String × V)) (key : String) (val : V)
    (hnd : (l.map Prod.fst).Nodup) (h : (key, val) ∈ l) : findEntry l key = some val := by
  induction l with
  | nil => simp at h
  | cons p rest ih =>
    obtain ⟨k1, v1⟩ := p
    simp only [List.map_cons, List.nodup_cons] at hnd
    rcases List.mem_cons.mp h with heq | hrest
    · simp only [Prod.mk.injEq] at heq
      simp [findEntry, heq.1, heq.2]
    · have hk : ¬ k1 = key := by
        intro e
        apply hnd.1
        rw [e]
        exact List.mem_map.mpr ⟨(key, val), hrest, rfl⟩
      simp only [findEntry, hk, if_false]
      exact ih hnd.2 hrest

theorem mapsAgree_create (c : Fake.fakeClient) (newID : UUID) (now : Time) (u : Client.User)
    (h : MapsAgree c) (hfresh : c.users.get newID.String = none) :
    MapsAgree (c.UserCreate newID now u).2 := by
  cases he : c.usersByEmail.get u.Email with
  | some i => simpa only [Fake.fakeClient.UserCreate, he] using h
  | none =>
    simp only [Fake.fakeClient.UserCreate, he]
    refine ⟨?_, ?_⟩
    · intro e i hget
      by_cases hee : e = u.Email
      · subst hee
        rw [GoMap.get_set_same] at hget
        simp only [Option.some.injEq] at hget
        subst hget
        exact ⟨_, GoMap.get_set_same _ _ _, rfl⟩
      · rw [GoMap.get_set_other _ _ _ _ hee] at hget
        obtain ⟨r, hr, hre⟩ := h.1 e i hget
        have hi : i ≠ newID.String := by
          intro hi
          rw [hi, hfresh] at hr
          cases hr
        exact ⟨r, by rw [GoMap.get_set_other _ _ _ _ hi]; exact hr, hre⟩
    · intro i r hget
      by_cases hi : i = newID.String
      · subst hi
        rw [GoMap.get_set_same] at hget
        simp only [Option.some.injEq] at hget
        subst hget
        exact ⟨rfl, GoMap.get_set_same _ _ _⟩
      · rw [GoMap.get_set_other _ _ _ _ hi] at hget
        obtain ⟨hid, hmail⟩ := h.2 i r hget
        have hne : r.Email ≠ u.Email := by
          intro hne
          rw [hne, he] at hmail
          cases hmail
        exact ⟨hid, by rw [GoMap.get_set_other _ _ _ _ hne]; exact hmail⟩

theorem mapsAgree_update (c : Fake.fakeClient) (u : Client.User) (h : MapsAgree c) :
    MapsAgree (c.UserUpdate u).2 := by
  cases hg : c.users.get u.ID with
  | none => simpa only [Fake.fakeClient.UserUpdate, hg] using h
  | some old =>
    simp only [Fake.fakeClient.UserUpdate, hg]
    obtain ⟨hoid, homail⟩ := h.2 u.ID old hg
    refine ⟨?_, ?_⟩
    · intro e i hget
      obtain ⟨r, hr, hre⟩ := h.1 e i hget
      by_cases hi : i = u.ID
      · subst hi
        rw [hg] at hr
        simp only [Option.some.injEq] at hr
        subst hr
        exact ⟨_, GoMap.get_set_same _ _ _, hre⟩
      · exact ⟨r, by rw [GoMap.get_set_other _ _ _ _ hi]; exact hr, hre⟩
    · intro i r hget
      by_cases hi : i = u.ID
      · subst hi
        rw [GoMap.get_set_same] at hget
        simp only [Option.some.injEq] at hget
        subst hget
        exact ⟨hoid, homail⟩
      · rw [GoMap.get_set_other _ _ _ _ hi] at hget
        exact h.2 i r hget

theorem mapsAgree_delete (c : Fake.fakeClient) (id : String) (h : MapsAgree c) :
    MapsAgree (c.UserDelete id).2 := by
  cases hg : c.users.get id with
  | none => simpa only [Fake.fakeClient.UserDelete, hg] using h
  | some rec =>
    simp only [Fake.fakeClient.UserDelete, hg]
    obtain ⟨_, hrmail⟩ := h.2 id rec hg
    refine ⟨?_, ?_⟩
    · intro e i hget
      by_cases hee : e = rec.Email
      · rw [hee, GoMap.get_delete_same] at hget
        cases hget
      · rw [GoMap.get_delete_other _ _ _ hee] at hget
        obtain ⟨r, hr, hre⟩ := h.1 e i hget
        have hi : i ≠ id := by
          intro hi
          rw [hi, hg] at hr
          simp only [Option.some.injEq] at hr
          exact hee (by rw [← hre, ← hr])
        exact ⟨r, by rw [GoMap.get_delete_other _ _ _ hi]; exact hr, hre⟩
    · intro i r hget
      by_cases hi : i = id
      · rw [hi, GoMap.get_delete_same] at hget
        cases hget
      · rw [GoMap.get_delete_other _ _ _ hi] at hget
        obtain ⟨hid, hmail⟩ := h.2 i r hget
        have hne : r.Email ≠ rec.Email := by
          intro hne
          rw [hne, hrmail] at hmail
          simp only [Option.some.injEq] at hmail
          exact hi hmail.symm
        exact ⟨hid, by rw [GoMap.get_delete_other _ _ _ hne]; exact hmail⟩

theorem findEntry_some_mem {V : Type} (l : List (String × V)) (key : String) (val : V)
    (h : findEntry l key = some val) : (key, val) ∈ l := by
  induction l with
  | nil => simp [findEntry] at h
  | cons p rest ih =>
    obtain ⟨k1, v1⟩ := p
    by_cases hk : k1 = key
    · simp only [findEntry, hk, if_true, Option.some.injEq] at h
      simp [hk, h]
    · simp only [findEntry, hk, if_false] at h
      exact List.mem_cons_of_mem _ (ih h)

theorem mapsAgree_no_shared_email (c : Fake.fakeClient) (h : MapsAgree c)
    (i1 i2 : String) (r1 r2 : Client.User) (h1 : c.users.get i1 = some r1)
    (h2 : c.users.get i2 = some r2) (he : r1.Email = r2.Email) : i1 = i2 := by
  have e1 := (h.2 i1 r1 h1).2
  have e2 := (h.2 i2 r2 h2).2
  rw [he, e2] at e1
  simp only [Option.some.injEq] at e1
  exact e1.symm

theorem mapsAgree_users_le (c : Fake.fakeClient) (h : MapsAgree c) :
    c.users.len ≤ c.usersByEmail.len := by
  have hnd : (c.users.entries.map (fun p => p.2.Email)).Nodup := by
    apply List.Nodup.map_on _ (List.Nodup.of_map Prod.fst c.users.nodup)
    intro x hx y hy hxy
    obtain ⟨i1, r1⟩ := x
    obtain ⟨i2, r2⟩ := y
    have g1 : c.users.get i1 = some r1 := findEntry_of_mem _ _ _ c.users.nodup hx
    have g2 : c.users.get i2 = some r2 := findEntry_of_mem _ _ _ c.users.nodup hy
    have hi : i1 = i2 := mapsAgree_no_shared_email c h i1 i2 r1 r2 g1 g2 hxy
    subst hi
    rw [g1] at g2
    simp only [Option.some.injEq] at g2
    rw [g2]
  have hsub : c.users.entries.map (fun p => p.2.Email)
      ⊆ c.usersByEmail.entries.map Prod.fst := by
    intro e he
    obtain ⟨p, hp, rfl⟩ := List.mem_map.mp he
    obtain ⟨i, r⟩ := p
    have g : c.users.get i = some r := findEntry_of_mem _ _ _ c.users.nodup hp
    exact findEntry_some_mem_keys _ _ _ (h.2 i r g).2
  have hle := (List.Nodup.subperm hnd hsub).length_le
  simpa [GoMap.len] using hle

theorem mapsAgree_emails_le (c : Fake.fakeClient) (h : MapsAgree c) :
    c.usersByEmail.len ≤ c.users.len := by
  have hnd : (c.usersByEmail.entries.map (fun p => p.2)).Nodup := by
    apply List.Nodup.map_on _ (List.Nodup.of_map Prod.fst c.usersByEmail.nodup)
    intro x hx y hy hxy
    obtain ⟨e1, i1⟩ := x
    obtain ⟨e2, i2⟩ := y
    simp only at hxy
    subst hxy
    have g1 : c.usersByEmail.get e1 = some i1 :=
      findEntry_of_mem _ _ _ c.usersByEmail.nodup hx
    have g2 : c.usersByEmail.get e2 = some i1 :=
      findEntry_of_mem _ _ _ c.usersByEmail.nodup hy
    obtain ⟨r1, hr1, hm1⟩ := h.1 e1 i1 g1
    obtain ⟨r2, hr2, hm2⟩ := h.1 e2 i1 g2
    rw [hr1] at hr2
    simp only [Option.some.injEq] at hr2
    rw [← hm1, ← hm2, hr2]
  have hsub : c.usersByEmail.entries.map (fun p => p.2)
      ⊆ c.users.entries.map Prod.fst := by
    intro i hi
    obtain ⟨p, hp, rfl⟩ := List.mem_map.mp hi
    obtain ⟨e, i⟩ := p
    have g : c.usersByEmail.get e = some i :=
      findEntry_of_mem _ _ _ c.usersByEmail.nodup hp
    obtain ⟨r, hr, _⟩ := h.1 e i g
    exact findEntry_some_mem_keys _ _ _ hr
  have hle := (List.Nodup.subperm hnd hsub).length_le
  simpa [GoMap.len] using hle

/-- C19: if the two maps of a fake client agree (every email→id entry has its record, whose
email is the key, and every record is under its own `ID` and has its email→id entry),
then they agree in the state left by `UserCreate` when the generated id is not yet a key,
and by `UserGet`, `UserUpdate`, `UserDelete` and `UserList`, whatever these return; and in
any state where they agree, two records under different ids have different emails and
both maps have the same number of entries. -/
theorem fake_maps_stay_in_agreement (c : Fake.fakeClient) (h : MapsAgree c) :
    (∀ (newID : UUID) (now : Time) (u : Client.User), c.users.get newID.String = none →
      MapsAgree (c.UserCreate newID now u).2) ∧
    (∀ id : String, MapsAgree (c.UserGet id).2) ∧
    (∀ u : Client.User, MapsAgree (c.UserUpdate u).2) ∧
    (∀ id : String, MapsAgree (c.UserDelete id).2) ∧
    MapsAgree c.UserList.2 ∧
    (∀ (i1 i2 : String) (r1 r2 : Client.User), c.users.get i1 = some r1 →
      c.users.get i2 = some r2 → i1 ≠ i2 → r1.Email ≠ r2.Email) ∧
    c.users.len = c.usersByEmail.len := by
  refine ⟨?_, ?_, ?_, ?_, ?_, ?_, ?_⟩
  · intro newID now u hfresh
    exact mapsAgree_create c newID now u h hfresh
  · intro id
    have hstate : (c.UserGet id).2 = c := by
      unfold Fake.fakeClient.UserGet
      split <;> rfl
    rw [hstate]
    exact h
  · intro u
    exact mapsAgree_update c u h
  · intro id
    exact mapsAgree_delete c id h
  · exact h
  · intro i1 i2 r1 r2 h1 h2 hne he
    exact hne (mapsAgree_no_shared_email c h i1 i2 r1 r2 h1 h2 he)
  · exact Nat.le_antisymm (mapsAgree_users_le c h) (mapsAgree_emails_le c h)

theorem mapsAgree_empty : MapsAgree emptyFake := by
  refine ⟨?_, ?_⟩
  · intro e i hget
    simp [emptyFake, GoMap.empty, GoMap.get, findEntry] at hget
  · intro i r hget
    simp [emptyFake, GoMap.empty, GoMap.get, findEntry] at hget

theorem fake_maps_stay_in_agreement_witness :
    MapsAgree oneUserFake ∧ emptyFake.users.len = emptyFake.usersByEmail.len :=
  ⟨(fake_maps_stay_in_agreement emptyFake mapsAgree_empty).1 zeroUUID sampleTime
      (newUser "liuliu" "aa@bb.com") (by decide),
   (fake_maps_stay_in_agreement emptyFake mapsAgree_empty).2.2.2.2.2.2⟩

end UserManage
